import Mathlib

/-!
Shallow embedding of the Natac game engine core (JavaScript source:
`Hex.js`, the `Vertex`, `Edge`, `NumberToken`, game-piece, `Board`,
`Player` and `Game` classes) into Lean 4, together with theorems that
settle the specification claims C1-C10.

Embedding conventions:
* JavaScript `Map` objects keyed by canonical coordinate strings are
  modelled as insertion-ordered association lists keyed by the coordinate
  tuples themselves (`"q,r"` becomes `(q, r) : Int × Int`, and
  `"q,r,direction"` becomes `(q, r, d) : Int × Int × Nat`).
* Object references between tiles, corners and sides are modelled as
  arena keys into the board's maps, mirroring how the source fetches the
  shared entities by canonical key.
* `Math.random()` draws are modelled by an explicit stream of natural
  numbers: each draw `Math.floor(Math.random() * n)` takes the next
  stream element modulo `n`, so every outcome the source can produce is
  produced by some stream, and universally quantified theorems over the
  stream cover all random outcomes.
* The single `console.warn` in `Board.placeRedTokensWithConstraint`
  (the documented fallback of the red-token adjacency constraint) is
  modelled as an explicit boolean in the result of board generation.
* Mutation is modelled by state passing: each method becomes a function
  from the mutated state(s) to the updated state(s).
-/

set_option maxHeartbeats 1000000
set_option maxRecDepth 10000

namespace Natac

/-- Canonical key of a tile: the axial coordinate pair (q, r). -/
abbrev HexId := Int × Int

/-- Canonical key of a corner or side: (q, r, direction). -/
abbrev VEId := Int × Int × Nat

/-- JS `Map.get`: lookup by key in an insertion-ordered association list. -/
def mapGet {κ ν : Type} [DecidableEq κ] (m : List (κ × ν)) (k : κ) : Option ν :=
  match m with
  | [] => none
  | (k', v) :: t => if k' = k then some v else mapGet t k

/-- JS `Map.set`: update in place if the key exists, else append. -/
def mapSet {κ ν : Type} [DecidableEq κ] (m : List (κ × ν)) (k : κ) (v : ν) : List (κ × ν) :=
  match m with
  | [] => [(k, v)]
  | (k', v') :: t => if k' = k then (k, v) :: t else (k', v') :: mapSet t k v

/-- Update the value stored at a key (models mutating the object fetched
from a JS `Map`; a missing key mutates nothing). -/
def mapUpdate {κ ν : Type} [DecidableEq κ] (m : List (κ × ν)) (k : κ) (f : ν → ν) :
    List (κ × ν) :=
  match m with
  | [] => []
  | (k', v) :: t => if k' = k then (k', f v) :: t else (k', v) :: mapUpdate t k f

/-- One `Math.random()` draw from the explicit randomness stream
(an exhausted stream keeps yielding 0; all claims quantify over all
streams, which covers every outcome of the unseeded source). -/
def draw (rng : List Nat) : Nat × List Nat :=
  match rng with
  | [] => (0, [])
  | x :: r => (x, r)

/-- Array element swap `[a[i], a[j]] = [a[j], a[i]]` used by the shuffle. -/
def swapIdx {α : Type} (l : List α) (i j : Nat) : List α :=
  match l.get? i, l.get? j with
  | some a, some b => (l.set i b).set j a
  | _, _ => l

/-- The loop of `Board.shuffleArray` (Fisher-Yates): the argument is the
current loop counter minus one, so the `i + 1` pattern is the source's
`i > 0` loop variable and `x % (i + 2)` is `Math.floor(Math.random() * (i + 1))`. -/
def fisherAux {α : Type} (l : List α) (rng : List Nat) : Nat → List α × List Nat
  | 0 => (l, rng)
  | i + 1 =>
    let p := draw rng
    fisherAux (swapIdx l (i + 1) (p.1 % (i + 2))) p.2 i

/-- `Board.shuffleArray(array)`: Fisher-Yates on a copy of the array. -/
def shuffleArray {α : Type} (l : List α) (rng : List Nat) : List α × List Nat :=
  fisherAux l rng (l.length - 1)

/-- JS `array.splice(array.indexOf(x), 1)`: remove the first occurrence. -/
def removeFirst {α : Type} [DecidableEq α] : List α → α → List α
  | [], _ => []
  | x :: t, a => if x = a then t else x :: removeFirst t a

/-- Terrain kinds of `Hex.terrain`. -/
inductive Terrain
  | forest | hills | mountains | fields | pasture | desert | sea
deriving DecidableEq, Repr

/-- `Hex.getResourceType()`: terrain to resource string, `null` for
desert/sea (the `resourceMap` lookup with `|| null`). -/
def terrainResource : Terrain → Option String
  | .forest => some "lumber"
  | .hills => some "brick"
  | .mountains => some "ore"
  | .fields => some "grain"
  | .pasture => some "wool"
  | _ => none

/-- A number chit: `NumberToken` with its value and the tile it is bound
to (the `hex` back-reference, as an arena key). -/
structure NumberToken where
  value : Nat
  hex : Option HexId := none
deriving DecidableEq, Repr

/-- `NumberToken.calculateProbability(value)`. -/
def calculateProbability (value : Nat) : Nat :=
  if value = 2 then 1 else if value = 3 then 2 else if value = 4 then 3
  else if value = 5 then 4 else if value = 6 then 5 else if value = 7 then 6
  else if value = 8 then 5 else if value = 9 then 4 else if value = 10 then 3
  else if value = 11 then 2 else if value = 12 then 1 else 0

/-- `NumberToken.isHighProbability()`: value 6 or 8. -/
def NumberToken.isHighProbability (t : NumberToken) : Bool :=
  t.value = 6 || t.value = 8

/-- `NumberToken.createStandardSet()`: the fixed 18-value multiset. -/
def createStandardSet : List NumberToken :=
  [2, 3, 3, 4, 4, 5, 5, 6, 6, 8, 8, 9, 9, 10, 10, 11, 11, 12].map
    (fun v => { value := v })

/-- Building kind stored at a corner (`GamePiece.type` restricted to the
two corner pieces). -/
inductive BType
  | settlement | city
deriving DecidableEq, Repr

/-- A building occupying a corner: kind, owning player (index into the
game's player list), and the piece's id (`GamePiece.id` counter). -/
structure Building where
  btype : BType
  owner : Nat
  pid : Nat
deriving DecidableEq, Repr

/-- A road occupying a side: owning player index and piece id. -/
structure RoadPiece where
  owner : Nat
  pid : Nat
deriving DecidableEq, Repr

/-- A tile (`Hex`): coordinates, terrain, bound token (index into the
board's `numberTokens` list), robber flag, and the relationship lists
populated by the `Board`. -/
structure Hex where
  q : Int
  r : Int
  terrain : Terrain
  numberToken : Option Nat := none
  hasRobber : Bool := false
  vertices : List VEId := []
  edges : List VEId := []
  neighbors : List HexId := []
deriving DecidableEq, Repr

/-- A corner (`Vertex`): coordinates, building/port slots and the
relationship lists populated by the `Board`.  (The `port` slot is never
assigned by the core and is omitted.) -/
structure Vertex where
  q : Int
  r : Int
  direction : Nat
  building : Option Building := none
  hexes : List HexId := []
  edges : List VEId := []
  adjacentVertices : List VEId := []
deriving DecidableEq, Repr

/-- A side (`Edge`): coordinates, road slot and relationship lists. -/
structure Edge where
  q : Int
  r : Int
  direction : Nat
  road : Option RoadPiece := none
  hexes : List HexId := []
  vertices : List VEId := []
  adjacentEdges : List VEId := []
deriving DecidableEq, Repr

/-- The robber piece: the tile it stands on. -/
structure Robber where
  hex : Option HexId := none
deriving DecidableEq, Repr

/-- The `Board`: the three coordinate-keyed maps, the token list, the
robber, and the generation metadata. -/
structure Board where
  hexes : List (HexId × Hex) := []
  vertices : List (VEId × Vertex) := []
  edges : List (VEId × Edge) := []
  numberTokens : List NumberToken := []
  robber : Robber := {}
  isGenerated : Bool := false
  boardType : String := "standard"
deriving DecidableEq, Repr

/-- The board produced by the `Board` constructor. -/
def emptyBoard : Board := {}

/-- `Board.clear()`. -/
def Board.clear (b : Board) : Board :=
  { b with hexes := [], vertices := [], edges := [], numberTokens := [],
           robber := {}, isGenerated := false }

/-- `Board.addHex(hex)`: keyed by `"q,r"`. -/
def addHex (b : Board) (h : Hex) : Board :=
  { b with hexes := mapSet b.hexes (h.q, h.r) h }

/-- `Board.getHex(q, r)`. -/
def getHex (b : Board) (q r : Int) : Option Hex :=
  mapGet b.hexes (q, r)

/-- The per-direction corner offset table of `Board.getVertexCoords`. -/
def vertexOffsets : List (Int × Int × Nat) :=
  [(1, -1, 4), (1, 0, 5), (0, 1, 0), (-1, 1, 1), (-1, 0, 2), (0, -1, 3)]

/-- `Board.getVertexCoords(hexQ, hexR, direction)`. -/
def getVertexCoords (hexQ hexR : Int) (direction : Nat) : VEId :=
  let o := (vertexOffsets.getD direction (0, 0, 0))
  (hexQ + o.1, hexR + o.2.1, o.2.2)

/-- `Board.getEdgeCoords(hexQ, hexR, direction)`: the identity on the
hex's own coordinates. -/
def getEdgeCoords (hexQ hexR : Int) (direction : Nat) : VEId :=
  (hexQ, hexR, direction)

/-- `Board.createVerticesForHex(hex)`: for each of the 6 directions,
create the corner on first reference and cross-link it with the hex. -/
def createVerticesForHex (b : Board) (hid : HexId) : Board :=
  (List.range 6).foldl
    (fun b direction =>
      match mapGet b.hexes hid with
      | none => b
      | some hex =>
        let vc := getVertexCoords hex.q hex.r direction
        let b :=
          if (mapGet b.vertices vc).isSome then b
          else { b with vertices :=
                  mapSet b.vertices vc ({ q := vc.1, r := vc.2.1, direction := vc.2.2 }) }
        { b with
            hexes := mapUpdate b.hexes hid
              (fun h => { h with vertices := h.vertices ++ [vc] }),
            vertices := mapUpdate b.vertices vc
              (fun v => { v with hexes := v.hexes ++ [hid] }) })
    b

/-- `Board.createEdgesForHex(hex)`. -/
def createEdgesForHex (b : Board) (hid : HexId) : Board :=
  (List.range 6).foldl
    (fun b direction =>
      match mapGet b.hexes hid with
      | none => b
      | some hex =>
        let ec := getEdgeCoords hex.q hex.r direction
        let b :=
          if (mapGet b.edges ec).isSome then b
          else { b with edges :=
                  mapSet b.edges ec ({ q := ec.1, r := ec.2.1, direction := ec.2.2 }) }
        { b with
            hexes := mapUpdate b.hexes hid
              (fun h => { h with edges := h.edges ++ [ec] }),
            edges := mapUpdate b.edges ec
              (fun e => { e with hexes := e.hexes ++ [hid] }) })
    b

/-- The fixed neighbor offset table of `Board.linkHexRelationships`. -/
def neighborOffsets : List (Int × Int) :=
  [(1, -1), (1, 0), (0, 1), (-1, 1), (-1, 0), (0, -1)]

/-- `Board.linkHexRelationships(hex)`: record existing tile neighbors,
then cross-link each corner with its hex's edges i-1, i, i+1 (mod 6). -/
def linkHexRelationships (b : Board) (hid : HexId) : Board :=
  match mapGet b.hexes hid with
  | none => b
  | some hex0 =>
    let b := neighborOffsets.foldl
      (fun b off =>
        match getHex b (hex0.q + off.1) (hex0.r + off.2) with
        | none => b
        | some _ =>
          let hx := mapUpdate b.hexes hid
            (fun h => { h with neighbors :=
                h.neighbors ++ [(hex0.q + off.1, hex0.r + off.2)] })
          { b with hexes := hx })
      b
    match mapGet b.hexes hid with
    | none => b
    | some hex1 =>
      hex1.vertices.enum.foldl
        (fun b iv =>
          [(iv.1 + 5) % 6, iv.1, (iv.1 + 1) % 6].foldl
            (fun b ei =>
              match hex1.edges.get? ei with
              | none => b
              | some ek =>
                let b :=
                  match mapGet b.vertices iv.2 with
                  | some v =>
                    if ek ∈ v.edges then b
                    else
                      let vm := mapUpdate b.vertices iv.2
                        (fun v => { v with edges := v.edges ++ [ek] })
                      { b with vertices := vm }
                  | none => b
                match mapGet b.edges ek with
                | some e =>
                  if iv.2 ∈ e.vertices then b
                  else
                    let em := mapUpdate b.edges ek
                      (fun e => { e with vertices := e.vertices ++ [iv.2] })
                    { b with edges := em }
                | none => b)
            b)
        b

/-- `Board.buildRelationships()`: first pass creates corners and sides
per hex, second pass links the relationships. -/
def buildRelationships (b : Board) : Board :=
  let keys := b.hexes.map Prod.fst
  let b := keys.foldl (fun b k => createEdgesForHex (createVerticesForHex b k) k) b
  keys.foldl linkHexRelationships b

/-- The standard 19-tile layout of `Board.generateStandardBoard`. -/
def hexLayout : List HexId :=
  [(-2, 0), (-1, -1), (0, -2),
   (-2, 1), (-1, 0), (0, -1), (1, -2),
   (-2, 2), (-1, 1), (0, 0), (1, -1), (2, -2),
   (-1, 2), (0, 1), (1, 0), (2, -1),
   (0, 2), (1, 1), (2, 0)]

/-- The standard terrain multiset of `Board.generateStandardBoard`. -/
def standardTerrains : List Terrain :=
  [.forest, .forest, .forest, .forest,
   .pasture, .pasture, .pasture, .pasture,
   .fields, .fields, .fields, .fields,
   .hills, .hills, .hills,
   .mountains, .mountains, .mountains,
   .desert]

/-- The hex-creation loop `hexLayout.forEach((coord, index) => ...)`.
The index never runs past the terrain list (the shuffle preserves its
length 19); the `getD` default is arbitrary. -/
def createHexesLoop (b : Board) (layout : List HexId) (ts : List Terrain) (i : Nat) :
    Board :=
  match layout with
  | [] => b
  | c :: rest =>
    createHexesLoop
      (addHex b { q := c.1, r := c.2, terrain := ts.getD i Terrain.desert })
      rest ts (i + 1)

/-- `NumberToken.placeOnHex(hex)` for the token at index `ti` of the
board's token list: unbind from any previous hex, bind to the new one. -/
def placeTokenOnHex (b : Board) (ti : Nat) (hid : HexId) : Board :=
  match b.numberTokens.get? ti with
  | none => b
  | some t =>
    let b :=
      match t.hex with
      | some old =>
        { b with hexes :=
            mapUpdate b.hexes old (fun h => { h with numberToken := none }) }
      | none => b
    { b with
        numberTokens := b.numberTokens.set ti { t with hex := some hid },
        hexes := mapUpdate b.hexes hid
          (fun h => { h with numberToken := some ti }) }

/-- `token && token.isHighProbability()` for a token reference. -/
def tokenIsHigh (b : Board) (ti : Nat) : Bool :=
  match b.numberTokens.get? ti with
  | some t => t.isHighProbability
  | none => false

/-- `hex.numberToken && hex.numberToken.isHighProbability()`. -/
def hexHasHighToken (b : Board) (h : Hex) : Bool :=
  match h.numberToken with
  | some ti => tokenIsHigh b ti
  | none => false

/-- The candidate filter of `Board.placeRedTokensWithConstraint`: no
neighbor already carries a high-probability token. -/
def hexOkForRed (b : Board) (hid : HexId) : Bool :=
  match mapGet b.hexes hid with
  | none => false
  | some h =>
    ! h.neighbors.any (fun nk =>
        match mapGet b.hexes nk with
        | some nh => hexHasHighToken b nh
        | none => false)

/-- The loop of `Board.placeRedTokensWithConstraint(redTokens, hexes)`.
The boolean accumulates whether the `console.warn` fallback branch ran. -/
def placeRedLoop (b : Board) (tokens : List Nat) (avail : List HexId)
    (warn : Bool) (rng : List Nat) : Board × List HexId × Bool × List Nat :=
  match tokens with
  | [] => (b, avail, warn, rng)
  | ti :: rest =>
    let validHexes := avail.filter (hexOkForRed b)
    if validHexes.length > 0 then
      let p := draw rng
      let selected := validHexes.getD (p.1 % validHexes.length) (0, 0)
      placeRedLoop (placeTokenOnHex b ti selected) rest
        (removeFirst avail selected) warn p.2
    else
      match avail.getLast? with
      | some last =>
        placeRedLoop (placeTokenOnHex b ti last) rest avail.dropLast true rng
      | none => placeRedLoop b rest avail true rng

/-- `!hex.numberToken` for a hex reference. -/
def tokenFree (b : Board) (hid : HexId) : Bool :=
  match mapGet b.hexes hid with
  | some h => h.numberToken.isNone
  | none => false

/-- The indexed loop of `Board.placeRemainingTokens(tokens, hexes)`. -/
def placeRemainingLoop : Board → List Nat → List HexId → Board
  | b, ti :: ts, h :: hs => placeRemainingLoop (placeTokenOnHex b ti h) ts hs
  | b, _, _ => b

/-- `Board.placeNumberTokens()`.  Token references are indices into the
standard set; the returned boolean reports the red-token fallback. -/
def placeNumberTokens (b : Board) (rng : List Nat) : Board × Bool × List Nat :=
  let toks := createStandardSet
  let b := { b with numberTokens := toks }
  let resourceHexes :=
    (b.hexes.filter (fun kv => kv.2.terrain ≠ Terrain.desert)).map Prod.fst
  let redIdxs := (toks.enum.filter (fun p => p.2.isHighProbability)).map Prod.fst
  let nonRedIdxs := (toks.enum.filter (fun p => ! p.2.isHighProbability)).map Prod.fst
  let sr := shuffleArray redIdxs rng
  let sn := shuffleArray nonRedIdxs sr.2
  let red := placeRedLoop b sr.1 resourceHexes false sn.2
  let availableHexes := resourceHexes.filter (tokenFree red.1)
  let sa := shuffleArray availableHexes red.2.2.2
  (placeRemainingLoop red.1 sn.1 sa.1, red.2.2.1, sa.2)

/-- `Robber.moveTo(hex)`: clear the flag on the previous tile, set it on
the destination. -/
def robberMoveTo (b : Board) (hid : HexId) : Board :=
  let b :=
    match b.robber.hex with
    | some old =>
      { b with hexes :=
          mapUpdate b.hexes old (fun h => { h with hasRobber := false }) }
    | none => b
  { b with robber := { hex := some hid },
           hexes := mapUpdate b.hexes hid (fun h => { h with hasRobber := true }) }

/-- `Board.placeRobberOnDesert()`. -/
def placeRobberOnDesert (b : Board) : Board :=
  match (b.hexes.map Prod.snd).find? (fun h => h.terrain = Terrain.desert) with
  | some h => robberMoveTo b (h.q, h.r)
  | none => b

/-- `Board.generateStandardBoard()`: clear, create the 19 tiles with
shuffled terrains, build relationships, place tokens, place the robber.
The boolean reports whether the red-token fallback warning fired. -/
def generateStandardBoard (b : Board) (rng : List Nat) : Board × Bool × List Nat :=
  let b := b.clear
  let st := shuffleArray standardTerrains rng
  let b := createHexesLoop b hexLayout st.1 0
  let b := buildRelationships b
  let pt := placeNumberTokens b st.2
  let b := placeRobberOnDesert pt.1
  ({ b with isGenerated := true, boardType := "standard" }, pt.2.1, pt.2.2)

/-! ### Corner, side and hex game-state operations -/

/-- `Vertex.canPlaceSettlement(player)`: the corner must be empty and no
directly connected corner may hold a building.  (The `player` argument is
unused by the source body and omitted here.) -/
def canPlaceSettlement (b : Board) (v : Vertex) : Bool :=
  if v.building.isSome then false
  else
    ! v.adjacentVertices.any (fun vid =>
        match mapGet b.vertices vid with
        | some av => av.building.isSome
        | none => false)

/-- `Vertex.placeSettlement(settlement)` on the corner at key `vid`. -/
def vertexPlaceSettlement (b : Board) (vid : VEId) (s : Building) : Board × Bool :=
  match mapGet b.vertices vid with
  | none => (b, false)
  | some v =>
    if canPlaceSettlement b v then
      let vm := mapUpdate b.vertices vid (fun v => { v with building := some s })
      ({ b with vertices := vm }, true)
    else (b, false)

/-- `Vertex.canPlaceCity(player)`: existing building is a settlement
owned by the requesting player. -/
def vertexCanPlaceCity (v : Vertex) (owner : Nat) : Bool :=
  match v.building with
  | some bd => bd.btype = BType.settlement && bd.owner = owner
  | none => false

/-- `Vertex.upgradeToCity(city)`: replace the settlement by the city and
return the old settlement. -/
def vertexUpgradeToCity (b : Board) (vid : VEId) (c : Building) :
    Board × Option Building :=
  match mapGet b.vertices vid with
  | none => (b, none)
  | some v =>
    if vertexCanPlaceCity v c.owner then
      let vm := mapUpdate b.vertices vid (fun v => { v with building := some c })
      ({ b with vertices := vm }, v.building)
    else (b, none)

/-- `Edge.canPlaceRoad(player)`: no road yet, and either an endpoint
corner holds the player's building or an adjacent side holds the player's
road. -/
def edgeCanPlaceRoad (b : Board) (e : Edge) (owner : Nat) : Bool :=
  if e.road.isSome then false
  else if e.vertices.any (fun vid =>
      match mapGet b.vertices vid with
      | some v =>
        match v.building with
        | some bd => bd.owner = owner
        | none => false
      | none => false) then true
  else
    e.adjacentEdges.any (fun eid =>
      match mapGet b.edges eid with
      | some e2 =>
        match e2.road with
        | some rd => rd.owner = owner
        | none => false
      | none => false)

/-- `Edge.placeRoad(road)` on the side at key `eid`. -/
def edgePlaceRoad (b : Board) (eid : VEId) (rd : RoadPiece) : Board × Bool :=
  match mapGet b.edges eid with
  | none => (b, false)
  | some e =>
    if edgeCanPlaceRoad b e rd.owner then
      let em := mapUpdate b.edges eid (fun e => { e with road := some rd })
      ({ b with edges := em }, true)
    else (b, false)

/-- `Hex.canProduceResources()`. -/
def hexCanProduceResources (h : Hex) : Bool :=
  h.terrain ≠ Terrain.desert && h.terrain ≠ Terrain.sea && h.numberToken.isSome

/-- The value of the token bound to a hex, if any. -/
def hexTokenValue (b : Board) (h : Hex) : Option Nat :=
  match h.numberToken with
  | some ti => (b.numberTokens.get? ti).map (fun t => t.value)
  | none => none

/-- `Hex.shouldProduce(diceRoll)`.  A `none` roll models calling the JS
method without an argument (`diceRoll === undefined`), which never equals
a token value. -/
def hexShouldProduce (b : Board) (h : Hex) (diceRoll : Option Nat) : Bool :=
  hexCanProduceResources h && h.numberToken.isSome &&
    (match hexTokenValue b h, diceRoll with
     | some v, some d => decide (v = d)
     | _, _ => false) &&
    ! h.hasRobber

/-- `Board.getProducingHexes(diceRoll)`. -/
def Board.getProducingHexes (b : Board) (diceRoll : Nat) : List Hex :=
  (b.hexes.map Prod.snd).filter (fun h => hexShouldProduce b h (some diceRoll))

/-! ### Player ledger -/

/-- The five resource counters of `Player.resources` (JS numbers). -/
structure Resources where
  lumber : Int := 0
  brick : Int := 0
  ore : Int := 0
  grain : Int := 0
  wool : Int := 0
deriving DecidableEq, Repr

/-- `this.resources.hasOwnProperty(resourceType)`. -/
def Resources.hasKey (s : String) : Bool :=
  s = "lumber" || s = "brick" || s = "ore" || s = "grain" || s = "wool"

/-- Read `this.resources[s]` (0 for a key the object does not have;
such a read only feeds `> 0` comparisons in the source). -/
def Resources.get (res : Resources) (s : String) : Int :=
  if s = "lumber" then res.lumber
  else if s = "brick" then res.brick
  else if s = "ore" then res.ore
  else if s = "grain" then res.grain
  else if s = "wool" then res.wool
  else 0

/-- Write `this.resources[s] = n` for a known key. -/
def Resources.set (res : Resources) (s : String) (n : Int) : Resources :=
  if s = "lumber" then { res with lumber := n }
  else if s = "brick" then { res with brick := n }
  else if s = "ore" then { res with ore := n }
  else if s = "grain" then { res with grain := n }
  else if s = "wool" then { res with wool := n }
  else res

/-- `Object.keys(this.resources)`, in initialisation order. -/
def resourceKinds : List String := ["lumber", "brick", "ore", "grain", "wool"]

/-- A piece owned by a player (`Settlement`/`City`/`Road` object in the
player's inventory): its `GamePiece.id` and the corner/side it is placed
on (the `vertex`/`edge` back-reference). -/
structure OwnedPiece where
  pid : Nat
  loc : Option VEId := none
deriving DecidableEq, Repr

/-- A `Player`.  `idx` is the player's position in the game's player
list and serves as the owner reference stored in placed pieces (object
identity in the source).  `payForOverridden` models the setup-phase
per-instance override `player.payFor = () => true`.  `nextPieceId`
models the global `GamePiece.nextId` counter (only the uniqueness of the
ids matters).  Development cards other than victory-point cards are
never read by the core and are omitted. -/
structure Player where
  idx : Nat
  color : String
  name : String
  settlements : List OwnedPiece := []
  cities : List OwnedPiece := []
  roads : List OwnedPiece := []
  settlementsRemaining : Int := 5
  citiesRemaining : Int := 4
  roadsRemaining : Int := 15
  resources : Resources := {}
  dcVictoryPoint : Nat := 0
  victoryPoints : Int := 0
  knightsPlayed : Nat := 0
  hasLongestRoad : Bool := false
  hasLargestArmy : Bool := false
  payForOverridden : Bool := false
  nextPieceId : Nat := 1
deriving DecidableEq, Repr

/-- `Player.addResources(resourceType, amount)`. -/
def Player.addResources (p : Player) (resourceType : String) (amount : Int) : Player :=
  if Resources.hasKey resourceType then
    { p with resources :=
        p.resources.set resourceType (p.resources.get resourceType + amount) }
  else p

/-- `Player.removeResources(resourceType, amount)`: clamps at zero and
returns `true` for a known kind, `false` otherwise. -/
def Player.removeResources (p : Player) (resourceType : String) (amount : Int) :
    Player × Bool :=
  if Resources.hasKey resourceType then
    ({ p with resources :=
        p.resources.set resourceType (max 0 (p.resources.get resourceType - amount)) },
     true)
  else (p, false)

/-- `Player.getTotalResources()`. -/
def Player.getTotalResources (p : Player) : Int :=
  p.resources.lumber + p.resources.brick + p.resources.ore + p.resources.grain +
    p.resources.wool

/-- The `costs` table shared by `Player.canAfford` and `Player.payFor`. -/
def buildingCosts (buildingType : String) : Option (List (String × Int)) :=
  if buildingType = "road" then some [("lumber", 1), ("brick", 1)]
  else if buildingType = "settlement" then
    some [("lumber", 1), ("brick", 1), ("wool", 1), ("grain", 1)]
  else if buildingType = "city" then some [("ore", 3), ("grain", 2)]
  else if buildingType = "developmentCard" then
    some [("ore", 1), ("wool", 1), ("grain", 1)]
  else none

/-- `Player.canAfford(buildingType)`. -/
def Player.canAfford (p : Player) (buildingType : String) : Bool :=
  match buildingCosts buildingType with
  | none => false
  | some cost => cost.all (fun ce => ! (p.resources.get ce.1 < ce.2))

/-- `Player.payFor(buildingType)` (honours the setup override). -/
def Player.payFor (p : Player) (buildingType : String) : Player × Bool :=
  if p.payForOverridden then (p, true)
  else if ! p.canAfford buildingType then (p, false)
  else
    match buildingCosts buildingType with
    | none => (p, false)
    | some cost =>
      (cost.foldl (fun p ce => (p.removeResources ce.1 ce.2).1) p, true)

/-- `Player.updateVictoryPoints()`. -/
def Player.updateVictoryPoints (p : Player) : Player :=
  let points : Int :=
    (p.settlements.length : Int) * 1 + (p.cities.length : Int) * 2 +
      (p.dcVictoryPoint : Int) +
      (if p.hasLongestRoad then 2 else 0) + (if p.hasLargestArmy then 2 else 0)
  { p with victoryPoints := points }

/-- `Player.buildSettlement(vertex)`: pay, record and place, returning
the new settlement's piece id on success. -/
def Player.buildSettlement (p : Player) (b : Board) (vid : VEId) :
    Player × Board × Option Nat :=
  if ! p.canAfford "settlement" || p.settlementsRemaining ≤ 0 then (p, b, none)
  else
    let pid := p.nextPieceId
    let p := { p with nextPieceId := p.nextPieceId + 1 }
    let pl := vertexPlaceSettlement b vid
      ({ btype := BType.settlement, owner := p.idx, pid := pid })
    if pl.2 then
      let pay := p.payFor "settlement"
      let p := { pay.1 with
        settlements := pay.1.settlements ++ [({ pid := pid, loc := some vid } : OwnedPiece)],
        settlementsRemaining := pay.1.settlementsRemaining - 1 }
      (p.updateVictoryPoints, pl.1, some pid)
    else (p, pl.1, none)

/-- `this.settlements.indexOf(oldSettlement)` followed by `splice`:
remove the piece with the given id (object identity is id identity). -/
def removePieceById : List OwnedPiece → Nat → List OwnedPiece
  | [], _ => []
  | x :: t, pid => if x.pid = pid then t else x :: removePieceById t pid

/-- `Player.buildCity(vertex)`: upgrade an own settlement to a city.
Returns `(city piece id, removed settlement building)` on success. -/
def Player.buildCity (p : Player) (b : Board) (vid : VEId) :
    Player × Board × Option (Nat × Building) :=
  if ! p.canAfford "city" || p.citiesRemaining ≤ 0 then (p, b, none)
  else
    let pid := p.nextPieceId
    let p := { p with nextPieceId := p.nextPieceId + 1 }
    let up := vertexUpgradeToCity b vid
      ({ btype := BType.city, owner := p.idx, pid := pid })
    match up.2 with
    | some oldS =>
      let pay := p.payFor "city"
      let p := { pay.1 with
        cities := pay.1.cities ++ [({ pid := pid, loc := some vid } : OwnedPiece)],
        citiesRemaining := pay.1.citiesRemaining - 1,
        settlementsRemaining := pay.1.settlementsRemaining + 1,
        settlements := removePieceById pay.1.settlements oldS.pid }
      (p.updateVictoryPoints, up.1, some (pid, oldS))
    | none => (p, up.1, none)

/-- `Player.buildRoad(edge)`. -/
def Player.buildRoad (p : Player) (b : Board) (eid : VEId) :
    Player × Board × Option Nat :=
  if ! p.canAfford "road" || p.roadsRemaining ≤ 0 then (p, b, none)
  else
    let pid := p.nextPieceId
    let p := { p with nextPieceId := p.nextPieceId + 1 }
    let pl := edgePlaceRoad b eid ({ owner := p.idx, pid := pid })
    if pl.2 then
      let pay := p.payFor "road"
      let p := { pay.1 with
        roads := pay.1.roads ++ [({ pid := pid, loc := some eid } : OwnedPiece)],
        roadsRemaining := pay.1.roadsRemaining - 1 }
      (p, pl.1, some pid)
    else (p, pl.1, none)

/-- The loop body of `Settlement.collectResources`: push the hex's
resource if it should produce. -/
def settleStep (b : Board) (diceRoll : Option Nat) (acc : List String)
    (hk : HexId) : List String :=
  match mapGet b.hexes hk with
  | none => acc
  | some h =>
    if hexShouldProduce b h diceRoll then
      match terrainResource h.terrain with
      | some rt => acc ++ [rt]
      | none => acc
    else acc

/-- The loop body of `City.collectResources`: cities push the resource
twice. -/
def cityStep (b : Board) (diceRoll : Option Nat) (acc : List String)
    (hk : HexId) : List String :=
  match mapGet b.hexes hk with
  | none => acc
  | some h =>
    if hexShouldProduce b h diceRoll then
      match terrainResource h.terrain with
      | some rt => acc ++ [rt, rt]
      | none => acc
    else acc

/-- `Settlement.collectResources(diceRoll)`: one resource per adjacent
producing hex. -/
def settlementCollectResources (b : Board) (vloc : Option VEId)
    (diceRoll : Option Nat) : List String :=
  match vloc with
  | none => []
  | some vid =>
    match mapGet b.vertices vid with
    | none => []
    | some v => v.hexes.foldl (settleStep b diceRoll) []

/-- `City.collectResources(diceRoll)`: two resources per adjacent
producing hex. -/
def cityCollectResources (b : Board) (vloc : Option VEId)
    (diceRoll : Option Nat) : List String :=
  match vloc with
  | none => []
  | some vid =>
    match mapGet b.vertices vid with
    | none => []
    | some v => v.hexes.foldl (cityStep b diceRoll) []

/-- `Player.collectFromDiceRoll(diceRoll)`: add every collected resource
to the inventory and return the collected list. -/
def Player.collectFromDiceRoll (p : Player) (b : Board) (diceRoll : Option Nat) :
    Player × List String :=
  let s := p.settlements.foldl
    (fun (pr : Player × List String) piece =>
      let res := settlementCollectResources b piece.loc diceRoll
      (res.foldl (fun pl r => pl.addResources r 1) pr.1, pr.2 ++ res))
    (p, [])
  p.cities.foldl
    (fun (pr : Player × List String) piece =>
      let res := cityCollectResources b piece.loc diceRoll
      (res.foldl (fun pl r => pl.addResources r 1) pr.1, pr.2 ++ res))
    s

/-- One pass of the `while` loop of `Player.discardHalf`: iterate the
resource kinds once, discarding one card of each non-empty kind while
cards remain to discard. -/
def discardPass : List String → Player → Nat → Player × Nat × List String
  | [], p, remaining => (p, remaining, [])
  | k :: rest, p, remaining =>
    if remaining = 0 then (p, remaining, [])
    else if p.resources.get k > 0 then
      let p' := (p.removeResources k 1).1
      let r := discardPass rest p' (remaining - 1)
      (r.1, r.2.1, k :: r.2.2)
    else discardPass rest p remaining

/-- The `while (remaining > 0)` loop of `Player.discardHalf`.  When a
pass makes no progress the source would loop forever; that is
unreachable while the player still holds cards, and we stop instead. -/
def discardLoop (p : Player) (remaining : Nat) : Player × List String :=
  if remaining = 0 then (p, [])
  else
    let pass := discardPass resourceKinds p remaining
    if h2 : pass.2.1 < remaining then
      let rest := discardLoop pass.1 pass.2.1
      (rest.1, pass.2.2 ++ rest.2)
    else (pass.1, pass.2.2)
termination_by remaining
decreasing_by exact h2

/-- `Player.discardHalf()`: discard `Math.floor(total / 2)` cards when
holding more than 7. -/
def Player.discardHalf (p : Player) : Player × List String :=
  let total := p.getTotalResources
  if total ≤ 7 then (p, [])
  else discardLoop p (Int.fdiv total 2).toNat

/-! ### Game state machine -/

/-- `Game.gamePhase`. -/
inductive Phase
  | waiting | setup | playing | finished
deriving DecidableEq, Repr

/-- `Game.diceResult`. -/
structure DiceResult where
  die1 : Nat
  die2 : Nat
  total : Nat
deriving DecidableEq, Repr

/-- The `Game`.  The event log stores only the number of logged events
(the messages are presentation strings); the winner is recorded by
player index. -/
structure Game where
  board : Board := emptyBoard
  players : List Player := []
  gamePhase : Phase := .waiting
  currentPlayerIndex : Int := 0
  turnNumber : Nat := 0
  setupRound : Nat := 1
  setupDirection : Int := 1
  hasRolledDice : Bool := false
  diceResult : Option DiceResult := none
  canBuild : Bool := false
  canTrade : Bool := false
  eventLog : Nat := 0
  winner : Option Nat := none
  targetVictoryPoints : Int := 10
  maxPlayers : Nat := 6
deriving DecidableEq, Repr

/-- `Game.logEvent(message)` (the message text is not modelled). -/
def logEvent (g : Game) : Game := { g with eventLog := g.eventLog + 1 }

/-- Store back a mutated player object. -/
def setPlayer (g : Game) (i : Nat) (p : Player) : Game :=
  { g with players := g.players.set i p }

/-- `Game.getCurrentPlayer()` (`undefined` when the index is out of
range, which happens transiently during setup). -/
def Game.getCurrentPlayer (g : Game) : Option Player :=
  if g.currentPlayerIndex < 0 then none
  else g.players.get? g.currentPlayerIndex.toNat

/-- `Game.addPlayer(color, name)`. -/
def Game.addPlayer (g : Game) (color name : String) : Game × Option Nat :=
  if g.players.length ≥ g.maxPlayers then (g, none)
  else if g.gamePhase ≠ Phase.waiting then (g, none)
  else
    let idx := g.players.length
    let p : Player := { idx := idx, color := color, name := name }
    (logEvent { g with players := g.players ++ [p] }, some idx)

/-- `Game.startGame()`. -/
def Game.startGame (g : Game) (rng : List Nat) : Game × Bool × List Nat :=
  if g.players.length < 2 then (g, false, rng)
  else
    let gen := generateStandardBoard g.board rng
    (logEvent { g with board := gen.1, gamePhase := Phase.setup,
                       currentPlayerIndex := 0 },
     true, gen.2.2)

/-- `Game.placeSetupSettlement(vertex, player)`. -/
def Game.placeSetupSettlement (g : Game) (vid : VEId) (pi : Nat) :
    Game × Option Nat :=
  match g.players.get? pi with
  | none => (g, none)
  | some player =>
    match mapGet g.board.vertices vid with
    | none => (g, none)
    | some v =>
      if ! canPlaceSettlement g.board v then (g, none)
      else
        let bs := player.buildSettlement g.board vid
        match bs.2.2 with
        | some pid =>
          let player := { bs.1 with payForOverridden := true }
          let player :=
            if g.setupRound = 2 then
              let res := settlementCollectResources bs.2.1 (some vid) none
              res.foldl (fun pl r => pl.addResources r 1) player
            else player
          (logEvent (setPlayer { g with board := bs.2.1 } pi player), some pid)
        | none => (setPlayer { g with board := bs.2.1 } pi bs.1, none)

/-- `Game.placeNormalSettlement(vertex, player)`. -/
def Game.placeNormalSettlement (g : Game) (vid : VEId) (pi : Nat) :
    Game × Option Nat :=
  if ! g.canBuild || g.hasRolledDice = false then (g, none)
  else
    match g.players.get? pi with
    | none => (g, none)
    | some player =>
      let bs := player.buildSettlement g.board vid
      (setPlayer { g with board := bs.2.1 } pi bs.1, bs.2.2)

/-- Resolve the `player = player || this.getCurrentPlayer()` default.
A `none` result models the source operating on `undefined` (a
programming error that would throw). -/
def Game.resolvePlayer (g : Game) (playerIdx : Option Nat) : Option Nat :=
  match playerIdx with
  | some i => some i
  | none =>
    if g.currentPlayerIndex < 0 then none
    else if g.currentPlayerIndex.toNat < g.players.length then
      some g.currentPlayerIndex.toNat
    else none

/-- `Game.placeSettlement(vertex, player)`. -/
def Game.placeSettlement (g : Game) (vid : VEId) (playerIdx : Option Nat) :
    Game × Option Nat :=
  match g.resolvePlayer playerIdx with
  | none => (g, none)
  | some i =>
    if g.gamePhase = Phase.setup then g.placeSetupSettlement vid i
    else if g.gamePhase = Phase.playing then g.placeNormalSettlement vid i
    else (g, none)

/-- `Game.placeSetupRoad(edge, player)`. -/
def Game.placeSetupRoad (g : Game) (eid : VEId) (pi : Nat) : Game × Option Nat :=
  match g.players.get? pi with
  | none => (g, none)
  | some player =>
    let br := player.buildRoad g.board eid
    match br.2.2 with
    | some pid =>
      let player := { br.1 with payForOverridden := true }
      (logEvent (setPlayer { g with board := br.2.1 } pi player), some pid)
    | none => (setPlayer { g with board := br.2.1 } pi br.1, none)

/-- `Game.placeNormalRoad(edge, player)`. -/
def Game.placeNormalRoad (g : Game) (eid : VEId) (pi : Nat) : Game × Option Nat :=
  if ! g.canBuild || g.hasRolledDice = false then (g, none)
  else
    match g.players.get? pi with
    | none => (g, none)
    | some player =>
      let br := player.buildRoad g.board eid
      (setPlayer { g with board := br.2.1 } pi br.1, br.2.2)

/-- `Game.placeRoad(edge, player)`. -/
def Game.placeRoad (g : Game) (eid : VEId) (playerIdx : Option Nat) :
    Game × Option Nat :=
  match g.resolvePlayer playerIdx with
  | none => (g, none)
  | some i =>
    if g.gamePhase = Phase.setup then g.placeSetupRoad eid i
    else if g.gamePhase = Phase.playing then g.placeNormalRoad eid i
    else (g, none)

/-- `Game.handleRobberRoll()`: every player over 7 cards discards half. -/
def Game.handleRobberRoll (g : Game) : Game :=
  let g := g.players.enum.foldl
    (fun g ip =>
      if ip.2.getTotalResources > 7 then
        logEvent (setPlayer g ip.1 ip.2.discardHalf.1)
      else g)
    g
  logEvent g

/-- `Game.handleResourceProduction(diceRoll)`. -/
def Game.handleResourceProduction (g : Game) (diceRoll : Nat) : Game :=
  g.players.enum.foldl
    (fun g ip =>
      let c := ip.2.collectFromDiceRoll g.board (some diceRoll)
      let g := setPlayer g ip.1 c.1
      if c.2.length > 0 then logEvent g else g)
    g

/-- One die: `Math.floor(Math.random() * 6) + 1`. -/
def diceRollOne (rng : List Nat) : Nat × List Nat :=
  let p := draw rng
  (p.1 % 6 + 1, p.2)

/-- `Game.rollDice()`. -/
def Game.rollDice (g : Game) (rng : List Nat) :
    Game × Option DiceResult × List Nat :=
  if g.gamePhase ≠ Phase.playing || g.hasRolledDice then (g, none, rng)
  else
    let d1 := diceRollOne rng
    let d2 := diceRollOne d1.2
    let total := d1.1 + d2.1
    let dr : DiceResult := { die1 := d1.1, die2 := d2.1, total := total }
    let g := logEvent { g with diceResult := some dr, hasRolledDice := true,
                               canBuild := true, canTrade := true }
    let g := if total = 7 then g.handleRobberRoll else g.handleResourceProduction total
    (g, some dr, d2.2)

/-- `Game.endSetupTurn()`: snake order over the two setup rounds. -/
def Game.endSetupTurn (g : Game) : Game :=
  let g := { g with currentPlayerIndex := g.currentPlayerIndex + g.setupDirection }
  if g.setupDirection = 1 ∧ (g.players.length : Int) ≤ g.currentPlayerIndex then
    if g.setupRound = 1 then
      { g with setupRound := 2, setupDirection := -1,
               currentPlayerIndex := (g.players.length : Int) - 1 }
    else logEvent { g with gamePhase := Phase.playing, currentPlayerIndex := 0 }
  else if g.setupDirection = -1 ∧ g.currentPlayerIndex < 0 then
    logEvent { g with gamePhase := Phase.playing, currentPlayerIndex := 0 }
  else g

/-- `Game.endNormalTurn()`. -/
def Game.endNormalTurn (g : Game) : Game :=
  let g := { g with hasRolledDice := false, diceResult := none,
                    canBuild := false, canTrade := false }
  logEvent { g with
    currentPlayerIndex := (g.currentPlayerIndex + 1) % (g.players.length : Int),
    turnNumber := g.turnNumber + 1 }

/-- The player loop of `Game.checkWinCondition()`: recompute each score
in order and stop at the first player reaching the target. -/
def checkWinLoop (g : Game) (target : Int) : List (Nat × Player) → Game × Bool
  | [] => (g, false)
  | ip :: rest =>
    let p := ip.2.updateVictoryPoints
    let g := setPlayer g ip.1 p
    if target ≤ p.victoryPoints then
      (logEvent { g with winner := some ip.1, gamePhase := Phase.finished }, true)
    else checkWinLoop g target rest

/-- `Game.checkWinCondition()`. -/
def Game.checkWinCondition (g : Game) : Game × Bool :=
  checkWinLoop g g.targetVictoryPoints g.players.enum

/-- `Game.endTurn()`. -/
def Game.endTurn (g : Game) : Game :=
  let g :=
    if g.gamePhase = Phase.setup then g.endSetupTurn
    else if g.gamePhase = Phase.playing then g.endNormalTurn
    else g
  g.checkWinCondition.1

/-- `Game.moveRobber(hex)`. -/
def Game.moveRobber (g : Game) (hid : HexId) : Game × Bool :=
  match g.diceResult with
  | some dr =>
    if dr.total = 7 then
      (logEvent { g with board := robberMoveTo g.board hid }, true)
    else (g, false)
  | none => (g, false)

/-! ### Concrete executions used as evidence

All randomness streams below are the all-zero stream `[]`; the stream is
irrelevant to the topology facts, and the token/terrain layout it
produces is computed by the kernel. -/

/-- The standard board generated with the all-zero randomness stream. -/
def boardZ : Board := (generateStandardBoard emptyBoard []).1

/-- A fresh game with two registered players. -/
def newGame2 : Game :=
  ((({} : Game).addPlayer "red" "Red").1.addPlayer "blue" "Blue").1

/-- The two-player game after `startGame()` (setup phase, zero-stream
board). -/
def gameZ : Game := (newGame2.startGame []).1

/-- Call a method on `game.players[i]` (part of the exposed player
ledger API). -/
def updatePlayerAt (g : Game) (i : Nat) (f : Player → Player) : Game :=
  match g.players.get? i with
  | some p => setPlayer g i (f p)
  | none => g

/-- Grant one settlement's cost via `player.addResources`. -/
def giveSettlementCost (p : Player) : Player :=
  (((p.addResources "lumber" 1).addResources "brick" 1).addResources
    "wool" 1).addResources "grain" 1

/-- C2 script: both players hold a settlement's cost. -/
def gC2a : Game :=
  updatePlayerAt (updatePlayerAt gameZ 0 giveSettlementCost) 1 giveSettlementCost

/-- C2 script: player 0 settles corner C = (1,0,5). -/
def gC2b : Game := (gC2a.placeSettlement (1, 0, 5) (some 0)).1

/-- C2 script: player 1 then attempts the directly connected corner
D = (1,-1,4) (C and D share the sides (0,0,0) and (0,0,1)). -/
def gC2c : Game × Option Nat := gC2b.placeSettlement (1, -1, 4) (some 1)

/-- C3 script: the setup-phase attempt of a player holding zero
resources. -/
def c3Fresh : Game × Option Nat := gameZ.placeSetupSettlement (1, 0, 5) 0

/-- C3 script: player 0 holds exactly one settlement's cost. -/
def gC3b : Game := updatePlayerAt gameZ 0 giveSettlementCost

/-- C3 script: the setup placement of the exactly-resourced player. -/
def c3Paid : Game × Option Nat := gC3b.placeSetupSettlement (1, 0, 5) 0

/-- C3 script: reach setup round 2 by ending both round-1 turns, then
give player 1 (the current player in round 2) a settlement's cost. -/
def gC3c : Game := updatePlayerAt gameZ.endTurn.endTurn 1 giveSettlementCost

/-- C3 script: the round-2 setup placement at corner (1,0,5), whose
single adjacent tile (0,0) is a producing tile on this board. -/
def c3Round2 : Game × Option Nat := gC3c.placeSetupSettlement (1, 0, 5) 1

/-- Snapshot chunk (see `gameZval`). -/
def hexesZv0 : List (HexId × Hex) := [((-2, 0), { q := -2, r := 0, terrain := Natac.Terrain.forest, numberToken := some 8, hasRobber := false, vertices := [(-1, -1, 4), (-1, 0, 5), (-2, 1, 0), (-3, 1, 1), (-3, 0, 2), (-2, -1, 3)], edges := [(-2, 0, 0), (-2, 0, 1), (-2, 0, 2), (-2, 0, 3), (-2, 0, 4), (-2, 0, 5)], neighbors := [(-1, -1), (-1, 0), (-2, 1)] }), ((-1, -1), { q := -1, r := -1, terrain := Natac.Terrain.forest, numberToken := some 0, hasRobber := false, vertices := [(0, -2, 4), (0, -1, 5), (-1, 0, 0), (-2, 0, 1), (-2, -1, 2), (-1, -2, 3)], edges := [(-1, -1, 0), (-1, -1, 1), (-1, -1, 2), (-1, -1, 3), (-1, -1, 4), (-1, -1, 5)], neighbors := [(0, -2), (0, -1), (-1, 0), (-2, 0)] }), ((0, -2), { q := 0, r := -2, terrain := Natac.Terrain.forest, numberToken := some 9, hasRobber := false, vertices := [(1, -3, 4), (1, -2, 5), (0, -1, 0), (-1, -1, 1), (-1, -2, 2), (0, -3, 3)], edges := [(0, -2, 0), (0, -2, 1), (0, -2, 2), (0, -2, 3), (0, -2, 4), (0, -2, 5)], neighbors := [(1, -2), (0, -1), (-1, -1)] }), ((-2, 1), { q := -2, r := 1, terrain := Natac.Terrain.pasture, numberToken := some 1, hasRobber := false, vertices := [(-1, 0, 4), (-1, 1, 5), (-2, 2, 0), (-3, 2, 1), (-3, 1, 2), (-2, 0, 3)], edges := [(-2, 1, 0), (-2, 1, 1), (-2, 1, 2), (-2, 1, 3), (-2, 1, 4), (-2, 1, 5)], neighbors := [(-1, 0), (-1, 1), (-2, 2), (-2, 0)] }), ((-1, 0), { q := -1, r := 0, terrain := Natac.Terrain.pasture, numberToken := some 2, hasRobber := false, vertices := [(0, -1, 4), (0, 0, 5), (-1, 1, 0), (-2, 1, 1), (-2, 0, 2), (-1, -1, 3)], edges := [(-1, 0, 0), (-1, 0, 1), (-1, 0, 2), (-1, 0, 3), (-1, 0, 4), (-1, 0, 5)], neighbors := [(0, -1), (0, 0), (-1, 1), (-2, 1), (-2, 0), (-1, -1)] })]

/-- Snapshot chunk (see `gameZval`). -/
def hexesZv1 : List (HexId × Hex) := [((0, -1), { q := 0, r := -1, terrain := Natac.Terrain.pasture, numberToken := some 3, hasRobber := false, vertices := [(1, -2, 4), (1, -1, 5), (0, 0, 0), (-1, 0, 1), (-1, -1, 2), (0, -2, 3)], edges := [(0, -1, 0), (0, -1, 1), (0, -1, 2), (0, -1, 3), (0, -1, 4), (0, -1, 5)], neighbors := [(1, -2), (1, -1), (0, 0), (-1, 0), (-1, -1), (0, -2)] }), ((1, -2), { q := 1, r := -2, terrain := Natac.Terrain.pasture, numberToken := some 4, hasRobber := false, vertices := [(2, -3, 4), (2, -2, 5), (1, -1, 0), (0, -1, 1), (0, -2, 2), (1, -3, 3)], edges := [(1, -2, 0), (1, -2, 1), (1, -2, 2), (1, -2, 3), (1, -2, 4), (1, -2, 5)], neighbors := [(2, -2), (1, -1), (0, -1), (0, -2)] }), ((-2, 2), { q := -2, r := 2, terrain := Natac.Terrain.fields, numberToken := some 10, hasRobber := false, vertices := [(-1, 1, 4), (-1, 2, 5), (-2, 3, 0), (-3, 3, 1), (-3, 2, 2), (-2, 1, 3)], edges := [(-2, 2, 0), (-2, 2, 1), (-2, 2, 2), (-2, 2, 3), (-2, 2, 4), (-2, 2, 5)], neighbors := [(-1, 1), (-1, 2), (-2, 1)] }), ((-1, 1), { q := -1, r := 1, terrain := Natac.Terrain.fields, numberToken := some 5, hasRobber := false, vertices := [(0, 0, 4), (0, 1, 5), (-1, 2, 0), (-2, 2, 1), (-2, 1, 2), (-1, 0, 3)], edges := [(-1, 1, 0), (-1, 1, 1), (-1, 1, 2), (-1, 1, 3), (-1, 1, 4), (-1, 1, 5)], neighbors := [(0, 0), (0, 1), (-1, 2), (-2, 2), (-2, 1), (-1, 0)] }), ((0, 0), { q := 0, r := 0, terrain := Natac.Terrain.fields, numberToken := some 7, hasRobber := false, vertices := [(1, -1, 4), (1, 0, 5), (0, 1, 0), (-1, 1, 1), (-1, 0, 2), (0, -1, 3)], edges := [(0, 0, 0), (0, 0, 1), (0, 0, 2), (0, 0, 3), (0, 0, 4), (0, 0, 5)], neighbors := [(1, -1), (1, 0), (0, 1), (-1, 1), (-1, 0), (0, -1)] })]

/-- Snapshot chunk (see `gameZval`). -/
def hexesZv2 : List (HexId × Hex) := [((1, -1), { q := 1, r := -1, terrain := Natac.Terrain.fields, numberToken := some 6, hasRobber := false, vertices := [(2, -2, 4), (2, -1, 5), (1, 0, 0), (0, 0, 1), (0, -1, 2), (1, -2, 3)], edges := [(1, -1, 0), (1, -1, 1), (1, -1, 2), (1, -1, 3), (1, -1, 4), (1, -1, 5)], neighbors := [(2, -2), (2, -1), (1, 0), (0, 0), (0, -1), (1, -2)] }), ((2, -2), { q := 2, r := -2, terrain := Natac.Terrain.hills, numberToken := some 11, hasRobber := false, vertices := [(3, -3, 4), (3, -2, 5), (2, -1, 0), (1, -1, 1), (1, -2, 2), (2, -3, 3)], edges := [(2, -2, 0), (2, -2, 1), (2, -2, 2), (2, -2, 3), (2, -2, 4), (2, -2, 5)], neighbors := [(2, -1), (1, -1), (1, -2)] }), ((-1, 2), { q := -1, r := 2, terrain := Natac.Terrain.hills, numberToken := some 12, hasRobber := false, vertices := [(0, 1, 4), (0, 2, 5), (-1, 3, 0), (-2, 3, 1), (-2, 2, 2), (-1, 1, 3)], edges := [(-1, 2, 0), (-1, 2, 1), (-1, 2, 2), (-1, 2, 3), (-1, 2, 4), (-1, 2, 5)], neighbors := [(0, 1), (0, 2), (-2, 2), (-1, 1)] }), ((0, 1), { q := 0, r := 1, terrain := Natac.Terrain.hills, numberToken := some 13, hasRobber := false, vertices := [(1, 0, 4), (1, 1, 5), (0, 2, 0), (-1, 2, 1), (-1, 1, 2), (0, 0, 3)], edges := [(0, 1, 0), (0, 1, 1), (0, 1, 2), (0, 1, 3), (0, 1, 4), (0, 1, 5)], neighbors := [(1, 0), (1, 1), (0, 2), (-1, 2), (-1, 1), (0, 0)] }), ((1, 0), { q := 1, r := 0, terrain := Natac.Terrain.mountains, numberToken := some 14, hasRobber := false, vertices := [(2, -1, 4), (2, 0, 5), (1, 1, 0), (0, 1, 1), (0, 0, 2), (1, -1, 3)], edges := [(1, 0, 0), (1, 0, 1), (1, 0, 2), (1, 0, 3), (1, 0, 4), (1, 0, 5)], neighbors := [(2, -1), (2, 0), (1, 1), (0, 1), (0, 0), (1, -1)] })]

/-- Snapshot chunk (see `gameZval`). -/
def hexesZv3 : List (HexId × Hex) := [((2, -1), { q := 2, r := -1, terrain := Natac.Terrain.mountains, numberToken := some 15, hasRobber := false, vertices := [(3, -2, 4), (3, -1, 5), (2, 0, 0), (1, 0, 1), (1, -1, 2), (2, -2, 3)], edges := [(2, -1, 0), (2, -1, 1), (2, -1, 2), (2, -1, 3), (2, -1, 4), (2, -1, 5)], neighbors := [(2, 0), (1, 0), (1, -1), (2, -2)] }), ((0, 2), { q := 0, r := 2, terrain := Natac.Terrain.mountains, numberToken := some 16, hasRobber := false, vertices := [(1, 1, 4), (1, 2, 5), (0, 3, 0), (-1, 3, 1), (-1, 2, 2), (0, 1, 3)], edges := [(0, 2, 0), (0, 2, 1), (0, 2, 2), (0, 2, 3), (0, 2, 4), (0, 2, 5)], neighbors := [(1, 1), (-1, 2), (0, 1)] }), ((1, 1), { q := 1, r := 1, terrain := Natac.Terrain.desert, numberToken := none, hasRobber := true, vertices := [(2, 0, 4), (2, 1, 5), (1, 2, 0), (0, 2, 1), (0, 1, 2), (1, 0, 3)], edges := [(1, 1, 0), (1, 1, 1), (1, 1, 2), (1, 1, 3), (1, 1, 4), (1, 1, 5)], neighbors := [(2, 0), (0, 2), (0, 1), (1, 0)] }), ((2, 0), { q := 2, r := 0, terrain := Natac.Terrain.forest, numberToken := some 17, hasRobber := false, vertices := [(3, -1, 4), (3, 0, 5), (2, 1, 0), (1, 1, 1), (1, 0, 2), (2, -1, 3)], edges := [(2, 0, 0), (2, 0, 1), (2, 0, 2), (2, 0, 3), (2, 0, 4), (2, 0, 5)], neighbors := [(1, 1), (1, 0), (2, -1)] })]

/-- Snapshot chunk concatenation (see `gameZval`). -/
def hexesZv : List (HexId × Hex) := hexesZv0 ++ hexesZv1 ++ hexesZv2 ++ hexesZv3

/-- Snapshot chunk (see `gameZval`). -/
def vertsZv0 : List (VEId × Vertex) := [((-1, -1, 4), { q := -1, r := -1, direction := 4, building := none, hexes := [(-2, 0)], edges := [(-2, 0, 5), (-2, 0, 0), (-2, 0, 1)], adjacentVertices := [] }), ((-1, 0, 5), { q := -1, r := 0, direction := 5, building := none, hexes := [(-2, 0)], edges := [(-2, 0, 0), (-2, 0, 1), (-2, 0, 2)], adjacentVertices := [] }), ((-2, 1, 0), { q := -2, r := 1, direction := 0, building := none, hexes := [(-2, 0)], edges := [(-2, 0, 1), (-2, 0, 2), (-2, 0, 3)], adjacentVertices := [] }), ((-3, 1, 1), { q := -3, r := 1, direction := 1, building := none, hexes := [(-2, 0)], edges := [(-2, 0, 2), (-2, 0, 3), (-2, 0, 4)], adjacentVertices := [] }), ((-3, 0, 2), { q := -3, r := 0, direction := 2, building := none, hexes := [(-2, 0)], edges := [(-2, 0, 3), (-2, 0, 4), (-2, 0, 5)], adjacentVertices := [] }), ((-2, -1, 3), { q := -2, r := -1, direction := 3, building := none, hexes := [(-2, 0)], edges := [(-2, 0, 4), (-2, 0, 5), (-2, 0, 0)], adjacentVertices := [] }), ((0, -2, 4), { q := 0, r := -2, direction := 4, building := none, hexes := [(-1, -1)], edges := [(-1, -1, 5), (-1, -1, 0), (-1, -1, 1)], adjacentVertices := [] }), ((0, -1, 5), { q := 0, r := -1, direction := 5, building := none, hexes := [(-1, -1)], edges := [(-1, -1, 0), (-1, -1, 1), (-1, -1, 2)], adjacentVertices := [] }), ((-1, 0, 0), { q := -1, r := 0, direction := 0, building := none, hexes := [(-1, -1)], edges := [(-1, -1, 1), (-1, -1, 2), (-1, -1, 3)], adjacentVertices := [] }), ((-2, 0, 1), { q := -2, r := 0, direction := 1, building := none, hexes := [(-1, -1)], edges := [(-1, -1, 2), (-1, -1, 3), (-1, -1, 4)], adjacentVertices := [] })]

/-- Snapshot chunk (see `gameZval`). -/
def vertsZv1 : List (VEId × Vertex) := [((-2, -1, 2), { q := -2, r := -1, direction := 2, building := none, hexes := [(-1, -1)], edges := [(-1, -1, 3), (-1, -1, 4), (-1, -1, 5)], adjacentVertices := [] }), ((-1, -2, 3), { q := -1, r := -2, direction := 3, building := none, hexes := [(-1, -1)], edges := [(-1, -1, 4), (-1, -1, 5), (-1, -1, 0)], adjacentVertices := [] }), ((1, -3, 4), { q := 1, r := -3, direction := 4, building := none, hexes := [(0, -2)], edges := [(0, -2, 5), (0, -2, 0), (0, -2, 1)], adjacentVertices := [] }), ((1, -2, 5), { q := 1, r := -2, direction := 5, building := none, hexes := [(0, -2)], edges := [(0, -2, 0), (0, -2, 1), (0, -2, 2)], adjacentVertices := [] }), ((0, -1, 0), { q := 0, r := -1, direction := 0, building := none, hexes := [(0, -2)], edges := [(0, -2, 1), (0, -2, 2), (0, -2, 3)], adjacentVertices := [] }), ((-1, -1, 1), { q := -1, r := -1, direction := 1, building := none, hexes := [(0, -2)], edges := [(0, -2, 2), (0, -2, 3), (0, -2, 4)], adjacentVertices := [] }), ((-1, -2, 2), { q := -1, r := -2, direction := 2, building := none, hexes := [(0, -2)], edges := [(0, -2, 3), (0, -2, 4), (0, -2, 5)], adjacentVertices := [] }), ((0, -3, 3), { q := 0, r := -3, direction := 3, building := none, hexes := [(0, -2)], edges := [(0, -2, 4), (0, -2, 5), (0, -2, 0)], adjacentVertices := [] }), ((-1, 0, 4), { q := -1, r := 0, direction := 4, building := none, hexes := [(-2, 1)], edges := [(-2, 1, 5), (-2, 1, 0), (-2, 1, 1)], adjacentVertices := [] }), ((-1, 1, 5), { q := -1, r := 1, direction := 5, building := none, hexes := [(-2, 1)], edges := [(-2, 1, 0), (-2, 1, 1), (-2, 1, 2)], adjacentVertices := [] })]

/-- Snapshot chunk (see `gameZval`). -/
def vertsZv2 : List (VEId × Vertex) := [((-2, 2, 0), { q := -2, r := 2, direction := 0, building := none, hexes := [(-2, 1)], edges := [(-2, 1, 1), (-2, 1, 2), (-2, 1, 3)], adjacentVertices := [] }), ((-3, 2, 1), { q := -3, r := 2, direction := 1, building := none, hexes := [(-2, 1)], edges := [(-2, 1, 2), (-2, 1, 3), (-2, 1, 4)], adjacentVertices := [] }), ((-3, 1, 2), { q := -3, r := 1, direction := 2, building := none, hexes := [(-2, 1)], edges := [(-2, 1, 3), (-2, 1, 4), (-2, 1, 5)], adjacentVertices := [] }), ((-2, 0, 3), { q := -2, r := 0, direction := 3, building := none, hexes := [(-2, 1)], edges := [(-2, 1, 4), (-2, 1, 5), (-2, 1, 0)], adjacentVertices := [] }), ((0, -1, 4), { q := 0, r := -1, direction := 4, building := none, hexes := [(-1, 0)], edges := [(-1, 0, 5), (-1, 0, 0), (-1, 0, 1)], adjacentVertices := [] }), ((0, 0, 5), { q := 0, r := 0, direction := 5, building := none, hexes := [(-1, 0)], edges := [(-1, 0, 0), (-1, 0, 1), (-1, 0, 2)], adjacentVertices := [] }), ((-1, 1, 0), { q := -1, r := 1, direction := 0, building := none, hexes := [(-1, 0)], edges := [(-1, 0, 1), (-1, 0, 2), (-1, 0, 3)], adjacentVertices := [] }), ((-2, 1, 1), { q := -2, r := 1, direction := 1, building := none, hexes := [(-1, 0)], edges := [(-1, 0, 2), (-1, 0, 3), (-1, 0, 4)], adjacentVertices := [] }), ((-2, 0, 2), { q := -2, r := 0, direction := 2, building := none, hexes := [(-1, 0)], edges := [(-1, 0, 3), (-1, 0, 4), (-1, 0, 5)], adjacentVertices := [] }), ((-1, -1, 3), { q := -1, r := -1, direction := 3, building := none, hexes := [(-1, 0)], edges := [(-1, 0, 4), (-1, 0, 5), (-1, 0, 0)], adjacentVertices := [] })]

/-- Snapshot chunk (see `gameZval`). -/
def vertsZv3 : List (VEId × Vertex) := [((1, -2, 4), { q := 1, r := -2, direction := 4, building := none, hexes := [(0, -1)], edges := [(0, -1, 5), (0, -1, 0), (0, -1, 1)], adjacentVertices := [] }), ((1, -1, 5), { q := 1, r := -1, direction := 5, building := none, hexes := [(0, -1)], edges := [(0, -1, 0), (0, -1, 1), (0, -1, 2)], adjacentVertices := [] }), ((0, 0, 0), { q := 0, r := 0, direction := 0, building := none, hexes := [(0, -1)], edges := [(0, -1, 1), (0, -1, 2), (0, -1, 3)], adjacentVertices := [] }), ((-1, 0, 1), { q := -1, r := 0, direction := 1, building := none, hexes := [(0, -1)], edges := [(0, -1, 2), (0, -1, 3), (0, -1, 4)], adjacentVertices := [] }), ((-1, -1, 2), { q := -1, r := -1, direction := 2, building := none, hexes := [(0, -1)], edges := [(0, -1, 3), (0, -1, 4), (0, -1, 5)], adjacentVertices := [] }), ((0, -2, 3), { q := 0, r := -2, direction := 3, building := none, hexes := [(0, -1)], edges := [(0, -1, 4), (0, -1, 5), (0, -1, 0)], adjacentVertices := [] }), ((2, -3, 4), { q := 2, r := -3, direction := 4, building := none, hexes := [(1, -2)], edges := [(1, -2, 5), (1, -2, 0), (1, -2, 1)], adjacentVertices := [] }), ((2, -2, 5), { q := 2, r := -2, direction := 5, building := none, hexes := [(1, -2)], edges := [(1, -2, 0), (1, -2, 1), (1, -2, 2)], adjacentVertices := [] }), ((1, -1, 0), { q := 1, r := -1, direction := 0, building := none, hexes := [(1, -2)], edges := [(1, -2, 1), (1, -2, 2), (1, -2, 3)], adjacentVertices := [] }), ((0, -1, 1), { q := 0, r := -1, direction := 1, building := none, hexes := [(1, -2)], edges := [(1, -2, 2), (1, -2, 3), (1, -2, 4)], adjacentVertices := [] })]

/-- Snapshot chunk (see `gameZval`). -/
def vertsZv4 : List (VEId × Vertex) := [((0, -2, 2), { q := 0, r := -2, direction := 2, building := none, hexes := [(1, -2)], edges := [(1, -2, 3), (1, -2, 4), (1, -2, 5)], adjacentVertices := [] }), ((1, -3, 3), { q := 1, r := -3, direction := 3, building := none, hexes := [(1, -2)], edges := [(1, -2, 4), (1, -2, 5), (1, -2, 0)], adjacentVertices := [] }), ((-1, 1, 4), { q := -1, r := 1, direction := 4, building := none, hexes := [(-2, 2)], edges := [(-2, 2, 5), (-2, 2, 0), (-2, 2, 1)], adjacentVertices := [] }), ((-1, 2, 5), { q := -1, r := 2, direction := 5, building := none, hexes := [(-2, 2)], edges := [(-2, 2, 0), (-2, 2, 1), (-2, 2, 2)], adjacentVertices := [] }), ((-2, 3, 0), { q := -2, r := 3, direction := 0, building := none, hexes := [(-2, 2)], edges := [(-2, 2, 1), (-2, 2, 2), (-2, 2, 3)], adjacentVertices := [] }), ((-3, 3, 1), { q := -3, r := 3, direction := 1, building := none, hexes := [(-2, 2)], edges := [(-2, 2, 2), (-2, 2, 3), (-2, 2, 4)], adjacentVertices := [] }), ((-3, 2, 2), { q := -3, r := 2, direction := 2, building := none, hexes := [(-2, 2)], edges := [(-2, 2, 3), (-2, 2, 4), (-2, 2, 5)], adjacentVertices := [] }), ((-2, 1, 3), { q := -2, r := 1, direction := 3, building := none, hexes := [(-2, 2)], edges := [(-2, 2, 4), (-2, 2, 5), (-2, 2, 0)], adjacentVertices := [] }), ((0, 0, 4), { q := 0, r := 0, direction := 4, building := none, hexes := [(-1, 1)], edges := [(-1, 1, 5), (-1, 1, 0), (-1, 1, 1)], adjacentVertices := [] }), ((0, 1, 5), { q := 0, r := 1, direction := 5, building := none, hexes := [(-1, 1)], edges := [(-1, 1, 0), (-1, 1, 1), (-1, 1, 2)], adjacentVertices := [] })]

/-- Snapshot chunk (see `gameZval`). -/
def vertsZv5 : List (VEId × Vertex) := [((-1, 2, 0), { q := -1, r := 2, direction := 0, building := none, hexes := [(-1, 1)], edges := [(-1, 1, 1), (-1, 1, 2), (-1, 1, 3)], adjacentVertices := [] }), ((-2, 2, 1), { q := -2, r := 2, direction := 1, building := none, hexes := [(-1, 1)], edges := [(-1, 1, 2), (-1, 1, 3), (-1, 1, 4)], adjacentVertices := [] }), ((-2, 1, 2), { q := -2, r := 1, direction := 2, building := none, hexes := [(-1, 1)], edges := [(-1, 1, 3), (-1, 1, 4), (-1, 1, 5)], adjacentVertices := [] }), ((-1, 0, 3), { q := -1, r := 0, direction := 3, building := none, hexes := [(-1, 1)], edges := [(-1, 1, 4), (-1, 1, 5), (-1, 1, 0)], adjacentVertices := [] }), ((1, -1, 4), { q := 1, r := -1, direction := 4, building := none, hexes := [(0, 0)], edges := [(0, 0, 5), (0, 0, 0), (0, 0, 1)], adjacentVertices := [] }), ((1, 0, 5), { q := 1, r := 0, direction := 5, building := none, hexes := [(0, 0)], edges := [(0, 0, 0), (0, 0, 1), (0, 0, 2)], adjacentVertices := [] }), ((0, 1, 0), { q := 0, r := 1, direction := 0, building := none, hexes := [(0, 0)], edges := [(0, 0, 1), (0, 0, 2), (0, 0, 3)], adjacentVertices := [] }), ((-1, 1, 1), { q := -1, r := 1, direction := 1, building := none, hexes := [(0, 0)], edges := [(0, 0, 2), (0, 0, 3), (0, 0, 4)], adjacentVertices := [] }), ((-1, 0, 2), { q := -1, r := 0, direction := 2, building := none, hexes := [(0, 0)], edges := [(0, 0, 3), (0, 0, 4), (0, 0, 5)], adjacentVertices := [] }), ((0, -1, 3), { q := 0, r := -1, direction := 3, building := none, hexes := [(0, 0)], edges := [(0, 0, 4), (0, 0, 5), (0, 0, 0)], adjacentVertices := [] })]

/-- Snapshot chunk (see `gameZval`). -/
def vertsZv6 : List (VEId × Vertex) := [((2, -2, 4), { q := 2, r := -2, direction := 4, building := none, hexes := [(1, -1)], edges := [(1, -1, 5), (1, -1, 0), (1, -1, 1)], adjacentVertices := [] }), ((2, -1, 5), { q := 2, r := -1, direction := 5, building := none, hexes := [(1, -1)], edges := [(1, -1, 0), (1, -1, 1), (1, -1, 2)], adjacentVertices := [] }), ((1, 0, 0), { q := 1, r := 0, direction := 0, building := none, hexes := [(1, -1)], edges := [(1, -1, 1), (1, -1, 2), (1, -1, 3)], adjacentVertices := [] }), ((0, 0, 1), { q := 0, r := 0, direction := 1, building := none, hexes := [(1, -1)], edges := [(1, -1, 2), (1, -1, 3), (1, -1, 4)], adjacentVertices := [] }), ((0, -1, 2), { q := 0, r := -1, direction := 2, building := none, hexes := [(1, -1)], edges := [(1, -1, 3), (1, -1, 4), (1, -1, 5)], adjacentVertices := [] }), ((1, -2, 3), { q := 1, r := -2, direction := 3, building := none, hexes := [(1, -1)], edges := [(1, -1, 4), (1, -1, 5), (1, -1, 0)], adjacentVertices := [] }), ((3, -3, 4), { q := 3, r := -3, direction := 4, building := none, hexes := [(2, -2)], edges := [(2, -2, 5), (2, -2, 0), (2, -2, 1)], adjacentVertices := [] }), ((3, -2, 5), { q := 3, r := -2, direction := 5, building := none, hexes := [(2, -2)], edges := [(2, -2, 0), (2, -2, 1), (2, -2, 2)], adjacentVertices := [] }), ((2, -1, 0), { q := 2, r := -1, direction := 0, building := none, hexes := [(2, -2)], edges := [(2, -2, 1), (2, -2, 2), (2, -2, 3)], adjacentVertices := [] }), ((1, -1, 1), { q := 1, r := -1, direction := 1, building := none, hexes := [(2, -2)], edges := [(2, -2, 2), (2, -2, 3), (2, -2, 4)], adjacentVertices := [] })]

/-- Snapshot chunk (see `gameZval`). -/
def vertsZv7 : List (VEId × Vertex) := [((1, -2, 2), { q := 1, r := -2, direction := 2, building := none, hexes := [(2, -2)], edges := [(2, -2, 3), (2, -2, 4), (2, -2, 5)], adjacentVertices := [] }), ((2, -3, 3), { q := 2, r := -3, direction := 3, building := none, hexes := [(2, -2)], edges := [(2, -2, 4), (2, -2, 5), (2, -2, 0)], adjacentVertices := [] }), ((0, 1, 4), { q := 0, r := 1, direction := 4, building := none, hexes := [(-1, 2)], edges := [(-1, 2, 5), (-1, 2, 0), (-1, 2, 1)], adjacentVertices := [] }), ((0, 2, 5), { q := 0, r := 2, direction := 5, building := none, hexes := [(-1, 2)], edges := [(-1, 2, 0), (-1, 2, 1), (-1, 2, 2)], adjacentVertices := [] }), ((-1, 3, 0), { q := -1, r := 3, direction := 0, building := none, hexes := [(-1, 2)], edges := [(-1, 2, 1), (-1, 2, 2), (-1, 2, 3)], adjacentVertices := [] }), ((-2, 3, 1), { q := -2, r := 3, direction := 1, building := none, hexes := [(-1, 2)], edges := [(-1, 2, 2), (-1, 2, 3), (-1, 2, 4)], adjacentVertices := [] }), ((-2, 2, 2), { q := -2, r := 2, direction := 2, building := none, hexes := [(-1, 2)], edges := [(-1, 2, 3), (-1, 2, 4), (-1, 2, 5)], adjacentVertices := [] }), ((-1, 1, 3), { q := -1, r := 1, direction := 3, building := none, hexes := [(-1, 2)], edges := [(-1, 2, 4), (-1, 2, 5), (-1, 2, 0)], adjacentVertices := [] }), ((1, 0, 4), { q := 1, r := 0, direction := 4, building := none, hexes := [(0, 1)], edges := [(0, 1, 5), (0, 1, 0), (0, 1, 1)], adjacentVertices := [] }), ((1, 1, 5), { q := 1, r := 1, direction := 5, building := none, hexes := [(0, 1)], edges := [(0, 1, 0), (0, 1, 1), (0, 1, 2)], adjacentVertices := [] })]

/-- Snapshot chunk (see `gameZval`). -/
def vertsZv8 : List (VEId × Vertex) := [((0, 2, 0), { q := 0, r := 2, direction := 0, building := none, hexes := [(0, 1)], edges := [(0, 1, 1), (0, 1, 2), (0, 1, 3)], adjacentVertices := [] }), ((-1, 2, 1), { q := -1, r := 2, direction := 1, building := none, hexes := [(0, 1)], edges := [(0, 1, 2), (0, 1, 3), (0, 1, 4)], adjacentVertices := [] }), ((-1, 1, 2), { q := -1, r := 1, direction := 2, building := none, hexes := [(0, 1)], edges := [(0, 1, 3), (0, 1, 4), (0, 1, 5)], adjacentVertices := [] }), ((0, 0, 3), { q := 0, r := 0, direction := 3, building := none, hexes := [(0, 1)], edges := [(0, 1, 4), (0, 1, 5), (0, 1, 0)], adjacentVertices := [] }), ((2, -1, 4), { q := 2, r := -1, direction := 4, building := none, hexes := [(1, 0)], edges := [(1, 0, 5), (1, 0, 0), (1, 0, 1)], adjacentVertices := [] }), ((2, 0, 5), { q := 2, r := 0, direction := 5, building := none, hexes := [(1, 0)], edges := [(1, 0, 0), (1, 0, 1), (1, 0, 2)], adjacentVertices := [] }), ((1, 1, 0), { q := 1, r := 1, direction := 0, building := none, hexes := [(1, 0)], edges := [(1, 0, 1), (1, 0, 2), (1, 0, 3)], adjacentVertices := [] }), ((0, 1, 1), { q := 0, r := 1, direction := 1, building := none, hexes := [(1, 0)], edges := [(1, 0, 2), (1, 0, 3), (1, 0, 4)], adjacentVertices := [] }), ((0, 0, 2), { q := 0, r := 0, direction := 2, building := none, hexes := [(1, 0)], edges := [(1, 0, 3), (1, 0, 4), (1, 0, 5)], adjacentVertices := [] }), ((1, -1, 3), { q := 1, r := -1, direction := 3, building := none, hexes := [(1, 0)], edges := [(1, 0, 4), (1, 0, 5), (1, 0, 0)], adjacentVertices := [] })]

/-- Snapshot chunk (see `gameZval`). -/
def vertsZv9 : List (VEId × Vertex) := [((3, -2, 4), { q := 3, r := -2, direction := 4, building := none, hexes := [(2, -1)], edges := [(2, -1, 5), (2, -1, 0), (2, -1, 1)], adjacentVertices := [] }), ((3, -1, 5), { q := 3, r := -1, direction := 5, building := none, hexes := [(2, -1)], edges := [(2, -1, 0), (2, -1, 1), (2, -1, 2)], adjacentVertices := [] }), ((2, 0, 0), { q := 2, r := 0, direction := 0, building := none, hexes := [(2, -1)], edges := [(2, -1, 1), (2, -1, 2), (2, -1, 3)], adjacentVertices := [] }), ((1, 0, 1), { q := 1, r := 0, direction := 1, building := none, hexes := [(2, -1)], edges := [(2, -1, 2), (2, -1, 3), (2, -1, 4)], adjacentVertices := [] }), ((1, -1, 2), { q := 1, r := -1, direction := 2, building := none, hexes := [(2, -1)], edges := [(2, -1, 3), (2, -1, 4), (2, -1, 5)], adjacentVertices := [] }), ((2, -2, 3), { q := 2, r := -2, direction := 3, building := none, hexes := [(2, -1)], edges := [(2, -1, 4), (2, -1, 5), (2, -1, 0)], adjacentVertices := [] }), ((1, 1, 4), { q := 1, r := 1, direction := 4, building := none, hexes := [(0, 2)], edges := [(0, 2, 5), (0, 2, 0), (0, 2, 1)], adjacentVertices := [] }), ((1, 2, 5), { q := 1, r := 2, direction := 5, building := none, hexes := [(0, 2)], edges := [(0, 2, 0), (0, 2, 1), (0, 2, 2)], adjacentVertices := [] }), ((0, 3, 0), { q := 0, r := 3, direction := 0, building := none, hexes := [(0, 2)], edges := [(0, 2, 1), (0, 2, 2), (0, 2, 3)], adjacentVertices := [] }), ((-1, 3, 1), { q := -1, r := 3, direction := 1, building := none, hexes := [(0, 2)], edges := [(0, 2, 2), (0, 2, 3), (0, 2, 4)], adjacentVertices := [] })]

/-- Snapshot chunk (see `gameZval`). -/
def vertsZv10 : List (VEId × Vertex) := [((-1, 2, 2), { q := -1, r := 2, direction := 2, building := none, hexes := [(0, 2)], edges := [(0, 2, 3), (0, 2, 4), (0, 2, 5)], adjacentVertices := [] }), ((0, 1, 3), { q := 0, r := 1, direction := 3, building := none, hexes := [(0, 2)], edges := [(0, 2, 4), (0, 2, 5), (0, 2, 0)], adjacentVertices := [] }), ((2, 0, 4), { q := 2, r := 0, direction := 4, building := none, hexes := [(1, 1)], edges := [(1, 1, 5), (1, 1, 0), (1, 1, 1)], adjacentVertices := [] }), ((2, 1, 5), { q := 2, r := 1, direction := 5, building := none, hexes := [(1, 1)], edges := [(1, 1, 0), (1, 1, 1), (1, 1, 2)], adjacentVertices := [] }), ((1, 2, 0), { q := 1, r := 2, direction := 0, building := none, hexes := [(1, 1)], edges := [(1, 1, 1), (1, 1, 2), (1, 1, 3)], adjacentVertices := [] }), ((0, 2, 1), { q := 0, r := 2, direction := 1, building := none, hexes := [(1, 1)], edges := [(1, 1, 2), (1, 1, 3), (1, 1, 4)], adjacentVertices := [] }), ((0, 1, 2), { q := 0, r := 1, direction := 2, building := none, hexes := [(1, 1)], edges := [(1, 1, 3), (1, 1, 4), (1, 1, 5)], adjacentVertices := [] }), ((1, 0, 3), { q := 1, r := 0, direction := 3, building := none, hexes := [(1, 1)], edges := [(1, 1, 4), (1, 1, 5), (1, 1, 0)], adjacentVertices := [] }), ((3, -1, 4), { q := 3, r := -1, direction := 4, building := none, hexes := [(2, 0)], edges := [(2, 0, 5), (2, 0, 0), (2, 0, 1)], adjacentVertices := [] }), ((3, 0, 5), { q := 3, r := 0, direction := 5, building := none, hexes := [(2, 0)], edges := [(2, 0, 0), (2, 0, 1), (2, 0, 2)], adjacentVertices := [] })]

/-- Snapshot chunk (see `gameZval`). -/
def vertsZv11 : List (VEId × Vertex) := [((2, 1, 0), { q := 2, r := 1, direction := 0, building := none, hexes := [(2, 0)], edges := [(2, 0, 1), (2, 0, 2), (2, 0, 3)], adjacentVertices := [] }), ((1, 1, 1), { q := 1, r := 1, direction := 1, building := none, hexes := [(2, 0)], edges := [(2, 0, 2), (2, 0, 3), (2, 0, 4)], adjacentVertices := [] }), ((1, 0, 2), { q := 1, r := 0, direction := 2, building := none, hexes := [(2, 0)], edges := [(2, 0, 3), (2, 0, 4), (2, 0, 5)], adjacentVertices := [] }), ((2, -1, 3), { q := 2, r := -1, direction := 3, building := none, hexes := [(2, 0)], edges := [(2, 0, 4), (2, 0, 5), (2, 0, 0)], adjacentVertices := [] })]

/-- Snapshot chunk concatenation (see `gameZval`). -/
def vertsZv : List (VEId × Vertex) := vertsZv0 ++ vertsZv1 ++ vertsZv2 ++ vertsZv3 ++ vertsZv4 ++ vertsZv5 ++ vertsZv6 ++ vertsZv7 ++ vertsZv8 ++ vertsZv9 ++ vertsZv10 ++ vertsZv11

/-- Snapshot chunk (see `gameZval`). -/
def edgesZv0 : List (VEId × Edge) := [((-2, 0, 0), { q := -2, r := 0, direction := 0, road := none, hexes := [(-2, 0)], vertices := [(-1, -1, 4), (-1, 0, 5), (-2, -1, 3)], adjacentEdges := [] }), ((-2, 0, 1), { q := -2, r := 0, direction := 1, road := none, hexes := [(-2, 0)], vertices := [(-1, -1, 4), (-1, 0, 5), (-2, 1, 0)], adjacentEdges := [] }), ((-2, 0, 2), { q := -2, r := 0, direction := 2, road := none, hexes := [(-2, 0)], vertices := [(-1, 0, 5), (-2, 1, 0), (-3, 1, 1)], adjacentEdges := [] }), ((-2, 0, 3), { q := -2, r := 0, direction := 3, road := none, hexes := [(-2, 0)], vertices := [(-2, 1, 0), (-3, 1, 1), (-3, 0, 2)], adjacentEdges := [] }), ((-2, 0, 4), { q := -2, r := 0, direction := 4, road := none, hexes := [(-2, 0)], vertices := [(-3, 1, 1), (-3, 0, 2), (-2, -1, 3)], adjacentEdges := [] }), ((-2, 0, 5), { q := -2, r := 0, direction := 5, road := none, hexes := [(-2, 0)], vertices := [(-1, -1, 4), (-3, 0, 2), (-2, -1, 3)], adjacentEdges := [] }), ((-1, -1, 0), { q := -1, r := -1, direction := 0, road := none, hexes := [(-1, -1)], vertices := [(0, -2, 4), (0, -1, 5), (-1, -2, 3)], adjacentEdges := [] }), ((-1, -1, 1), { q := -1, r := -1, direction := 1, road := none, hexes := [(-1, -1)], vertices := [(0, -2, 4), (0, -1, 5), (-1, 0, 0)], adjacentEdges := [] }), ((-1, -1, 2), { q := -1, r := -1, direction := 2, road := none, hexes := [(-1, -1)], vertices := [(0, -1, 5), (-1, 0, 0), (-2, 0, 1)], adjacentEdges := [] }), ((-1, -1, 3), { q := -1, r := -1, direction := 3, road := none, hexes := [(-1, -1)], vertices := [(-1, 0, 0), (-2, 0, 1), (-2, -1, 2)], adjacentEdges := [] })]

/-- Snapshot chunk (see `gameZval`). -/
def edgesZv1 : List (VEId × Edge) := [((-1, -1, 4), { q := -1, r := -1, direction := 4, road := none, hexes := [(-1, -1)], vertices := [(-2, 0, 1), (-2, -1, 2), (-1, -2, 3)], adjacentEdges := [] }), ((-1, -1, 5), { q := -1, r := -1, direction := 5, road := none, hexes := [(-1, -1)], vertices := [(0, -2, 4), (-2, -1, 2), (-1, -2, 3)], adjacentEdges := [] }), ((0, -2, 0), { q := 0, r := -2, direction := 0, road := none, hexes := [(0, -2)], vertices := [(1, -3, 4), (1, -2, 5), (0, -3, 3)], adjacentEdges := [] }), ((0, -2, 1), { q := 0, r := -2, direction := 1, road := none, hexes := [(0, -2)], vertices := [(1, -3, 4), (1, -2, 5), (0, -1, 0)], adjacentEdges := [] }), ((0, -2, 2), { q := 0, r := -2, direction := 2, road := none, hexes := [(0, -2)], vertices := [(1, -2, 5), (0, -1, 0), (-1, -1, 1)], adjacentEdges := [] }), ((0, -2, 3), { q := 0, r := -2, direction := 3, road := none, hexes := [(0, -2)], vertices := [(0, -1, 0), (-1, -1, 1), (-1, -2, 2)], adjacentEdges := [] }), ((0, -2, 4), { q := 0, r := -2, direction := 4, road := none, hexes := [(0, -2)], vertices := [(-1, -1, 1), (-1, -2, 2), (0, -3, 3)], adjacentEdges := [] }), ((0, -2, 5), { q := 0, r := -2, direction := 5, road := none, hexes := [(0, -2)], vertices := [(1, -3, 4), (-1, -2, 2), (0, -3, 3)], adjacentEdges := [] }), ((-2, 1, 0), { q := -2, r := 1, direction := 0, road := none, hexes := [(-2, 1)], vertices := [(-1, 0, 4), (-1, 1, 5), (-2, 0, 3)], adjacentEdges := [] }), ((-2, 1, 1), { q := -2, r := 1, direction := 1, road := none, hexes := [(-2, 1)], vertices := [(-1, 0, 4), (-1, 1, 5), (-2, 2, 0)], adjacentEdges := [] })]

/-- Snapshot chunk (see `gameZval`). -/
def edgesZv2 : List (VEId × Edge) := [((-2, 1, 2), { q := -2, r := 1, direction := 2, road := none, hexes := [(-2, 1)], vertices := [(-1, 1, 5), (-2, 2, 0), (-3, 2, 1)], adjacentEdges := [] }), ((-2, 1, 3), { q := -2, r := 1, direction := 3, road := none, hexes := [(-2, 1)], vertices := [(-2, 2, 0), (-3, 2, 1), (-3, 1, 2)], adjacentEdges := [] }), ((-2, 1, 4), { q := -2, r := 1, direction := 4, road := none, hexes := [(-2, 1)], vertices := [(-3, 2, 1), (-3, 1, 2), (-2, 0, 3)], adjacentEdges := [] }), ((-2, 1, 5), { q := -2, r := 1, direction := 5, road := none, hexes := [(-2, 1)], vertices := [(-1, 0, 4), (-3, 1, 2), (-2, 0, 3)], adjacentEdges := [] }), ((-1, 0, 0), { q := -1, r := 0, direction := 0, road := none, hexes := [(-1, 0)], vertices := [(0, -1, 4), (0, 0, 5), (-1, -1, 3)], adjacentEdges := [] }), ((-1, 0, 1), { q := -1, r := 0, direction := 1, road := none, hexes := [(-1, 0)], vertices := [(0, -1, 4), (0, 0, 5), (-1, 1, 0)], adjacentEdges := [] }), ((-1, 0, 2), { q := -1, r := 0, direction := 2, road := none, hexes := [(-1, 0)], vertices := [(0, 0, 5), (-1, 1, 0), (-2, 1, 1)], adjacentEdges := [] }), ((-1, 0, 3), { q := -1, r := 0, direction := 3, road := none, hexes := [(-1, 0)], vertices := [(-1, 1, 0), (-2, 1, 1), (-2, 0, 2)], adjacentEdges := [] }), ((-1, 0, 4), { q := -1, r := 0, direction := 4, road := none, hexes := [(-1, 0)], vertices := [(-2, 1, 1), (-2, 0, 2), (-1, -1, 3)], adjacentEdges := [] }), ((-1, 0, 5), { q := -1, r := 0, direction := 5, road := none, hexes := [(-1, 0)], vertices := [(0, -1, 4), (-2, 0, 2), (-1, -1, 3)], adjacentEdges := [] })]

/-- Snapshot chunk (see `gameZval`). -/
def edgesZv3 : List (VEId × Edge) := [((0, -1, 0), { q := 0, r := -1, direction := 0, road := none, hexes := [(0, -1)], vertices := [(1, -2, 4), (1, -1, 5), (0, -2, 3)], adjacentEdges := [] }), ((0, -1, 1), { q := 0, r := -1, direction := 1, road := none, hexes := [(0, -1)], vertices := [(1, -2, 4), (1, -1, 5), (0, 0, 0)], adjacentEdges := [] }), ((0, -1, 2), { q := 0, r := -1, direction := 2, road := none, hexes := [(0, -1)], vertices := [(1, -1, 5), (0, 0, 0), (-1, 0, 1)], adjacentEdges := [] }), ((0, -1, 3), { q := 0, r := -1, direction := 3, road := none, hexes := [(0, -1)], vertices := [(0, 0, 0), (-1, 0, 1), (-1, -1, 2)], adjacentEdges := [] }), ((0, -1, 4), { q := 0, r := -1, direction := 4, road := none, hexes := [(0, -1)], vertices := [(-1, 0, 1), (-1, -1, 2), (0, -2, 3)], adjacentEdges := [] }), ((0, -1, 5), { q := 0, r := -1, direction := 5, road := none, hexes := [(0, -1)], vertices := [(1, -2, 4), (-1, -1, 2), (0, -2, 3)], adjacentEdges := [] }), ((1, -2, 0), { q := 1, r := -2, direction := 0, road := none, hexes := [(1, -2)], vertices := [(2, -3, 4), (2, -2, 5), (1, -3, 3)], adjacentEdges := [] }), ((1, -2, 1), { q := 1, r := -2, direction := 1, road := none, hexes := [(1, -2)], vertices := [(2, -3, 4), (2, -2, 5), (1, -1, 0)], adjacentEdges := [] }), ((1, -2, 2), { q := 1, r := -2, direction := 2, road := none, hexes := [(1, -2)], vertices := [(2, -2, 5), (1, -1, 0), (0, -1, 1)], adjacentEdges := [] }), ((1, -2, 3), { q := 1, r := -2, direction := 3, road := none, hexes := [(1, -2)], vertices := [(1, -1, 0), (0, -1, 1), (0, -2, 2)], adjacentEdges := [] })]

/-- Snapshot chunk (see `gameZval`). -/
def edgesZv4 : List (VEId × Edge) := [((1, -2, 4), { q := 1, r := -2, direction := 4, road := none, hexes := [(1, -2)], vertices := [(0, -1, 1), (0, -2, 2), (1, -3, 3)], adjacentEdges := [] }), ((1, -2, 5), { q := 1, r := -2, direction := 5, road := none, hexes := [(1, -2)], vertices := [(2, -3, 4), (0, -2, 2), (1, -3, 3)], adjacentEdges := [] }), ((-2, 2, 0), { q := -2, r := 2, direction := 0, road := none, hexes := [(-2, 2)], vertices := [(-1, 1, 4), (-1, 2, 5), (-2, 1, 3)], adjacentEdges := [] }), ((-2, 2, 1), { q := -2, r := 2, direction := 1, road := none, hexes := [(-2, 2)], vertices := [(-1, 1, 4), (-1, 2, 5), (-2, 3, 0)], adjacentEdges := [] }), ((-2, 2, 2), { q := -2, r := 2, direction := 2, road := none, hexes := [(-2, 2)], vertices := [(-1, 2, 5), (-2, 3, 0), (-3, 3, 1)], adjacentEdges := [] }), ((-2, 2, 3), { q := -2, r := 2, direction := 3, road := none, hexes := [(-2, 2)], vertices := [(-2, 3, 0), (-3, 3, 1), (-3, 2, 2)], adjacentEdges := [] }), ((-2, 2, 4), { q := -2, r := 2, direction := 4, road := none, hexes := [(-2, 2)], vertices := [(-3, 3, 1), (-3, 2, 2), (-2, 1, 3)], adjacentEdges := [] }), ((-2, 2, 5), { q := -2, r := 2, direction := 5, road := none, hexes := [(-2, 2)], vertices := [(-1, 1, 4), (-3, 2, 2), (-2, 1, 3)], adjacentEdges := [] }), ((-1, 1, 0), { q := -1, r := 1, direction := 0, road := none, hexes := [(-1, 1)], vertices := [(0, 0, 4), (0, 1, 5), (-1, 0, 3)], adjacentEdges := [] }), ((-1, 1, 1), { q := -1, r := 1, direction := 1, road := none, hexes := [(-1, 1)], vertices := [(0, 0, 4), (0, 1, 5), (-1, 2, 0)], adjacentEdges := [] })]

/-- Snapshot chunk (see `gameZval`). -/
def edgesZv5 : List (VEId × Edge) := [((-1, 1, 2), { q := -1, r := 1, direction := 2, road := none, hexes := [(-1, 1)], vertices := [(0, 1, 5), (-1, 2, 0), (-2, 2, 1)], adjacentEdges := [] }), ((-1, 1, 3), { q := -1, r := 1, direction := 3, road := none, hexes := [(-1, 1)], vertices := [(-1, 2, 0), (-2, 2, 1), (-2, 1, 2)], adjacentEdges := [] }), ((-1, 1, 4), { q := -1, r := 1, direction := 4, road := none, hexes := [(-1, 1)], vertices := [(-2, 2, 1), (-2, 1, 2), (-1, 0, 3)], adjacentEdges := [] }), ((-1, 1, 5), { q := -1, r := 1, direction := 5, road := none, hexes := [(-1, 1)], vertices := [(0, 0, 4), (-2, 1, 2), (-1, 0, 3)], adjacentEdges := [] }), ((0, 0, 0), { q := 0, r := 0, direction := 0, road := none, hexes := [(0, 0)], vertices := [(1, -1, 4), (1, 0, 5), (0, -1, 3)], adjacentEdges := [] }), ((0, 0, 1), { q := 0, r := 0, direction := 1, road := none, hexes := [(0, 0)], vertices := [(1, -1, 4), (1, 0, 5), (0, 1, 0)], adjacentEdges := [] }), ((0, 0, 2), { q := 0, r := 0, direction := 2, road := none, hexes := [(0, 0)], vertices := [(1, 0, 5), (0, 1, 0), (-1, 1, 1)], adjacentEdges := [] }), ((0, 0, 3), { q := 0, r := 0, direction := 3, road := none, hexes := [(0, 0)], vertices := [(0, 1, 0), (-1, 1, 1), (-1, 0, 2)], adjacentEdges := [] }), ((0, 0, 4), { q := 0, r := 0, direction := 4, road := none, hexes := [(0, 0)], vertices := [(-1, 1, 1), (-1, 0, 2), (0, -1, 3)], adjacentEdges := [] }), ((0, 0, 5), { q := 0, r := 0, direction := 5, road := none, hexes := [(0, 0)], vertices := [(1, -1, 4), (-1, 0, 2), (0, -1, 3)], adjacentEdges := [] })]

/-- Snapshot chunk (see `gameZval`). -/
def edgesZv6 : List (VEId × Edge) := [((1, -1, 0), { q := 1, r := -1, direction := 0, road := none, hexes := [(1, -1)], vertices := [(2, -2, 4), (2, -1, 5), (1, -2, 3)], adjacentEdges := [] }), ((1, -1, 1), { q := 1, r := -1, direction := 1, road := none, hexes := [(1, -1)], vertices := [(2, -2, 4), (2, -1, 5), (1, 0, 0)], adjacentEdges := [] }), ((1, -1, 2), { q := 1, r := -1, direction := 2, road := none, hexes := [(1, -1)], vertices := [(2, -1, 5), (1, 0, 0), (0, 0, 1)], adjacentEdges := [] }), ((1, -1, 3), { q := 1, r := -1, direction := 3, road := none, hexes := [(1, -1)], vertices := [(1, 0, 0), (0, 0, 1), (0, -1, 2)], adjacentEdges := [] }), ((1, -1, 4), { q := 1, r := -1, direction := 4, road := none, hexes := [(1, -1)], vertices := [(0, 0, 1), (0, -1, 2), (1, -2, 3)], adjacentEdges := [] }), ((1, -1, 5), { q := 1, r := -1, direction := 5, road := none, hexes := [(1, -1)], vertices := [(2, -2, 4), (0, -1, 2), (1, -2, 3)], adjacentEdges := [] }), ((2, -2, 0), { q := 2, r := -2, direction := 0, road := none, hexes := [(2, -2)], vertices := [(3, -3, 4), (3, -2, 5), (2, -3, 3)], adjacentEdges := [] }), ((2, -2, 1), { q := 2, r := -2, direction := 1, road := none, hexes := [(2, -2)], vertices := [(3, -3, 4), (3, -2, 5), (2, -1, 0)], adjacentEdges := [] }), ((2, -2, 2), { q := 2, r := -2, direction := 2, road := none, hexes := [(2, -2)], vertices := [(3, -2, 5), (2, -1, 0), (1, -1, 1)], adjacentEdges := [] }), ((2, -2, 3), { q := 2, r := -2, direction := 3, road := none, hexes := [(2, -2)], vertices := [(2, -1, 0), (1, -1, 1), (1, -2, 2)], adjacentEdges := [] })]

/-- Snapshot chunk (see `gameZval`). -/
def edgesZv7 : List (VEId × Edge) := [((2, -2, 4), { q := 2, r := -2, direction := 4, road := none, hexes := [(2, -2)], vertices := [(1, -1, 1), (1, -2, 2), (2, -3, 3)], adjacentEdges := [] }), ((2, -2, 5), { q := 2, r := -2, direction := 5, road := none, hexes := [(2, -2)], vertices := [(3, -3, 4), (1, -2, 2), (2, -3, 3)], adjacentEdges := [] }), ((-1, 2, 0), { q := -1, r := 2, direction := 0, road := none, hexes := [(-1, 2)], vertices := [(0, 1, 4), (0, 2, 5), (-1, 1, 3)], adjacentEdges := [] }), ((-1, 2, 1), { q := -1, r := 2, direction := 1, road := none, hexes := [(-1, 2)], vertices := [(0, 1, 4), (0, 2, 5), (-1, 3, 0)], adjacentEdges := [] }), ((-1, 2, 2), { q := -1, r := 2, direction := 2, road := none, hexes := [(-1, 2)], vertices := [(0, 2, 5), (-1, 3, 0), (-2, 3, 1)], adjacentEdges := [] }), ((-1, 2, 3), { q := -1, r := 2, direction := 3, road := none, hexes := [(-1, 2)], vertices := [(-1, 3, 0), (-2, 3, 1), (-2, 2, 2)], adjacentEdges := [] }), ((-1, 2, 4), { q := -1, r := 2, direction := 4, road := none, hexes := [(-1, 2)], vertices := [(-2, 3, 1), (-2, 2, 2), (-1, 1, 3)], adjacentEdges := [] }), ((-1, 2, 5), { q := -1, r := 2, direction := 5, road := none, hexes := [(-1, 2)], vertices := [(0, 1, 4), (-2, 2, 2), (-1, 1, 3)], adjacentEdges := [] }), ((0, 1, 0), { q := 0, r := 1, direction := 0, road := none, hexes := [(0, 1)], vertices := [(1, 0, 4), (1, 1, 5), (0, 0, 3)], adjacentEdges := [] }), ((0, 1, 1), { q := 0, r := 1, direction := 1, road := none, hexes := [(0, 1)], vertices := [(1, 0, 4), (1, 1, 5), (0, 2, 0)], adjacentEdges := [] })]

/-- Snapshot chunk (see `gameZval`). -/
def edgesZv8 : List (VEId × Edge) := [((0, 1, 2), { q := 0, r := 1, direction := 2, road := none, hexes := [(0, 1)], vertices := [(1, 1, 5), (0, 2, 0), (-1, 2, 1)], adjacentEdges := [] }), ((0, 1, 3), { q := 0, r := 1, direction := 3, road := none, hexes := [(0, 1)], vertices := [(0, 2, 0), (-1, 2, 1), (-1, 1, 2)], adjacentEdges := [] }), ((0, 1, 4), { q := 0, r := 1, direction := 4, road := none, hexes := [(0, 1)], vertices := [(-1, 2, 1), (-1, 1, 2), (0, 0, 3)], adjacentEdges := [] }), ((0, 1, 5), { q := 0, r := 1, direction := 5, road := none, hexes := [(0, 1)], vertices := [(1, 0, 4), (-1, 1, 2), (0, 0, 3)], adjacentEdges := [] }), ((1, 0, 0), { q := 1, r := 0, direction := 0, road := none, hexes := [(1, 0)], vertices := [(2, -1, 4), (2, 0, 5), (1, -1, 3)], adjacentEdges := [] }), ((1, 0, 1), { q := 1, r := 0, direction := 1, road := none, hexes := [(1, 0)], vertices := [(2, -1, 4), (2, 0, 5), (1, 1, 0)], adjacentEdges := [] }), ((1, 0, 2), { q := 1, r := 0, direction := 2, road := none, hexes := [(1, 0)], vertices := [(2, 0, 5), (1, 1, 0), (0, 1, 1)], adjacentEdges := [] }), ((1, 0, 3), { q := 1, r := 0, direction := 3, road := none, hexes := [(1, 0)], vertices := [(1, 1, 0), (0, 1, 1), (0, 0, 2)], adjacentEdges := [] }), ((1, 0, 4), { q := 1, r := 0, direction := 4, road := none, hexes := [(1, 0)], vertices := [(0, 1, 1), (0, 0, 2), (1, -1, 3)], adjacentEdges := [] }), ((1, 0, 5), { q := 1, r := 0, direction := 5, road := none, hexes := [(1, 0)], vertices := [(2, -1, 4), (0, 0, 2), (1, -1, 3)], adjacentEdges := [] })]

/-- Snapshot chunk (see `gameZval`). -/
def edgesZv9 : List (VEId × Edge) := [((2, -1, 0), { q := 2, r := -1, direction := 0, road := none, hexes := [(2, -1)], vertices := [(3, -2, 4), (3, -1, 5), (2, -2, 3)], adjacentEdges := [] }), ((2, -1, 1), { q := 2, r := -1, direction := 1, road := none, hexes := [(2, -1)], vertices := [(3, -2, 4), (3, -1, 5), (2, 0, 0)], adjacentEdges := [] }), ((2, -1, 2), { q := 2, r := -1, direction := 2, road := none, hexes := [(2, -1)], vertices := [(3, -1, 5), (2, 0, 0), (1, 0, 1)], adjacentEdges := [] }), ((2, -1, 3), { q := 2, r := -1, direction := 3, road := none, hexes := [(2, -1)], vertices := [(2, 0, 0), (1, 0, 1), (1, -1, 2)], adjacentEdges := [] }), ((2, -1, 4), { q := 2, r := -1, direction := 4, road := none, hexes := [(2, -1)], vertices := [(1, 0, 1), (1, -1, 2), (2, -2, 3)], adjacentEdges := [] }), ((2, -1, 5), { q := 2, r := -1, direction := 5, road := none, hexes := [(2, -1)], vertices := [(3, -2, 4), (1, -1, 2), (2, -2, 3)], adjacentEdges := [] }), ((0, 2, 0), { q := 0, r := 2, direction := 0, road := none, hexes := [(0, 2)], vertices := [(1, 1, 4), (1, 2, 5), (0, 1, 3)], adjacentEdges := [] }), ((0, 2, 1), { q := 0, r := 2, direction := 1, road := none, hexes := [(0, 2)], vertices := [(1, 1, 4), (1, 2, 5), (0, 3, 0)], adjacentEdges := [] }), ((0, 2, 2), { q := 0, r := 2, direction := 2, road := none, hexes := [(0, 2)], vertices := [(1, 2, 5), (0, 3, 0), (-1, 3, 1)], adjacentEdges := [] }), ((0, 2, 3), { q := 0, r := 2, direction := 3, road := none, hexes := [(0, 2)], vertices := [(0, 3, 0), (-1, 3, 1), (-1, 2, 2)], adjacentEdges := [] })]

/-- Snapshot chunk (see `gameZval`). -/
def edgesZv10 : List (VEId × Edge) := [((0, 2, 4), { q := 0, r := 2, direction := 4, road := none, hexes := [(0, 2)], vertices := [(-1, 3, 1), (-1, 2, 2), (0, 1, 3)], adjacentEdges := [] }), ((0, 2, 5), { q := 0, r := 2, direction := 5, road := none, hexes := [(0, 2)], vertices := [(1, 1, 4), (-1, 2, 2), (0, 1, 3)], adjacentEdges := [] }), ((1, 1, 0), { q := 1, r := 1, direction := 0, road := none, hexes := [(1, 1)], vertices := [(2, 0, 4), (2, 1, 5), (1, 0, 3)], adjacentEdges := [] }), ((1, 1, 1), { q := 1, r := 1, direction := 1, road := none, hexes := [(1, 1)], vertices := [(2, 0, 4), (2, 1, 5), (1, 2, 0)], adjacentEdges := [] }), ((1, 1, 2), { q := 1, r := 1, direction := 2, road := none, hexes := [(1, 1)], vertices := [(2, 1, 5), (1, 2, 0), (0, 2, 1)], adjacentEdges := [] }), ((1, 1, 3), { q := 1, r := 1, direction := 3, road := none, hexes := [(1, 1)], vertices := [(1, 2, 0), (0, 2, 1), (0, 1, 2)], adjacentEdges := [] }), ((1, 1, 4), { q := 1, r := 1, direction := 4, road := none, hexes := [(1, 1)], vertices := [(0, 2, 1), (0, 1, 2), (1, 0, 3)], adjacentEdges := [] }), ((1, 1, 5), { q := 1, r := 1, direction := 5, road := none, hexes := [(1, 1)], vertices := [(2, 0, 4), (0, 1, 2), (1, 0, 3)], adjacentEdges := [] }), ((2, 0, 0), { q := 2, r := 0, direction := 0, road := none, hexes := [(2, 0)], vertices := [(3, -1, 4), (3, 0, 5), (2, -1, 3)], adjacentEdges := [] }), ((2, 0, 1), { q := 2, r := 0, direction := 1, road := none, hexes := [(2, 0)], vertices := [(3, -1, 4), (3, 0, 5), (2, 1, 0)], adjacentEdges := [] })]

/-- Snapshot chunk (see `gameZval`). -/
def edgesZv11 : List (VEId × Edge) := [((2, 0, 2), { q := 2, r := 0, direction := 2, road := none, hexes := [(2, 0)], vertices := [(3, 0, 5), (2, 1, 0), (1, 1, 1)], adjacentEdges := [] }), ((2, 0, 3), { q := 2, r := 0, direction := 3, road := none, hexes := [(2, 0)], vertices := [(2, 1, 0), (1, 1, 1), (1, 0, 2)], adjacentEdges := [] }), ((2, 0, 4), { q := 2, r := 0, direction := 4, road := none, hexes := [(2, 0)], vertices := [(1, 1, 1), (1, 0, 2), (2, -1, 3)], adjacentEdges := [] }), ((2, 0, 5), { q := 2, r := 0, direction := 5, road := none, hexes := [(2, 0)], vertices := [(3, -1, 4), (1, 0, 2), (2, -1, 3)], adjacentEdges := [] })]

/-- Snapshot chunk concatenation (see `gameZval`). -/
def edgesZv : List (VEId × Edge) := edgesZv0 ++ edgesZv1 ++ edgesZv2 ++ edgesZv3 ++ edgesZv4 ++ edgesZv5 ++ edgesZv6 ++ edgesZv7 ++ edgesZv8 ++ edgesZv9 ++ edgesZv10 ++ edgesZv11

/-- Snapshot chunk (see `gameZval`). -/
def tokensZv : List NumberToken := [{ value := 2, hex := some (-1, -1) }, { value := 3, hex := some (-2, 1) }, { value := 3, hex := some (-1, 0) }, { value := 4, hex := some (0, -1) }, { value := 4, hex := some (1, -2) }, { value := 5, hex := some (-1, 1) }, { value := 5, hex := some (1, -1) }, { value := 6, hex := some (0, 0) }, { value := 6, hex := some (-2, 0) }, { value := 8, hex := some (0, -2) }, { value := 8, hex := some (-2, 2) }, { value := 9, hex := some (2, -2) }, { value := 9, hex := some (-1, 2) }, { value := 10, hex := some (0, 1) }, { value := 10, hex := some (1, 0) }, { value := 11, hex := some (2, -1) }, { value := 11, hex := some (0, 2) }, { value := 12, hex := some (2, 0) }]

/-- Snapshot chunk (see `gameZval`). -/
def playersZv : List Player := [{ idx := 0, color := "red", name := "Red", settlements := [], cities := [], roads := [], settlementsRemaining := 5, citiesRemaining := 4, roadsRemaining := 15, resources := { lumber := 0, brick := 0, ore := 0, grain := 0, wool := 0 }, dcVictoryPoint := 0, victoryPoints := 0, knightsPlayed := 0, hasLongestRoad := false, hasLargestArmy := false, payForOverridden := false, nextPieceId := 1 }, { idx := 1, color := "blue", name := "Blue", settlements := [], cities := [], roads := [], settlementsRemaining := 5, citiesRemaining := 4, roadsRemaining := 15, resources := { lumber := 0, brick := 0, ore := 0, grain := 0, wool := 0 }, dcVictoryPoint := 0, victoryPoints := 0, knightsPlayed := 0, hasLongestRoad := false, hasLargestArmy := false, payForOverridden := false, nextPieceId := 1 }]

/-- Kernel-computed snapshot of `gameZ` (the two-player game after
`startGame()` on the all-zero stream).  Proved equal to the program's
output once (`gameZ_val`) so the concrete claim theorems evaluate
cheaply; the chunks are not part of the embedding itself. -/
def gameZval : Game :=
  { board := { hexes := hexesZv, vertices := vertsZv, edges := edgesZv,
               numberTokens := tokensZv, robber := { hex := some (1, 1) },
               isGenerated := true, boardType := "standard" },
    players := playersZv, gamePhase := Phase.setup, currentPlayerIndex := 0,
    turnNumber := 0, setupRound := 1, setupDirection := 1,
    hasRolledDice := false, diceResult := none, canBuild := false,
    canTrade := false, eventLog := 3, winner := none,
    targetVictoryPoints := 10, maxPlayers := 6 }

/-- The claim's tile-production condition for a rolled total and a
resource kind: the bound marker's value equals the total, the terrain is
neither desert nor sea, the tile does not carry the robber, and the
tile's resource is the given kind. -/
def hexMatches (b : Board) (h : Hex) (total : Nat) (s : String) : Bool :=
  decide (hexTokenValue b h = some total) &&
    decide (h.terrain ≠ Terrain.desert) && decide (h.terrain ≠ Terrain.sea) &&
    ! h.hasRobber && decide (terrainResource h.terrain = some s)

/-- Number of adjacent tiles of a building's corner that produce the
given resource for the rolled total (the claim's per-building yield). -/
def vertexYield (b : Board) (vloc : Option VEId) (total : Nat) (s : String) : Nat :=
  match vloc with
  | none => 0
  | some vid =>
    match mapGet b.vertices vid with
    | none => 0
    | some v =>
      (v.hexes.filter (fun hk =>
        match mapGet b.hexes hk with
        | some h => hexMatches b h total s
        | none => false)).length

/-- The claim's production formula for one player: 1 unit per adjacent
matching tile per settlement, 2 per city. -/
def playerProduction (b : Board) (p : Player) (total : Nat) (s : String) : Nat :=
  (p.settlements.map (fun pc => vertexYield b pc.loc total s)).sum +
    2 * (p.cities.map (fun pc => vertexYield b pc.loc total s)).sum

/-- The first player index (in seating order) whose recomputed score
reaches the target, scanning an indexed player list. -/
def firstAtOrAbove (target : Int) : List (Nat × Player) → Option Nat
  | [] => none
  | ip :: rest =>
    if target ≤ ip.2.updateVictoryPoints.victoryPoints then some ip.1
    else firstAtOrAbove target rest

/-- Call `game.players[i].buildCity(vertex)` and store the mutated
objects back (the city-upgrade path used by the UI layer; `Game` has no
city-placement method of its own). -/
def doBuildCity (g : Game) (pi : Nat) (vid : VEId) : Game :=
  match g.players.get? pi with
  | some p =>
    let r := p.buildCity g.board vid
    setPlayer { g with board := r.2.1 } pi r.1
  | none => g

/-- C8 script: advance the two-player game through the four setup turn
ends into the playing phase. -/
def gC8a : Game := gameZ.endTurn.endTurn.endTurn.endTurn

/-- C8 script: roll the dice (all-zero stream: 1 and 1, total 2). -/
def gC8b : Game := (gC8a.rollDice []).1

/-- C8 script: grant player 0 the resources for seven settlements and
three cities. -/
def gC8c : Game :=
  updatePlayerAt gC8b 0 (fun p =>
    ((((p.addResources "lumber" 7).addResources "brick" 7).addResources
        "wool" 7).addResources "grain" 13).addResources "ore" 9)

/-- C8 script: three settlements, upgraded to three cities, then three
more settlements — player 0's score reaches 9. -/
def gC8d : Game :=
  let g1 := (gC8c.placeSettlement (1, 0, 5) (some 0)).1
  let g2 := (g1.placeSettlement (1, -1, 4) (some 0)).1
  let g3 := (g2.placeSettlement (0, 1, 0) (some 0)).1
  let g4 := doBuildCity g3 0 (1, 0, 5)
  let g5 := doBuildCity g4 0 (1, -1, 4)
  let g6 := doBuildCity g5 0 (0, 1, 0)
  let g7 := (g6.placeSettlement (-1, 1, 1) (some 0)).1
  let g8 := (g7.placeSettlement (-1, 0, 2) (some 0)).1
  (g8.placeSettlement (0, -1, 3) (some 0)).1

/-- C8 script: the completed placement that lifts player 0 to score 10. -/
def gC8final : Game × Option Nat := gC8d.placeSettlement (2, 0, 4) (some 0)

/-- C8 witness fixture: a playing-phase game whose only player already
holds 4 settlements and 3 cities (score 10). -/
def pW8 : Player :=
  { idx := 0, color := "red", name := "R",
    settlements := [{ pid := 1 }, { pid := 2 }, { pid := 3 }, { pid := 4 }],
    cities := [{ pid := 5 }, { pid := 6 }, { pid := 7 }] }

/-- C8 witness fixture: a playing-phase game whose only player already
holds score 10. -/
def gW8 : Game := { players := [pW8], gamePhase := Phase.playing }

/-- All five resource counters are nonnegative (the data-model invariant
the spec states for the player ledger). -/
def resourcesNonneg (p : Player) : Prop :=
  0 ≤ p.resources.lumber ∧ 0 ≤ p.resources.brick ∧ 0 ≤ p.resources.ore ∧
    0 ≤ p.resources.grain ∧ 0 ≤ p.resources.wool

/-- C7 witness fixture: a corner holding player 0's settlement (pid 2). -/
def vW : Vertex :=
  { q := 0, r := 0, direction := 0,
    building := some { btype := BType.settlement, owner := 0, pid := 2 } }

/-- C7 witness fixture: a one-corner board. -/
def bW : Board := { vertices := [((0, 0, 0), vW)] }

/-- C7 witness fixture: a player with 3 settlements, 0 cities, no
achievements, holding a city's cost. -/
def pW : Player :=
  { idx := 0, color := "red", name := "R",
    settlements := [{ pid := 1, loc := some (9, 9, 0) },
                    { pid := 2, loc := some (0, 0, 0) },
                    { pid := 3, loc := some (8, 8, 0) }],
    resources := { ore := 3, grain := 2 },
    nextPieceId := 4 }

/-- C4 witness fixture: a lone forest tile bound to token value 6. -/
def hW4 : Hex :=
  { q := 0, r := 0, terrain := Terrain.forest, numberToken := some 0,
    vertices := [(1, 0, 5)] }

/-- C4 witness fixture: the tile's corner. -/
def vW4 : Vertex :=
  { q := 1, r := 0, direction := 5, hexes := [(0, 0)] }

/-- C4 witness fixture: the one-tile board. -/
def bW4 : Board :=
  { hexes := [((0, 0), hW4)], vertices := [((1, 0, 5), vW4)],
    numberTokens := [{ value := 6, hex := some (0, 0) }] }

/-- C4 witness fixture: a player with one settlement on the corner. -/
def pW4 : Player :=
  { idx := 0, color := "red", name := "R",
    settlements := [{ pid := 1, loc := some (1, 0, 5) }],
    nextPieceId := 2 }

/-- C4 witness fixture: the playing-phase game. -/
def gW4 : Game :=
  { board := bW4, players := [pW4], gamePhase := Phase.playing }

/-- The generation-invariant part of a tile: coordinates, terrain and
robber flag (everything but the token binding and the relationship
lists). -/
def hexBase (h : Hex) : Int × Int × Terrain × Bool :=
  (h.q, h.r, h.terrain, h.hasRobber)

/-- The tile map projected to bases. -/
def boardBases (b : Board) : List (HexId × (Int × Int × Terrain × Bool)) :=
  b.hexes.map (fun kv => (kv.1, hexBase kv.2))

/-- A tile's base together with its token binding. -/
def hexCore (h : Hex) : Int × Int × Terrain × Option Nat × Bool :=
  (h.q, h.r, h.terrain, h.numberToken, h.hasRobber)

/-- The tile map projected to cores. -/
def boardCores (b : Board) : List (HexId × (Int × Int × Terrain × Option Nat × Bool)) :=
  b.hexes.map (fun kv => (kv.1, hexCore kv.2))

/-- The tile entries created by the hex-creation loop. -/
def layoutHexes : List HexId → List Terrain → Nat → List (HexId × Hex)
  | [], _, _ => []
  | c :: rest, ts, i =>
    ((c.1, c.2), ({ q := c.1, r := c.2, terrain := ts.getD i Terrain.desert } : Hex)) ::
      layoutHexes rest ts (i + 1)


/-- The red-token constraint of claim C6: no two tiles bound to
high-probability markers reference each other as neighbors. -/
def noMutualHighPair (b : Board) : Prop :=
  ∀ k1 k2 h1 h2, mapGet b.hexes k1 = some h1 → mapGet b.hexes k2 = some h2 →
    k1 ≠ k2 → hexHasHighToken b h1 = true → hexHasHighToken b h2 = true →
    ¬(k2 ∈ h1.neighbors ∧ k1 ∈ h2.neighbors)


/-! ## Theorems -/

/-- The snapshot `gameZval` is exactly the program's output `gameZ`. -/
theorem gameZ_val : gameZ = gameZval := by rfl

/-- `boardZ` is the board inside that snapshot: `startGame` builds it by
the same `generateStandardBoard` call on the same stream. -/
theorem boardZ_val : boardZ = gameZval.board := by rfl

/-- C1: after `Board.generateStandardBoard()` builds the standard
19-tile layout, the corners and sides are NOT canonicalized to shared
entities: the board holds 114 corner and 114 side entities (one per
tile-direction pair, instead of 54 shared corners and 72 shared sides),
every corner references exactly 1 tile (never 3) and 3 sides, and every
side references exactly 1 tile (never 2) and 3 corners (never 2).  This
contradicts the claim's reference counts (and the source's own
documentation of `Vertex.hexes` and `Edge.vertices`), because
`getVertexCoords` maps each (hex, direction) pair to a distinct key and
`getEdgeCoords` is the identity on the hex's own coordinates. -/
theorem c1_corner_side_reference_counts :
    boardZ.vertices.length = 114 ∧ boardZ.edges.length = 114 ∧
    (∀ kv ∈ boardZ.vertices, kv.2.hexes.length = 1 ∧ kv.2.edges.length = 3) ∧
    (∀ kv ∈ boardZ.edges, kv.2.hexes.length = 1 ∧ kv.2.vertices.length = 3) := by
  rw [boardZ_val]
  decide

/-- C2: the settlement distance rule is not enforced.  On the generated
board, after player 0 settles corner C = (1,0,5), the corner
D = (1,-1,4) is directly connected to C (they share side (0,0,0)), yet
`Vertex.canPlaceSettlement` on D still returns `true`, and
`Game.placeSettlement` on D succeeds (returns a piece, changes D's
building slot and decreases player 1's resources) instead of failing
with unchanged state.  The adjacency check loops over
`vertex.adjacentVertices`, which no code ever populates. -/
theorem c2_distance_rule_not_enforced :
    ((mapGet gC2b.board.vertices (1, 0, 5)).map
        (fun v => v.building.isSome) = some true) ∧
    ((mapGet gC2b.board.vertices (1, 0, 5)).map
        (fun v => v.edges.any (fun e => e = (0, 0, 0))) = some true) ∧
    ((mapGet gC2b.board.vertices (1, -1, 4)).map
        (fun v => v.edges.any (fun e => e = (0, 0, 0))) = some true) ∧
    ((mapGet gC2b.board.vertices (1, -1, 4)).map
        (fun v => canPlaceSettlement gC2b.board v) = some true) ∧
    gC2c.2 = some 1 ∧
    ((mapGet gC2c.1.board.vertices (1, -1, 4)).map
        (fun v => v.building.isSome) = some true) ∧
    ((gC2c.1.players.get? 1).map (fun p => p.resources.lumber) = some 0) ∧
    ((gC2b.players.get? 1).map (fun p => p.resources.lumber) = some 1) := by
  unfold gC2c gC2b gC2a
  rw [gameZ_val]
  decide

/-- C3: setup placements are NOT free of resource cost.  (a) A player
holding zero resources fails to place a setup settlement
(`placeSetupSettlement` returns `null` and leaves the game unchanged),
because `Player.buildSettlement` checks `canAfford` before the
`payFor = () => true` override is installed; (b) a player holding
exactly one settlement's cost succeeds but is charged (all five
counters drop to zero); (c) in setup round 2 the placed settlement
grants nothing even though its adjacent tile (0,0) is a producing tile,
because `settlement.collectResources()` is called without a dice-roll
argument and `hex.shouldProduce(undefined)` is always false. -/
theorem c3_setup_placement_not_free :
    c3Fresh.2 = none ∧ c3Fresh.1 = gameZ ∧
    c3Paid.2 = some 1 ∧
    ((c3Paid.1.players.get? 0).map (fun p => p.resources) =
      some { lumber := 0, brick := 0, ore := 0, grain := 0, wool := 0 }) ∧
    gC3c.setupRound = 2 ∧
    c3Round2.2 = some 1 ∧
    ((mapGet gC3c.board.vertices (1, 0, 5)).map (fun v => v.hexes) =
      some [(0, 0)]) ∧
    ((mapGet gC3c.board.hexes (0, 0)).map
        (fun h => hexCanProduceResources h && ! h.hasRobber) = some true) ∧
    ((c3Round2.1.players.get? 1).map (fun p => p.resources) =
      some { lumber := 0, brick := 0, ore := 0, grain := 0, wool := 0 }) := by
  unfold c3Round2 gC3c c3Paid gC3b c3Fresh
  rw [gameZ_val]
  decide


/-- `Player.removeResources` on a known kind sets the counter to
`max 0 (previous - amount)` and returns true. -/
theorem removeResources_known (p : Player) (s : String) (n : Int)
    (h : Resources.hasKey s = true) :
    p.removeResources s n =
      ({ p with resources := p.resources.set s (max 0 (p.resources.get s - n)) },
       true) := by
  unfold Player.removeResources
  simp [h]

/-- `Player.removeResources` on an unknown kind fails and changes nothing. -/
theorem removeResources_unknown (p : Player) (s : String) (n : Int)
    (h : Resources.hasKey s = false) :
    p.removeResources s n = (p, false) := by
  unfold Player.removeResources
  simp [h]

/-- `removeResources` keeps all counters nonnegative. -/
theorem removeResources_nonneg (p : Player) (s : String) (n : Int)
    (h : resourcesNonneg p) : resourcesNonneg (p.removeResources s n).1 := by
  unfold Player.removeResources
  by_cases hk : Resources.hasKey s
  · simp only [hk, if_true]
    obtain ⟨h1, h2, h3, h4, h5⟩ := h
    unfold resourcesNonneg Resources.set
    split_ifs <;> refine ⟨?_, ?_, ?_, ?_, ?_⟩ <;>
      first
        | exact le_max_left 0 _
        | assumption
  · simp only [hk, if_false]
    exact h

/-- Folding `removeResources` over a cost list keeps counters nonnegative. -/
theorem foldl_removeResources_nonneg (l : List (String × Int)) (p : Player)
    (h : resourcesNonneg p) :
    resourcesNonneg (l.foldl (fun p ce => (p.removeResources ce.1 ce.2).1) p) := by
  induction l generalizing p with
  | nil => exact h
  | cons ce t ih => exact ih _ (removeResources_nonneg _ _ _ h)

/-- `Player.payFor` keeps all counters nonnegative. -/
theorem payFor_nonneg (p : Player) (bt : String) (h : resourcesNonneg p) :
    resourcesNonneg (p.payFor bt).1 := by
  unfold Player.payFor
  split
  · exact h
  · split
    · exact h
    · split
      · exact h
      · exact foldl_removeResources_nonneg _ _ h

/-- One discard pass keeps all counters nonnegative. -/
theorem discardPass_nonneg (l : List String) (p : Player) (remaining : Nat)
    (h : resourcesNonneg p) : resourcesNonneg (discardPass l p remaining).1 := by
  induction l generalizing p remaining with
  | nil => exact h
  | cons k t ih =>
    unfold discardPass
    split
    · exact h
    · split
      · exact ih _ _ (removeResources_nonneg _ _ _ h)
      · exact ih _ _ h

/-- The discard loop keeps all counters nonnegative. -/
theorem discardLoop_nonneg : ∀ (remaining : Nat) (p : Player),
    resourcesNonneg p → resourcesNonneg (discardLoop p remaining).1 := by
  intro remaining
  induction remaining using Nat.strong_induction_on with
  | _ remaining ih =>
    intro p h
    rw [discardLoop]
    split
    · exact h
    · dsimp only
      split
      · exact ih _ (by assumption) _ (discardPass_nonneg _ _ _ h)
      · exact discardPass_nonneg _ _ _ h

/-- `Player.discardHalf` keeps all counters nonnegative. -/
theorem discardHalf_nonneg (p : Player) (h : resourcesNonneg p) :
    resourcesNonneg p.discardHalf.1 := by
  unfold Player.discardHalf
  dsimp only
  split
  · exact h
  · exact discardLoop_nonneg _ _ h

/-- C10: for every player, resource kind string and amount,
`Player.removeResources` returns true and clamps the counter at
`max 0 (previous - amount)` for each of the five known kinds, returns
false (changing nothing) exactly for unknown kinds, and consequently no
counter ever becomes negative through `removeResources`, `payFor` or
`discardHalf`. -/
theorem c10_removeResources_clamps_at_zero (p : Player) (s : String) (n : Int) :
    (Resources.hasKey s = true →
      p.removeResources s n =
        ({ p with resources := p.resources.set s (max 0 (p.resources.get s - n)) },
         true)) ∧
    (Resources.hasKey s = false → p.removeResources s n = (p, false)) ∧
    (resourcesNonneg p →
      resourcesNonneg (p.removeResources s n).1 ∧
      (∀ bt : String, resourcesNonneg (p.payFor bt).1) ∧
      resourcesNonneg p.discardHalf.1) :=
  ⟨removeResources_known p s n,
   removeResources_unknown p s n,
   fun h => ⟨removeResources_nonneg p s n h,
             fun bt => payFor_nonneg p bt h,
             discardHalf_nonneg p h⟩⟩

/-- C10 witness: the clamp at a concrete input (2 lumber, removing 5
leaves 0 and returns true; an unknown kind returns false; the
nonnegativity facts hold for the same player). -/
theorem c10_witness :
    Resources.hasKey "lumber" = true ∧
    Resources.hasKey "gold" = false ∧
    resourcesNonneg pW ∧
    (pW.removeResources "lumber" 5 =
      ({ pW with resources := pW.resources.set "lumber" (max 0 (pW.resources.get "lumber" - 5)) }, true)) ∧
    pW.removeResources "gold" 5 = (pW, false) ∧
    resourcesNonneg (pW.removeResources "lumber" 5).1 :=
  ⟨by decide, by decide, by unfold resourcesNonneg; decide,
   (c10_removeResources_clamps_at_zero pW "lumber" 5).1 (by decide),
   (c10_removeResources_clamps_at_zero pW "gold" 5).2.1 (by decide),
   ((c10_removeResources_clamps_at_zero pW "lumber" 5).2.2
     (by unfold resourcesNonneg; decide)).1⟩


/-- Removing a present piece id shortens the list by exactly one. -/
theorem removePieceById_length (l : List OwnedPiece) (pid : Nat)
    (h : pid ∈ l.map (fun x => x.pid)) :
    (removePieceById l pid).length + 1 = l.length := by
  induction l with
  | nil => simp at h
  | cons x t ih =>
    by_cases hx : x.pid = pid
    · simp [removePieceById, hx]
    · have hmem : pid ∈ t.map (fun x => x.pid) := by
        simp only [List.map_cons, List.mem_cons] at h
        exact h.resolve_left (fun e => hx e.symm)
      have ht := ih hmem
      simp only [removePieceById, hx, if_false, List.length_cons]
      omega

/-- A count of one implies membership. -/
theorem mem_of_count_eq_one {l : List Nat} {a : Nat} (h : l.count a = 1) :
    a ∈ l := by
  have : l.count a ≠ 0 := by omega
  exact List.count_pos_iff.mp (Nat.pos_of_ne_zero this)


/-- Updating the stored value at a present key. -/
theorem mapGet_mapUpdate_eq {κ ν : Type} [DecidableEq κ] (m : List (κ × ν))
    (k : κ) (f : ν → ν) (v : ν) (h : mapGet m k = some v) :
    mapGet (mapUpdate m k f) k = some (f v) := by
  induction m with
  | nil => simp [mapGet] at h
  | cons kv t ih =>
    by_cases hk : kv.1 = k
    · simp [mapGet, mapUpdate, hk] at h ⊢
      exact congrArg f h
    · simp [mapGet, mapUpdate, hk] at h ⊢
      exact ih h

/-- `removeResources` mutates only the resource counters. -/
theorem removeResources_only_resources (p : Player) (s : String) (n : Int) :
    (p.removeResources s n).1 =
      { p with resources := (p.removeResources s n).1.resources } := by
  unfold Player.removeResources
  split <;> rfl

/-- Paying a cost list mutates only the resource counters. -/
theorem foldl_removeResources_only_resources (l : List (String × Int)) (p : Player) :
    l.foldl (fun p ce => (p.removeResources ce.1 ce.2).1) p =
      { p with resources :=
          (l.foldl (fun p ce => (p.removeResources ce.1 ce.2).1) p).resources } := by
  induction l generalizing p with
  | nil => rfl
  | cons ce t ih =>
    simp only [List.foldl_cons]
    rw [ih ((p.removeResources ce.1 ce.2).1)]
    rw [removeResources_only_resources p ce.1 ce.2]

/-- `Player.payFor` mutates only the resource counters. -/
theorem payFor_only_resources (p : Player) (bt : String) :
    (p.payFor bt).1 = { p with resources := (p.payFor bt).1.resources } := by
  unfold Player.payFor
  split
  · rfl
  · split
    · rfl
    · split
      · rfl
      · exact foldl_removeResources_only_resources _ _

/-- C7: `Player.buildCity(vertex)` succeeds exactly when the corner's
building is a settlement owned by the requesting player, the player can
afford a city and has cities remaining; on success it replaces the
corner's building by the city, removes that settlement from the owner's
settlement collection, restores one settlement to the supply
(`settlementsRemaining + 1`), takes one city from the supply and returns
the removed settlement; and a player with 3 settlements, 0 cities and no
achievements goes from score 3 to score 4. -/
theorem c7_buildCity_upgrade (p : Player) (b : Board) (vid : VEId) (v : Vertex)
    (hv : mapGet b.vertices vid = some v) :
    ((p.buildCity b vid).2.2.isSome = true ↔
      (p.canAfford "city" = true ∧ 0 < p.citiesRemaining ∧
        ∃ bd, v.building = some bd ∧ bd.btype = BType.settlement ∧
          bd.owner = p.idx)) ∧
    (∀ cityPid oldS, (p.buildCity b vid).2.2 = some (cityPid, oldS) →
      v.building = some oldS ∧
      mapGet (p.buildCity b vid).2.1.vertices vid =
        some { v with building := some { btype := BType.city, owner := p.idx, pid := cityPid } } ∧
      (p.buildCity b vid).1.settlements = removePieceById p.settlements oldS.pid ∧
      (p.buildCity b vid).1.settlementsRemaining = p.settlementsRemaining + 1 ∧
      (p.buildCity b vid).1.citiesRemaining = p.citiesRemaining - 1 ∧
      (p.buildCity b vid).1.cities.length = p.cities.length + 1) ∧
    (∀ cityPid oldS, (p.buildCity b vid).2.2 = some (cityPid, oldS) →
      p.settlements.length = 3 → p.cities.length = 0 →
      (p.settlements.map (fun x => x.pid)).count oldS.pid = 1 →
      p.hasLongestRoad = false → p.hasLargestArmy = false →
      p.dcVictoryPoint = 0 →
      p.updateVictoryPoints.victoryPoints = 3 ∧
      (p.buildCity b vid).1.victoryPoints = 4) := by
  unfold Player.buildCity vertexUpgradeToCity vertexCanPlaceCity
  rw [hv]
  by_cases hfail : (! p.canAfford "city" || decide (p.citiesRemaining ≤ 0)) = true
  · rw [if_pos hfail]
    refine ⟨?_, ?_, ?_⟩
    · simp only [Option.isSome_none, Bool.false_eq_true, false_iff]
      rintro ⟨h1, h2, -⟩
      rw [Bool.or_eq_true, Bool.not_eq_true'] at hfail
      rcases hfail with hf | hf
      · rw [h1] at hf; cases hf
      · have := of_decide_eq_true hf; omega
    · intro _ _ h; simp at h
    · intro _ _ h; simp at h
  · rw [if_neg hfail]
    rw [Bool.or_eq_true, not_or] at hfail
    obtain ⟨hca0, hdec0⟩ := hfail
    have hca : p.canAfford "city" = true := by simpa using hca0
    have hcr : 0 < p.citiesRemaining := by
      have : ¬ p.citiesRemaining ≤ 0 := by simpa using hdec0
      omega
    dsimp only
    cases hb : v.building with
    | none =>
      rw [if_neg (by simp)]
      refine ⟨?_, ?_, ?_⟩
      · simp only [Option.isSome_none, Bool.false_eq_true, false_iff]
        rintro ⟨-, -, bd, hbd, -⟩
        cases hbd
      · intro _ _ h; simp at h
      · intro _ _ h; simp at h
    | some bd =>
      by_cases hok : (decide (bd.btype = BType.settlement) && decide (bd.owner = p.idx)) = true
      · rw [Bool.and_eq_true, decide_eq_true_eq, decide_eq_true_eq] at hok
        obtain ⟨hs1, hs2⟩ := hok
        rw [if_pos (by simp [hs1, hs2])]
        dsimp only
        have hpay := payFor_only_resources ({ p with nextPieceId := p.nextPieceId + 1 }) "city"
        refine ⟨?_, ?_, ?_⟩
        · simp only [Option.isSome_some, true_iff]
          exact ⟨hca, hcr, bd, rfl, hs1, hs2⟩
        · intro cityPid oldS hsome
          obtain ⟨h1, h2⟩ : p.nextPieceId = cityPid ∧ bd = oldS := by
            have h := Option.some.inj hsome
            exact ⟨congrArg Prod.fst h, congrArg Prod.snd h⟩
          subst h1; subst h2
          refine ⟨rfl, mapGet_mapUpdate_eq _ _ _ _ hv, ?_, ?_, ?_, ?_⟩ <;>
            rw [hpay] <;> simp [Player.updateVictoryPoints]
        · intro cityPid oldS hsome h3 h0 hcnt hlr hla hdc
          obtain ⟨h1, h2⟩ : p.nextPieceId = cityPid ∧ bd = oldS := by
            have h := Option.some.inj hsome
            exact ⟨congrArg Prod.fst h, congrArg Prod.snd h⟩
          subst h1; subst h2
          have hlen : (removePieceById p.settlements bd.pid).length + 1 = p.settlements.length :=
            removePieceById_length _ _ (mem_of_count_eq_one hcnt)
          constructor
          · simp [Player.updateVictoryPoints, h3, h0, hlr, hla, hdc]
          · rw [hpay]
            simp only [Player.updateVictoryPoints, List.length_append]
            dsimp only
            simp only [h0, hlr, hla, hdc, List.length_singleton]
            push_cast
            omega
      · rw [if_neg (by simpa using hok)]
        refine ⟨?_, ?_, ?_⟩
        · simp only [Option.isSome_none, Bool.false_eq_true, false_iff]
          rintro ⟨-, -, bd2, hbd, hbt, hbo⟩
          rw [Bool.and_eq_true, decide_eq_true_eq, decide_eq_true_eq] at hok
          injection hbd with he
          exact hok ⟨he ▸ hbt, he ▸ hbo⟩
        · intro _ _ h; simp at h
        · intro _ _ h; simp at h


/-- C7 witness: at the concrete fixture the success condition holds and
the upgrade moves the score from 3 to 4. -/
theorem c7_witness :
    mapGet bW.vertices (0, 0, 0) = some vW ∧
    ((pW.buildCity bW (0, 0, 0)).2.2.isSome = true ↔
      (pW.canAfford "city" = true ∧ 0 < pW.citiesRemaining ∧
        ∃ bd, vW.building = some bd ∧ bd.btype = BType.settlement ∧
          bd.owner = pW.idx)) ∧
    (pW.updateVictoryPoints.victoryPoints = 3 ∧
      (pW.buildCity bW (0, 0, 0)).1.victoryPoints = 4) :=
  ⟨by decide,
   (c7_buildCity_upgrade pW bW (0, 0, 0) vW (by decide)).1,
   (c7_buildCity_upgrade pW bW (0, 0, 0) vW (by decide)).2.2
     pW.nextPieceId { btype := BType.settlement, owner := 0, pid := 2 }
     (by decide) (by decide) (by decide) (by decide) (by decide) (by decide)
     (by decide)⟩



/-- Inserting at the boundary of an append. -/
theorem set_append_length {α : Type} (A : List α) (x : α) (t : List α) (y : α) :
    (A ++ x :: t).set A.length y = A ++ y :: t := by
  induction A with
  | nil => rfl
  | cons a A ih => simp [List.set, ih]

/-- The winner loop of `checkWinCondition`: phase and winner are decided
by the first listed player whose recomputed score reaches the target. -/
theorem checkWinLoop_spec (target : Int) :
    ∀ (l : List (Nat × Player)) (g : Game),
      ((checkWinLoop g target l).1.winner, (checkWinLoop g target l).1.gamePhase) =
        (match firstAtOrAbove target l with
         | some i => (some i, Phase.finished)
         | none => (g.winner, g.gamePhase)) := by
  intro l
  induction l with
  | nil => intro g; rfl
  | cons ip rest ih =>
    intro g
    by_cases hc : target ≤ ip.2.updateVictoryPoints.victoryPoints
    · unfold checkWinLoop firstAtOrAbove
      rw [if_pos hc, if_pos hc]
      rfl
    · unfold checkWinLoop firstAtOrAbove
      rw [if_neg hc, if_neg hc]
      exact ih _

/-- `checkWinLoop` scanning an `enumFrom` list finds exactly the first
player at or above the target. -/
theorem checkWinLoop_first (target : Int) :
    ∀ (players : List Player) (k : Nat) (g : Game),
      (∃ p ∈ players, target ≤ p.updateVictoryPoints.victoryPoints) →
      (checkWinLoop g target (players.enumFrom k)).1.gamePhase = Phase.finished ∧
      ∃ i p, players.get? i = some p ∧
        (checkWinLoop g target (players.enumFrom k)).1.winner = some (k + i) ∧
        target ≤ p.updateVictoryPoints.victoryPoints ∧
        ∀ j q, j < i → players.get? j = some q →
          q.updateVictoryPoints.victoryPoints < target := by
  intro players
  induction players with
  | nil => intro k g h; simp at h
  | cons p t ih =>
    intro k g h
    by_cases hp : target ≤ p.updateVictoryPoints.victoryPoints
    · constructor
      · show (checkWinLoop g target ((k, p) :: t.enumFrom (k + 1))).1.gamePhase = _
        unfold checkWinLoop
        rw [if_pos hp]
        rfl
      · refine ⟨0, p, rfl, ?_, hp, fun j q hj _ => absurd hj (Nat.not_lt_zero j)⟩
        show (checkWinLoop g target ((k, p) :: t.enumFrom (k + 1))).1.winner = _
        unfold checkWinLoop
        rw [if_pos hp]
        rfl
    · have ht : ∃ q ∈ t, target ≤ q.updateVictoryPoints.victoryPoints := by
        rcases h with ⟨q, hq, hq2⟩
        rcases List.mem_cons.mp hq with rfl | hq
        · exact absurd hq2 hp
        · exact ⟨q, hq, hq2⟩
      obtain ⟨h1, i, q, hq, hw, hq2, hfirst⟩ :=
        ih (k + 1) (setPlayer g k p.updateVictoryPoints) ht
      have hside : ∀ j r, j < i + 1 → (p :: t).get? j = some r →
          r.updateVictoryPoints.victoryPoints < target := by
        intro j r hj hr
        cases j with
        | zero =>
          cases hr
          exact lt_of_not_le hp
        | succ j => exact hfirst j r (by omega) hr
      constructor
      · show (checkWinLoop g target ((k, p) :: t.enumFrom (k + 1))).1.gamePhase = _
        unfold checkWinLoop
        rw [if_neg hp]
        exact h1
      · refine ⟨i + 1, q, hq, ?_, hq2, hside⟩
        show (checkWinLoop g target ((k, p) :: t.enumFrom (k + 1))).1.winner = _
        unfold checkWinLoop
        rw [if_neg hp]
        rw [hw]
        congr 1
        omega

/-- Ending a setup turn does not change the player list or the target. -/
theorem endSetupTurn_preserves (g : Game) :
    g.endSetupTurn.players = g.players ∧
    g.endSetupTurn.targetVictoryPoints = g.targetVictoryPoints := by
  unfold Game.endSetupTurn logEvent
  dsimp only
  split_ifs <;> exact ⟨rfl, rfl⟩

/-- Ending a normal turn does not change the player list or the target. -/
theorem endNormalTurn_preserves (g : Game) :
    g.endNormalTurn.players = g.players ∧
    g.endNormalTurn.targetVictoryPoints = g.targetVictoryPoints := by
  unfold Game.endNormalTurn logEvent
  exact ⟨rfl, rfl⟩

/-- C8 (amended): the win check runs on every `endTurn` (not after
placements): whenever some player's recomputed score reaches the target,
`endTurn` leaves the game `finished` with the winner recorded as the
first such player in seating order. -/
theorem c8_endTurn_win_check (g : Game)
    (h : ∃ p ∈ g.players, g.targetVictoryPoints ≤ p.updateVictoryPoints.victoryPoints) :
    g.endTurn.gamePhase = Phase.finished ∧
    ∃ i p, g.players.get? i = some p ∧
      g.endTurn.winner = some i ∧
      g.targetVictoryPoints ≤ p.updateVictoryPoints.victoryPoints ∧
      ∀ j q, j < i → g.players.get? j = some q →
        q.updateVictoryPoints.victoryPoints < g.targetVictoryPoints := by
  unfold Game.endTurn Game.checkWinCondition
  have key : ∀ g' : Game, g'.players = g.players →
      g'.targetVictoryPoints = g.targetVictoryPoints →
      (checkWinLoop g' g'.targetVictoryPoints g'.players.enum).1.gamePhase = Phase.finished ∧
      ∃ i p, g.players.get? i = some p ∧
        (checkWinLoop g' g'.targetVictoryPoints g'.players.enum).1.winner = some i ∧
        g.targetVictoryPoints ≤ p.updateVictoryPoints.victoryPoints ∧
        ∀ j q, j < i → g.players.get? j = some q →
          q.updateVictoryPoints.victoryPoints < g.targetVictoryPoints := by
    intro g' hp ht
    rw [hp, ht]
    have := checkWinLoop_first g.targetVictoryPoints g.players 0 g' h
    rw [List.enum] at *
    obtain ⟨h1, i, p, hip, hw, hle, hfirst⟩ := this
    exact ⟨h1, i, p, hip, by simpa using hw, hle, hfirst⟩
  dsimp only
  split
  · exact key _ (endSetupTurn_preserves g).1 (endSetupTurn_preserves g).2
  · split
    · exact key _ (endNormalTurn_preserves g).1 (endNormalTurn_preserves g).2
    · exact key g rfl rfl


/-- C8 (counterexample): after a completed placement that lifts player 0
to score 10 (the target), the game is still at rest in phase `playing`
with no winner recorded: placements never run the win check, only
`endTurn` does. -/
theorem c8_placement_no_win_check :
    gC8final.2.isSome = true ∧
    ((gC8final.1.players.get? 0).map (fun p => p.victoryPoints) = some 10) ∧
    gC8final.1.targetVictoryPoints = 10 ∧
    gC8final.1.gamePhase = Phase.playing ∧
    gC8final.1.winner = none := by
  unfold gC8final gC8d gC8c gC8b gC8a
  rw [gameZ_val]
  decide

/-- C8 witness: ending a turn in a game whose only player holds score 10
finishes the game and records that player as winner. -/
theorem c8_witness :
    (∃ p ∈ gW8.players,
        gW8.targetVictoryPoints ≤ p.updateVictoryPoints.victoryPoints) ∧
    (gW8.endTurn.gamePhase = Phase.finished ∧
      ∃ i p, gW8.players.get? i = some p ∧
        gW8.endTurn.winner = some i ∧
        gW8.targetVictoryPoints ≤ p.updateVictoryPoints.victoryPoints ∧
        ∀ j q, j < i → gW8.players.get? j = some q →
          q.updateVictoryPoints.victoryPoints < gW8.targetVictoryPoints) :=
  ⟨by decide, c8_endTurn_win_check gW8 (by decide)⟩

/-- A terrain resource string is always one of the five known kinds. -/
theorem terrainResource_hasKey (t : Terrain) (s : String)
    (h : terrainResource t = some s) : Resources.hasKey s = true := by
  cases t <;> simp [terrainResource] at h <;> simp [Resources.hasKey, ← h]

/-- The five cases of a known resource kind. -/
theorem hasKey_cases (s : String) (h : Resources.hasKey s = true) :
    s = "lumber" ∨ s = "brick" ∨ s = "ore" ∨ s = "grain" ∨ s = "wool" := by
  have h2 := h
  simp only [Resources.hasKey, Bool.or_eq_true, decide_eq_true_eq] at h2
  tauto

/-- Writing a known counter and reading any counter. -/
theorem set_get (r : Resources) (s : String) (hs : Resources.hasKey s = true)
    (v : Int) (s' : String) :
    (r.set s v).get s' = if s' = s then v else r.get s' := by
  rcases hasKey_cases s hs with rfl | rfl | rfl | rfl | rfl <;>
  · by_cases k1 : s' = "lumber"
    · subst k1; rfl
    · by_cases k2 : s' = "brick"
      · subst k2; rfl
      · by_cases k3 : s' = "ore"
        · subst k3; rfl
        · by_cases k4 : s' = "grain"
          · subst k4; rfl
          · by_cases k5 : s' = "wool"
            · subst k5; rfl
            · unfold Resources.set Resources.get
              simp [k1, k2, k3, k4, k5]

/-- `addResources` of a known kind adds to exactly that counter. -/
theorem addResources_get (p : Player) (s s' : String) (n : Int)
    (hs : Resources.hasKey s = true) :
    (p.addResources s n).resources.get s' =
      p.resources.get s' + (if s = s' then n else 0) := by
  unfold Player.addResources
  rw [if_pos hs]
  dsimp only
  rw [set_get p.resources s hs _ s']
  by_cases h : s' = s
  · subst h; simp
  · rw [if_neg h, if_neg (fun e => h e.symm)]
    simp

/-- Folding `addResources _ 1` over a list of known kinds adds the count
of each kind. -/
theorem foldl_addResources_get (l : List String) (p : Player) (s : String)
    (hall : ∀ x ∈ l, Resources.hasKey x = true) :
    (l.foldl (fun pl r => pl.addResources r 1) p).resources.get s =
      p.resources.get s + l.count s := by
  induction l generalizing p with
  | nil => simp
  | cons x t ih =>
    simp only [List.foldl_cons, List.count_cons]
    rw [ih _ (fun y hy => hall y (List.mem_cons_of_mem x hy))]
    rw [addResources_get p x s 1 (hall x (List.mem_cons_self _ _))]
    by_cases hx : x = s
    · subst hx; simp
      omega
    · have : ¬ (s == x) = true := by simpa [beq_iff_eq] using fun e => hx e.symm
      simp [hx, this]

/-- A hex should produce the resource `s` exactly when the claim's
matching condition holds. -/
theorem shouldProduce_iff_matches (b : Board) (h : Hex) (total : Nat) (s : String) :
    (hexShouldProduce b h (some total) = true ∧ terrainResource h.terrain = some s) ↔
      hexMatches b h total s = true := by
  unfold hexShouldProduce hexMatches hexCanProduceResources
  cases htv : hexTokenValue b h with
  | none => simp
  | some v =>
    have hsome : h.numberToken.isSome = true := by
      unfold hexTokenValue at htv
      cases hnt : h.numberToken <;> rw [hnt] at htv <;> simp_all
    simp only [hsome, Bool.and_eq_true, Bool.not_eq_true', decide_eq_true_eq,
      and_true, Option.some.injEq]
    constructor
    · rintro ⟨⟨⟨⟨hd, hsea⟩, hval⟩, hrob⟩, hres⟩
      exact ⟨⟨⟨⟨hval, hd⟩, hsea⟩, hrob⟩, hres⟩
    · rintro ⟨⟨⟨⟨hval, hd⟩, hsea⟩, hrob⟩, hres⟩
      exact ⟨⟨⟨⟨hd, hsea⟩, hval⟩, hrob⟩, hres⟩

/-- Pushing one hex's yield changes the count of `s` by the claim's
matching test. -/
theorem settleStep_count (b : Board) (total : Nat) (s : String)
    (acc : List String) (hk : HexId) :
    (settleStep b (some total) acc hk).count s =
      acc.count s +
        (if (match mapGet b.hexes hk with
             | some h => hexMatches b h total s
             | none => false) = true then 1 else 0) := by
  unfold settleStep
  cases hg : mapGet b.hexes hk with
  | none => simp
  | some h =>
    dsimp only
    by_cases hsp : hexShouldProduce b h (some total) = true
    · rw [if_pos hsp]
      cases htr : terrainResource h.terrain with
      | none =>
        have hm : hexMatches b h total s = false := by
          cases he : hexMatches b h total s
          · rfl
          · have h2 := ((shouldProduce_iff_matches b h total s).2 he).2
            rw [htr] at h2; cases h2
        simp [hm]
      | some rt =>
        by_cases hrs : rt = s
        · rw [hrs] at htr
          have hm : hexMatches b h total s = true :=
            (shouldProduce_iff_matches b h total s).1 ⟨hsp, htr⟩
          simp [hm, List.count_append, List.count_cons, hrs]
        · have hm : hexMatches b h total s = false := by
            cases he : hexMatches b h total s
            · rfl
            · have h2 := ((shouldProduce_iff_matches b h total s).2 he).2
              rw [htr] at h2
              exact absurd (Option.some.inj h2) hrs
          simp [hm, List.count_append, List.count_cons, hrs]
    · have hm : hexMatches b h total s = false := by
        cases he : hexMatches b h total s
        · rfl
        · exact absurd ((shouldProduce_iff_matches b h total s).2 he).1 hsp
      rw [if_neg hsp]
      simp [hm]

/-- The city step pushes the resource twice. -/
theorem cityStep_count (b : Board) (total : Nat) (s : String)
    (acc : List String) (hk : HexId) :
    (cityStep b (some total) acc hk).count s =
      acc.count s +
        2 * (if (match mapGet b.hexes hk with
             | some h => hexMatches b h total s
             | none => false) = true then 1 else 0) := by
  unfold cityStep
  cases hg : mapGet b.hexes hk with
  | none => simp
  | some h =>
    dsimp only
    by_cases hsp : hexShouldProduce b h (some total) = true
    · rw [if_pos hsp]
      cases htr : terrainResource h.terrain with
      | none =>
        have hm : hexMatches b h total s = false := by
          cases he : hexMatches b h total s
          · rfl
          · have h2 := ((shouldProduce_iff_matches b h total s).2 he).2
            rw [htr] at h2; cases h2
        simp [hm]
      | some rt =>
        by_cases hrs : rt = s
        · rw [hrs] at htr
          have hm : hexMatches b h total s = true :=
            (shouldProduce_iff_matches b h total s).1 ⟨hsp, htr⟩
          simp [hm, List.count_append, List.count_cons, hrs]
        · have hm : hexMatches b h total s = false := by
            cases he : hexMatches b h total s
            · rfl
            · have h2 := ((shouldProduce_iff_matches b h total s).2 he).2
              rw [htr] at h2
              exact absurd (Option.some.inj h2) hrs
          simp [hm, List.count_append, List.count_cons, hrs]
    · have hm : hexMatches b h total s = false := by
        cases he : hexMatches b h total s
        · rfl
        · exact absurd ((shouldProduce_iff_matches b h total s).2 he).1 hsp
      rw [if_neg hsp]
      simp [hm]

/-- Folding the settlement step over the corner's hexes counts the
matching tiles. -/
theorem foldl_settleStep_count (b : Board) (total : Nat) (s : String)
    (hks : List HexId) :
    ∀ acc : List String,
    (hks.foldl (settleStep b (some total)) acc).count s =
      acc.count s + (hks.filter (fun hk =>
        match mapGet b.hexes hk with
        | some h => hexMatches b h total s
        | none => false)).length := by
  induction hks with
  | nil => intro acc; simp
  | cons hk t ih =>
    intro acc
    simp only [List.foldl_cons, List.filter_cons]
    rw [ih, settleStep_count]
    by_cases hc : (match mapGet b.hexes hk with
      | some h => hexMatches b h total s
      | none => false) = true
    · simp only [if_pos hc, List.length_cons]
      omega
    · simp only [if_neg hc]
      omega

/-- Folding the city step counts each matching tile twice. -/
theorem foldl_cityStep_count (b : Board) (total : Nat) (s : String)
    (hks : List HexId) :
    ∀ acc : List String,
    (hks.foldl (cityStep b (some total)) acc).count s =
      acc.count s + 2 * (hks.filter (fun hk =>
        match mapGet b.hexes hk with
        | some h => hexMatches b h total s
        | none => false)).length := by
  induction hks with
  | nil => intro acc; simp
  | cons hk t ih =>
    intro acc
    simp only [List.foldl_cons, List.filter_cons]
    rw [ih, cityStep_count]
    by_cases hc : (match mapGet b.hexes hk with
      | some h => hexMatches b h total s
      | none => false) = true
    · simp only [if_pos hc, List.length_cons]
      omega
    · simp only [if_neg hc]
      omega

/-- A settlement collects exactly the number of adjacent matching
tiles of each kind. -/
theorem settlementCollect_count (b : Board) (vloc : Option VEId)
    (total : Nat) (s : String) :
    (settlementCollectResources b vloc (some total)).count s =
      vertexYield b vloc total s := by
  unfold settlementCollectResources vertexYield
  cases vloc with
  | none => rfl
  | some vid =>
    dsimp only
    cases hv : mapGet b.vertices vid with
    | none => rfl
    | some v => simpa using foldl_settleStep_count b total s v.hexes []

/-- A city collects twice the number of adjacent matching tiles. -/
theorem cityCollect_count (b : Board) (vloc : Option VEId)
    (total : Nat) (s : String) :
    (cityCollectResources b vloc (some total)).count s =
      2 * vertexYield b vloc total s := by
  unfold cityCollectResources vertexYield
  cases vloc with
  | none => rfl
  | some vid =>
    dsimp only
    cases hv : mapGet b.vertices vid with
    | none => rfl
    | some v => simpa using foldl_cityStep_count b total s v.hexes []

/-- Every string pushed by the settlement step is either already in the
accumulator or a known resource kind. -/
theorem settleStep_keys (b : Board) (d : Option Nat) (acc : List String)
    (hk : HexId) :
    ∀ x ∈ settleStep b d acc hk, x ∈ acc ∨ Resources.hasKey x = true := by
  intro x hx
  unfold settleStep at hx
  cases hg : mapGet b.hexes hk with
  | none => rw [hg] at hx; exact Or.inl hx
  | some h =>
    rw [hg] at hx
    dsimp only at hx
    by_cases hsp : hexShouldProduce b h d = true
    · rw [if_pos hsp] at hx
      cases htr : terrainResource h.terrain with
      | none => rw [htr] at hx; exact Or.inl hx
      | some rt =>
        rw [htr] at hx
        dsimp only at hx
        rcases List.mem_append.1 hx with h1 | h1
        · exact Or.inl h1
        · right
          have hxr : x = rt := by simpa using h1
          subst hxr
          exact terrainResource_hasKey _ _ htr
    · rw [if_neg hsp] at hx
      exact Or.inl hx

/-- Every string pushed by the city step is either already in the
accumulator or a known resource kind. -/
theorem cityStep_keys (b : Board) (d : Option Nat) (acc : List String)
    (hk : HexId) :
    ∀ x ∈ cityStep b d acc hk, x ∈ acc ∨ Resources.hasKey x = true := by
  intro x hx
  unfold cityStep at hx
  cases hg : mapGet b.hexes hk with
  | none => rw [hg] at hx; exact Or.inl hx
  | some h =>
    rw [hg] at hx
    dsimp only at hx
    by_cases hsp : hexShouldProduce b h d = true
    · rw [if_pos hsp] at hx
      cases htr : terrainResource h.terrain with
      | none => rw [htr] at hx; exact Or.inl hx
      | some rt =>
        rw [htr] at hx
        dsimp only at hx
        rcases List.mem_append.1 hx with h1 | h1
        · exact Or.inl h1
        · right
          have hxr : x = rt := by
            rcases List.mem_cons.1 h1 with h2 | h2
            · exact h2
            · simpa using h2
          subst hxr
          exact terrainResource_hasKey _ _ htr
    · rw [if_neg hsp] at hx
      exact Or.inl hx

/-- Folding either step preserves the known-kinds invariant. -/
theorem foldl_settleStep_keys (b : Board) (d : Option Nat) (hks : List HexId) :
    ∀ acc, (∀ x ∈ acc, Resources.hasKey x = true) →
      ∀ x ∈ hks.foldl (settleStep b d) acc, Resources.hasKey x = true := by
  induction hks with
  | nil => intro acc hacc x hx; exact hacc x hx
  | cons hk t ih =>
    intro acc hacc x hx
    refine ih _ ?_ x hx
    intro y hy
    rcases settleStep_keys b d acc hk y hy with h1 | h1
    · exact hacc y h1
    · exact h1

/-- Folding the city step preserves the known-kinds invariant. -/
theorem foldl_cityStep_keys (b : Board) (d : Option Nat) (hks : List HexId) :
    ∀ acc, (∀ x ∈ acc, Resources.hasKey x = true) →
      ∀ x ∈ hks.foldl (cityStep b d) acc, Resources.hasKey x = true := by
  induction hks with
  | nil => intro acc hacc x hx; exact hacc x hx
  | cons hk t ih =>
    intro acc hacc x hx
    refine ih _ ?_ x hx
    intro y hy
    rcases cityStep_keys b d acc hk y hy with h1 | h1
    · exact hacc y h1
    · exact h1

/-- Everything a settlement collects is a known resource kind. -/
theorem settlementCollect_keys (b : Board) (vloc : Option VEId) (d : Option Nat) :
    ∀ x ∈ settlementCollectResources b vloc d, Resources.hasKey x = true := by
  intro x hx
  unfold settlementCollectResources at hx
  cases vloc with
  | none => cases hx
  | some vid =>
    dsimp only at hx
    cases hv : mapGet b.vertices vid with
    | none => rw [hv] at hx; cases hx
    | some v =>
      rw [hv] at hx
      exact foldl_settleStep_keys b d v.hexes [] (by intro y hy; cases hy) x hx

/-- Everything a city collects is a known resource kind. -/
theorem cityCollect_keys (b : Board) (vloc : Option VEId) (d : Option Nat) :
    ∀ x ∈ cityCollectResources b vloc d, Resources.hasKey x = true := by
  intro x hx
  unfold cityCollectResources at hx
  cases vloc with
  | none => cases hx
  | some vid =>
    dsimp only at hx
    cases hv : mapGet b.vertices vid with
    | none => rw [hv] at hx; cases hx
    | some v =>
      rw [hv] at hx
      exact foldl_cityStep_keys b d v.hexes [] (by intro y hy; cases hy) x hx

/-- Folding the settlement-collection step of `collectFromDiceRoll` over
any piece list adds each piece's corner yield to every counter. -/
theorem foldl_pieces_settlement_get (b : Board) (total : Nat) (s : String)
    (pieces : List OwnedPiece) :
    ∀ pr : Player × List String,
    ((pieces.foldl
        (fun (pr : Player × List String) piece =>
          let res := settlementCollectResources b piece.loc (some total)
          (res.foldl (fun pl r => pl.addResources r 1) pr.1, pr.2 ++ res))
        pr).1).resources.get s =
      pr.1.resources.get s +
        ((pieces.map (fun pc => vertexYield b pc.loc total s)).sum : Int) := by
  induction pieces with
  | nil => intro pr; simp
  | cons pc t ih =>
    intro pr
    simp only [List.foldl_cons, List.map_cons, List.sum_cons]
    rw [ih]
    dsimp only
    rw [foldl_addResources_get _ _ _ (settlementCollect_keys b pc.loc (some total))]
    rw [settlementCollect_count]
    push_cast
    ring

/-- Folding the city-collection step adds twice each corner yield. -/
theorem foldl_pieces_city_get (b : Board) (total : Nat) (s : String)
    (pieces : List OwnedPiece) :
    ∀ pr : Player × List String,
    ((pieces.foldl
        (fun (pr : Player × List String) piece =>
          let res := cityCollectResources b piece.loc (some total)
          (res.foldl (fun pl r => pl.addResources r 1) pr.1, pr.2 ++ res))
        pr).1).resources.get s =
      pr.1.resources.get s +
        2 * ((pieces.map (fun pc => vertexYield b pc.loc total s)).sum : Int) := by
  induction pieces with
  | nil => intro pr; simp
  | cons pc t ih =>
    intro pr
    simp only [List.foldl_cons, List.map_cons, List.sum_cons]
    rw [ih]
    dsimp only
    rw [foldl_addResources_get _ _ _ (cityCollect_keys b pc.loc (some total))]
    rw [cityCollect_count]
    push_cast
    ring

/-- `Player.collectFromDiceRoll` adds exactly the claim's production
formula to every resource counter. -/
theorem collectFromDiceRoll_get (p : Player) (b : Board) (total : Nat)
    (s : String) :
    ((p.collectFromDiceRoll b (some total)).1).resources.get s =
      p.resources.get s + (playerProduction b p total s : Int) := by
  unfold Player.collectFromDiceRoll playerProduction
  rw [foldl_pieces_city_get, foldl_pieces_settlement_get]
  push_cast
  ring

/-- The player loop of `handleResourceProduction` rewrites each player to
its collected version and leaves the board alone. -/
theorem handleRP_fold (d : Nat) (B : Board) (t : List Player) :
    ∀ (A : List Player) (g : Game),
      g.players = A ++ t → g.board = B →
      (((t.enumFrom A.length).foldl
          (fun g ip =>
            let c := ip.2.collectFromDiceRoll g.board (some d)
            let g := setPlayer g ip.1 c.1
            if c.2.length > 0 then logEvent g else g) g).players =
        A ++ t.map (fun p => (p.collectFromDiceRoll B (some d)).1)) ∧
      ((t.enumFrom A.length).foldl
          (fun g ip =>
            let c := ip.2.collectFromDiceRoll g.board (some d)
            let g := setPlayer g ip.1 c.1
            if c.2.length > 0 then logEvent g else g) g).board = B := by
  induction t with
  | nil =>
    intro A g hA hB
    constructor
    · simpa using hA
    · simpa using hB
  | cons p t' ih =>
    intro A g hA hB
    have key : ∀ g1 : Game,
        g1.players = A ++ (p.collectFromDiceRoll B (some d)).1 :: t' →
        g1.board = B →
        (((t'.enumFrom (A.length + 1)).foldl
            (fun g ip =>
              let c := ip.2.collectFromDiceRoll g.board (some d)
              let g := setPlayer g ip.1 c.1
              if c.2.length > 0 then logEvent g else g) g1).players =
          A ++ ((p :: t').map (fun q => (q.collectFromDiceRoll B (some d)).1))) ∧
        ((t'.enumFrom (A.length + 1)).foldl
            (fun g ip =>
              let c := ip.2.collectFromDiceRoll g.board (some d)
              let g := setPlayer g ip.1 c.1
              if c.2.length > 0 then logEvent g else g) g1).board = B := by
      intro g1 h1 h2
      have h3 : g1.players = (A ++ [(p.collectFromDiceRoll B (some d)).1]) ++ t' := by
        rw [h1, List.append_cons]
      have h4 := ih (A ++ [(p.collectFromDiceRoll B (some d)).1]) g1 h3 h2
      simp only [List.length_append, List.length_singleton] at h4
      constructor
      · rw [h4.1]
        simp [List.append_assoc]
      · exact h4.2
    rw [List.enumFrom_cons, List.foldl_cons]
    dsimp only
    rw [hB]
    by_cases hlen : (p.collectFromDiceRoll B (some d)).2.length > 0
    · rw [if_pos hlen]
      refine key _ ?_ ?_
      · show (setPlayer g A.length (p.collectFromDiceRoll B (some d)).1).players = _
        unfold setPlayer
        dsimp only
        rw [hA, set_append_length]
      · show (setPlayer g A.length (p.collectFromDiceRoll B (some d)).1).board = B
        exact hB
    · rw [if_neg hlen]
      refine key _ ?_ ?_
      · unfold setPlayer
        dsimp only
        rw [hA, set_append_length]
      · exact hB

/-- `Game.handleResourceProduction` maps every player to its collected
version, against the unchanged board. -/
theorem handleResourceProduction_players (g : Game) (d : Nat) :
    (g.handleResourceProduction d).players =
      g.players.map (fun p => (p.collectFromDiceRoll g.board (some d)).1) ∧
    (g.handleResourceProduction d).board = g.board := by
  unfold Game.handleResourceProduction
  exact handleRP_fold d g.board g.players [] g rfl rfl

/-- The player loop of `handleRobberRoll` makes exactly the over-7
players discard and leaves the board alone. -/
theorem handleRob_fold (t : List Player) :
    ∀ (A : List Player) (g : Game),
      g.players = A ++ t →
      (((t.enumFrom A.length).foldl
          (fun g ip =>
            if ip.2.getTotalResources > 7 then
              logEvent (setPlayer g ip.1 ip.2.discardHalf.1)
            else g) g).players =
        A ++ t.map (fun p =>
          if p.getTotalResources > 7 then p.discardHalf.1 else p)) ∧
      ((t.enumFrom A.length).foldl
          (fun g ip =>
            if ip.2.getTotalResources > 7 then
              logEvent (setPlayer g ip.1 ip.2.discardHalf.1)
            else g) g).board = g.board := by
  induction t with
  | nil =>
    intro A g hA
    constructor
    · simpa using hA
    · simp
  | cons p t' ih =>
    intro A g hA
    have key : ∀ g1 : Game,
        g1.players = A ++ (if p.getTotalResources > 7 then p.discardHalf.1 else p) :: t' →
        g1.board = g.board →
        (((t'.enumFrom (A.length + 1)).foldl
            (fun g ip =>
              if ip.2.getTotalResources > 7 then
                logEvent (setPlayer g ip.1 ip.2.discardHalf.1)
              else g) g1).players =
          A ++ ((p :: t').map (fun q =>
            if q.getTotalResources > 7 then q.discardHalf.1 else q))) ∧
        ((t'.enumFrom (A.length + 1)).foldl
            (fun g ip =>
              if ip.2.getTotalResources > 7 then
                logEvent (setPlayer g ip.1 ip.2.discardHalf.1)
              else g) g1).board = g.board := by
      intro g1 h1 h2
      have h3 : g1.players =
          (A ++ [if p.getTotalResources > 7 then p.discardHalf.1 else p]) ++ t' := by
        rw [h1, List.append_cons]
      have h4 := ih (A ++ [if p.getTotalResources > 7 then p.discardHalf.1 else p]) g1 h3
      simp only [List.length_append, List.length_singleton] at h4
      constructor
      · rw [h4.1]
        simp [List.append_assoc]
      · rw [h4.2, h2]
    rw [List.enumFrom_cons, List.foldl_cons]
    dsimp only
    by_cases h7 : p.getTotalResources > 7
    · rw [if_pos h7]
      refine key _ ?_ ?_
      · show (setPlayer g A.length p.discardHalf.1).players = _
        unfold setPlayer
        dsimp only
        rw [hA, set_append_length, if_pos h7]
      · rfl
    · rw [if_neg h7]
      refine key _ ?_ rfl
      rw [hA, if_neg h7]

/-- `Game.handleRobberRoll` makes exactly the over-7 players discard
half, against the unchanged board. -/
theorem handleRobberRoll_players (g : Game) :
    (g.handleRobberRoll).players =
      g.players.map (fun p =>
        if p.getTotalResources > 7 then p.discardHalf.1 else p) ∧
    (g.handleRobberRoll).board = g.board := by
  unfold Game.handleRobberRoll
  dsimp only
  have h := handleRob_fold g.players [] g rfl
  exact ⟨h.1, h.2⟩

/-- A counter can only be positive at a known key (reads of unknown keys
yield 0). -/
theorem get_pos_hasKey (res : Resources) (k : String) (h : 0 < res.get k) :
    Resources.hasKey k = true := by
  unfold Resources.get at h
  unfold Resources.hasKey
  split_ifs at h with h1 h2 h3 h4 h5
  · simp [h1]
  · simp [h2]
  · simp [h3]
  · simp [h4]
  · simp [h5]
  · exact absurd h (by omega)

/-- Removing one unit of a positive known counter lowers the total by
exactly one. -/
theorem removeResources_total_dec (p : Player) (k : String)
    (hk : Resources.hasKey k = true) (hpos : 0 < p.resources.get k) :
    ((p.removeResources k 1).1).getTotalResources = p.getTotalResources - 1 := by
  rcases hasKey_cases k hk with rfl | rfl | rfl | rfl | rfl
  · have h2 : 0 < p.resources.lumber := hpos
    show max 0 (p.resources.lumber - 1) + p.resources.brick + p.resources.ore +
        p.resources.grain + p.resources.wool =
      p.resources.lumber + p.resources.brick + p.resources.ore +
        p.resources.grain + p.resources.wool - 1
    omega
  · have h2 : 0 < p.resources.brick := hpos
    show p.resources.lumber + max 0 (p.resources.brick - 1) + p.resources.ore +
        p.resources.grain + p.resources.wool =
      p.resources.lumber + p.resources.brick + p.resources.ore +
        p.resources.grain + p.resources.wool - 1
    omega
  · have h2 : 0 < p.resources.ore := hpos
    show p.resources.lumber + p.resources.brick + max 0 (p.resources.ore - 1) +
        p.resources.grain + p.resources.wool =
      p.resources.lumber + p.resources.brick + p.resources.ore +
        p.resources.grain + p.resources.wool - 1
    omega
  · have h2 : 0 < p.resources.grain := hpos
    show p.resources.lumber + p.resources.brick + p.resources.ore +
        max 0 (p.resources.grain - 1) + p.resources.wool =
      p.resources.lumber + p.resources.brick + p.resources.ore +
        p.resources.grain + p.resources.wool - 1
    omega
  · have h2 : 0 < p.resources.wool := hpos
    show p.resources.lumber + p.resources.brick + p.resources.ore +
        p.resources.grain + max 0 (p.resources.wool - 1) =
      p.resources.lumber + p.resources.brick + p.resources.ore +
        p.resources.grain + p.resources.wool - 1
    omega

/-- One discard pass removes exactly as many cards from the ledger as it
decrements the remaining counter, and records them all. -/
theorem discardPass_exact (ks : List String) :
    ∀ (p : Player) (r : Nat),
      (discardPass ks p r).2.1 ≤ r ∧
      (discardPass ks p r).1.getTotalResources =
        p.getTotalResources - ((r - (discardPass ks p r).2.1 : Nat) : Int) ∧
      (discardPass ks p r).2.2.length = r - (discardPass ks p r).2.1 := by
  induction ks with
  | nil =>
    intro p r
    unfold discardPass
    exact ⟨le_refl r, by simp, by simp⟩
  | cons k rest ih =>
    intro p r
    unfold discardPass
    by_cases hr : r = 0
    · rw [if_pos hr]
      exact ⟨le_refl r, by simp, by simp [hr]⟩
    · rw [if_neg hr]
      by_cases hk : p.resources.get k > 0
      · rw [if_pos hk]
        dsimp only
        have hkey := get_pos_hasKey p.resources k hk
        have hrem := removeResources_total_dec p k hkey hk
        have h1 := ih (p.removeResources k 1).1 (r - 1)
        have ha := h1.1
        have hb := h1.2.1
        have hc := h1.2.2
        rw [hrem] at hb
        refine ⟨by omega, by rw [hb]; omega, ?_⟩
        simp only [List.length_cons, hc]
        omega
      · rw [if_neg hk]
        exact ih p r

/-- While cards remain to discard and some counter is positive, a pass
strictly decreases the remaining counter. -/
theorem discardPass_progress (ks : List String) :
    ∀ (p : Player) (r : Nat), 0 < r →
      (∃ k ∈ ks, 0 < p.resources.get k) →
      (discardPass ks p r).2.1 < r := by
  induction ks with
  | nil =>
    intro p r hr hex
    rcases hex with ⟨k, hk, _⟩
    cases hk
  | cons k rest ih =>
    intro p r hr hex
    unfold discardPass
    rw [if_neg (by omega : ¬ r = 0)]
    by_cases hk : p.resources.get k > 0
    · rw [if_pos hk]
      dsimp only
      have hle := (discardPass_exact rest (p.removeResources k 1).1 (r - 1)).1
      omega
    · rw [if_neg hk]
      rcases hex with ⟨k', hk', hpos⟩
      rcases List.mem_cons.1 hk' with h1 | h1
      · subst h1
        exact absurd hpos hk
      · exact ih p r hr ⟨k', h1, hpos⟩

/-- A positive card total means some known counter is positive. -/
theorem total_pos_exists (p : Player) (h : 0 < p.getTotalResources) :
    ∃ k ∈ resourceKinds, 0 < p.resources.get k := by
  by_cases h1 : 0 < p.resources.lumber
  · exact ⟨"lumber", by simp [resourceKinds], h1⟩
  by_cases h2 : 0 < p.resources.brick
  · exact ⟨"brick", by simp [resourceKinds], h2⟩
  by_cases h3 : 0 < p.resources.ore
  · exact ⟨"ore", by simp [resourceKinds], h3⟩
  by_cases h4 : 0 < p.resources.grain
  · exact ⟨"grain", by simp [resourceKinds], h4⟩
  by_cases h5 : 0 < p.resources.wool
  · exact ⟨"wool", by simp [resourceKinds], h5⟩
  exfalso
  have hsum : p.getTotalResources = p.resources.lumber + p.resources.brick +
      p.resources.ore + p.resources.grain + p.resources.wool := rfl
  omega

/-- The discard loop removes exactly the requested number of cards when
the player holds at least that many. -/
theorem discardLoop_exact : ∀ (r : Nat) (p : Player),
    (r : Int) ≤ p.getTotalResources →
    ((discardLoop p r).1.getTotalResources = p.getTotalResources - r ∧
     (discardLoop p r).2.length = r) := by
  intro r
  induction r using Nat.strong_induction_on with
  | _ r ih =>
    intro p hr
    unfold discardLoop
    by_cases hr0 : r = 0
    · subst hr0
      rw [if_pos rfl]
      exact ⟨by simp, rfl⟩
    · rw [if_neg hr0]
      dsimp only
      have hex := discardPass_exact resourceKinds p r
      have hpos : 0 < p.getTotalResources := by omega
      have hprog := discardPass_progress resourceKinds p r (by omega)
        (total_pos_exists p hpos)
      rw [dif_pos hprog]
      dsimp only
      have ha := hex.1
      have hb := hex.2.1
      have hc := hex.2.2
      have hrle : ((discardPass resourceKinds p r).2.1 : Int) ≤
          (discardPass resourceKinds p r).1.getTotalResources := by
        rw [hb]
        omega
      have hrec := ih (discardPass resourceKinds p r).2.1 hprog
        (discardPass resourceKinds p r).1 hrle
      constructor
      · rw [hrec.1, hb]
        omega
      · rw [List.length_append, hrec.2, hc]
        omega

/-- `Player.discardHalf` on a player holding more than 7 cards discards
exactly `floor(total / 2)` cards. -/
theorem discardHalf_exact (p : Player) (h7 : 7 < p.getTotalResources) :
    ((p.discardHalf.1).getTotalResources =
      p.getTotalResources - Int.fdiv p.getTotalResources 2) ∧
    (((p.discardHalf.2).length : Int) = Int.fdiv p.getTotalResources 2) := by
  unfold Player.discardHalf
  dsimp only
  rw [if_neg (by omega : ¬ p.getTotalResources ≤ 7)]
  have hfd : Int.fdiv p.getTotalResources 2 = p.getTotalResources / 2 :=
    Int.fdiv_eq_ediv _ (by omega)
  rw [hfd]
  have hle : (((p.getTotalResources / 2).toNat : Int)) ≤ p.getTotalResources := by
    omega
  have h := discardLoop_exact (p.getTotalResources / 2).toNat p hle
  constructor
  · rw [h.1]
    omega
  · rw [h.2]
    omega

/-- The non-7 branch: resource production pays every player the claim's
formula. -/
theorem production_branch (g1 : Game) (t : Nat) (i : Nat) (p : Player)
    (hp : g1.players.get? i = some p) :
    ∃ q, (g1.handleResourceProduction t).players.get? i = some q ∧ ∀ s,
      q.resources.get s =
        p.resources.get s + (playerProduction g1.board p t s : Int) := by
  obtain ⟨hpl, hbd⟩ := handleResourceProduction_players g1 t
  refine ⟨(p.collectFromDiceRoll g1.board (some t)).1, ?_, ?_⟩
  · rw [hpl, List.get?_map, hp]
    rfl
  · intro s
    exact collectFromDiceRoll_get p g1.board t s

/-- The 7 branch: every player over 7 cards discards exactly half
(rounded down); everyone else is untouched. -/
theorem robber_branch (g1 : Game) (i : Nat) (p : Player)
    (hp : g1.players.get? i = some p) :
    ∃ q, (g1.handleRobberRoll).players.get? i = some q ∧
      (p.getTotalResources ≤ 7 → q = p) ∧
      (7 < p.getTotalResources →
        q.getTotalResources =
          p.getTotalResources - Int.fdiv p.getTotalResources 2 ∧
        ((p.discardHalf.2).length : Int) = Int.fdiv p.getTotalResources 2) := by
  obtain ⟨hpl, hbd⟩ := handleRobberRoll_players g1
  refine ⟨if p.getTotalResources > 7 then p.discardHalf.1 else p, ?_, ?_, ?_⟩
  · rw [hpl, List.get?_map, hp]
    rfl
  · intro hle
    rw [if_neg (by omega : ¬ p.getTotalResources > 7)]
  · intro hgt
    rw [if_pos hgt]
    exact ⟨(discardHalf_exact p hgt).1, (discardHalf_exact p hgt).2⟩

/-- C4: in the playing phase, a dice roll with total other than 7 pays
each building's owner exactly one unit per adjacent matching tile for a
settlement and two for a city — a tile matches when its bound marker
value equals the total, its terrain is neither desert nor sea, and it
does not carry the robber (`playerProduction` is that formula); a total
of 7 instead makes every player holding more than 7 cards discard
exactly `floor(total / 2)` cards and leaves everyone else untouched. -/
theorem c4_roll_production (g : Game) (rng : List Nat) (g' : Game)
    (dr : DiceResult) (rng' : List Nat) (i : Nat) (p : Player)
    (hphase : g.gamePhase = Phase.playing) (hroll : g.hasRolledDice = false)
    (hrd : g.rollDice rng = (g', some dr, rng'))
    (hp : g.players.get? i = some p) :
    (dr.total ≠ 7 →
      ∃ q, g'.players.get? i = some q ∧ ∀ s,
        q.resources.get s =
          p.resources.get s + (playerProduction g.board p dr.total s : Int)) ∧
    (dr.total = 7 →
      ∃ q, g'.players.get? i = some q ∧
        (p.getTotalResources ≤ 7 → q = p) ∧
        (7 < p.getTotalResources →
          q.getTotalResources =
            p.getTotalResources - Int.fdiv p.getTotalResources 2 ∧
          ((p.discardHalf.2).length : Int) =
            Int.fdiv p.getTotalResources 2)) := by
  unfold Game.rollDice at hrd
  split at hrd
  · simp at hrd
  · dsimp only at hrd
    rw [Prod.mk.injEq, Prod.mk.injEq] at hrd
    obtain ⟨hg', hdr, hrng⟩ := hrd
    have hdr2 := Option.some.inj hdr
    subst hdr2
    subst hg'
    dsimp only
    constructor
    · intro hne
      rw [if_neg hne]
      exact production_branch _ _ i p hp
    · intro h7
      rw [if_pos h7]
      exact robber_branch _ i p hp

/-- C4 witness: a player with a settlement on a token-6 forest tile, on
a roll of 3+3 receives the production formula's yield, and on a roll of
1+6 goes through the discard branch untouched (holding 0 cards). -/
theorem c4_witness :
    (∃ q, (gW4.rollDice [2, 2]).1.players.get? 0 = some q ∧ ∀ s,
      q.resources.get s =
        pW4.resources.get s + (playerProduction gW4.board pW4 6 s : Int)) ∧
    (∃ q, (gW4.rollDice [0, 5]).1.players.get? 0 = some q ∧
      (pW4.getTotalResources ≤ 7 → q = pW4) ∧
      (7 < pW4.getTotalResources →
        q.getTotalResources =
          pW4.getTotalResources - Int.fdiv pW4.getTotalResources 2 ∧
        ((pW4.discardHalf.2).length : Int) =
          Int.fdiv pW4.getTotalResources 2)) :=
  ⟨(c4_roll_production gW4 [2, 2] (gW4.rollDice [2, 2]).1 ⟨3, 3, 6⟩ [] 0 pW4
      rfl rfl rfl rfl).1 (by decide),
   (c4_roll_production gW4 [0, 5] (gW4.rollDice [0, 5]).1 ⟨1, 6, 7⟩ [] 0 pW4
      rfl rfl rfl rfl).2 rfl⟩


/-- Writing one position exchanges its old contribution to a count for
the new one. -/
theorem count_set_eq {α : Type} [DecidableEq α] (l : List α) (i : Nat)
    (hi : i < l.length) (b x : α) :
    (l.set i b).count x + (if l[i] = x then 1 else 0) =
      l.count x + (if b = x then 1 else 0) := by
  have h1 := List.count_set b x l i hi
  simp only [beq_iff_eq] at h1
  have hb1 : (if l[i] = x then 1 else 0) ≤ l.count x := by
    by_cases h : l[i] = x
    · rw [if_pos h]
      exact List.count_pos_iff.2 (h ▸ List.getElem_mem hi)
    · rw [if_neg h]
      exact Nat.zero_le _
  omega

/-- The shuffle element swap preserves every count. -/
theorem swapIdx_count {α : Type} [DecidableEq α] (l : List α) (i j : Nat)
    (x : α) : (swapIdx l i j).count x = l.count x := by
  unfold swapIdx
  cases hi : l.get? i with
  | none => rfl
  | some a =>
    cases hj : l.get? j with
    | none => rfl
    | some b =>
      dsimp only
      rw [List.get?_eq_getElem?] at hi hj
      have hil : i < l.length := by
        by_contra hc
        rw [List.getElem?_eq_none (by omega)] at hi
        cases hi
      have hjl : j < l.length := by
        by_contra hc
        rw [List.getElem?_eq_none (by omega)] at hj
        cases hj
      have hia : l[i] = a := by
        rw [List.getElem?_eq_getElem hil] at hi
        exact Option.some.inj hi
      have hjb : l[j] = b := by
        rw [List.getElem?_eq_getElem hjl] at hj
        exact Option.some.inj hj
      have hjl2 : j < (l.set i b).length := by
        rw [List.length_set]
        exact hjl
      have e1 := count_set_eq l i hil b x
      have e2 := count_set_eq (l.set i b) j hjl2 a x
      by_cases hij : i = j
      · subst hij
        have hab : a = b := by rw [← hia, ← hjb]
        subst hab
        rw [List.getElem_set_self hjl2] at e2
        rw [hia] at e1
        omega
      · have hgs : (l.set i b)[j] = l[j] := List.getElem_set_ne hij hjl2
        rw [hgs, hjb] at e2
        rw [hia] at e1
        omega

/-- The element swap preserves the length. -/
theorem swapIdx_length {α : Type} (l : List α) (i j : Nat) :
    (swapIdx l i j).length = l.length := by
  unfold swapIdx
  cases hi : l.get? i with
  | none => rfl
  | some a =>
    cases hj : l.get? j with
    | none => rfl
    | some b => simp

/-- The shuffle loop preserves every count. -/
theorem fisherAux_count {α : Type} [DecidableEq α] (x : α) (n : Nat) :
    ∀ (l : List α) (rng : List Nat),
      ((fisherAux l rng n).1).count x = l.count x := by
  induction n with
  | zero => intro l rng; rfl
  | succ n ih =>
    intro l rng
    unfold fisherAux
    dsimp only
    rw [ih, swapIdx_count]

/-- `Board.shuffleArray` returns a permutation of its input. -/
theorem shuffleArray_perm {α : Type} [DecidableEq α] (l : List α)
    (rng : List Nat) : List.Perm ((shuffleArray l rng).1) l := by
  rw [List.perm_iff_count]
  intro a
  exact fisherAux_count a (l.length - 1) l rng

/-- Updating one key leaves the lookups of other keys alone. -/
theorem mapGet_mapUpdate_ne {κ ν : Type} [DecidableEq κ] (m : List (κ × ν))
    (k k9 : κ) (f : ν → ν) (h : k9 ≠ k) :
    mapGet (mapUpdate m k f) k9 = mapGet m k9 := by
  induction m with
  | nil => rfl
  | cons kv t ih =>
    by_cases hk : kv.1 = k
    · simp only [mapUpdate, if_pos hk, mapGet]
      rw [if_neg (by rw [hk]; exact fun e => h e.symm),
        if_neg (by rw [hk]; exact fun e => h e.symm)]
    · simp only [mapUpdate, if_neg hk, mapGet]
      by_cases hk2 : kv.1 = k9
      · rw [if_pos hk2, if_pos hk2]
      · rw [if_neg hk2, if_neg hk2]
        exact ih

/-- An update whose function preserves a projection preserves the
projected map. -/
theorem mapUpdate_map {κ ν μ : Type} [DecidableEq κ] (m : List (κ × ν))
    (k : κ) (f : ν → ν) (g : ν → μ) (hf : ∀ v, g (f v) = g v) :
    (mapUpdate m k f).map (fun kv => (kv.1, g kv.2)) =
      m.map (fun kv => (kv.1, g kv.2)) := by
  induction m with
  | nil => rfl
  | cons kv t ih =>
    by_cases hk : kv.1 = k
    · simp only [mapUpdate, if_pos hk, List.map_cons, hf]
    · simp only [mapUpdate, if_neg hk, List.map_cons, ih]

/-- Updating never changes the key list. -/
theorem mapUpdate_keys {κ ν : Type} [DecidableEq κ] (m : List (κ × ν))
    (k : κ) (f : ν → ν) :
    (mapUpdate m k f).map Prod.fst = m.map Prod.fst := by
  induction m with
  | nil => rfl
  | cons kv t ih =>
    by_cases hk : kv.1 = k
    · simp only [mapUpdate, if_pos hk, List.map_cons]
    · simp only [mapUpdate, if_neg hk, List.map_cons, ih]

/-- A lookup succeeds exactly on the key list. -/
theorem mapGet_isSome_iff {κ ν : Type} [DecidableEq κ] (m : List (κ × ν))
    (k : κ) : (mapGet m k).isSome = true ↔ k ∈ m.map Prod.fst := by
  induction m with
  | nil => simp [mapGet]
  | cons kv t ih =>
    simp only [mapGet, List.map_cons, List.mem_cons]
    by_cases hk : kv.1 = k
    · rw [if_pos hk]
      simp [hk]
    · rw [if_neg hk]
      rw [ih]
      constructor
      · exact Or.inr
      · rintro (h | h)
        · exact absurd h.symm hk
        · exact h

/-- Setting a fresh key appends the entry. -/
theorem mapSet_fresh {κ ν : Type} [DecidableEq κ] (m : List (κ × ν))
    (k : κ) (v : ν) (h : ∀ x ∈ m.map Prod.fst, x ≠ k) :
    mapSet m k v = m ++ [(k, v)] := by
  induction m with
  | nil => rfl
  | cons kv t ih =>
    have hk : kv.1 ≠ k := h kv.1 (List.mem_cons_self _ _)
    simp only [mapSet, if_neg hk, List.cons_append]
    rw [show mapSet t k v = t ++ [(k, v)] from
      ih (fun x hx => h x (List.mem_cons_of_mem _ hx))]

/-- On a duplicate-free list, removing the first occurrence is the same
as filtering the element out. -/
theorem removeFirst_eq_filter {α : Type} [DecidableEq α] (l : List α)
    (hl : l.Nodup) (a : α) :
    removeFirst l a = l.filter (fun x => !decide (x = a)) := by
  induction l with
  | nil => rfl
  | cons x t ih =>
    rw [List.nodup_cons] at hl
    by_cases hx : x = a
    · subst hx
      have h2 : List.filter (fun y => !decide (y = x)) t = t :=
        (List.filter_eq_self).2 (fun y hy => by
          simp only [Bool.not_eq_true', decide_eq_false_iff_not]
          exact fun e => hl.1 (e ▸ hy))
      simp [removeFirst, List.filter_cons, h2]
    · simp only [removeFirst, if_neg hx, List.filter_cons]
      rw [if_pos (by simp [hx]), ih hl.2]

/-- On a duplicate-free list, dropping the last element is the same as
filtering out the value of the last element. -/
theorem dropLast_eq_filter {α : Type} [DecidableEq α] (l : List α)
    (hl : l.Nodup) (a : α) (hla : l.getLast? = some a) :
    l.dropLast = l.filter (fun x => !decide (x = a)) := by
  induction l with
  | nil => cases hla
  | cons x t ih =>
    cases t with
    | nil =>
      have hxa : x = a := by
        simpa [List.getLast?] using hla
      subst hxa
      simp
    | cons y t2 =>
      rw [List.nodup_cons] at hl
      have hla2 : (y :: t2).getLast? = some a := by
        rw [← hla]
        rfl
      have hmem : a ∈ y :: t2 := by
        have := List.getLast?_eq_getLast (y :: t2) (by simp)
        rw [hla2] at this
        exact (Option.some.inj this) ▸ List.getLast_mem (by simp)
      have hxa : ¬ x = a := fun e => hl.1 (e ▸ hmem)
      rw [List.dropLast_cons_of_ne_nil (by simp), List.filter_cons,
        if_pos (by simp [hxa])]
      rw [ih hl.2 hla2]

/-- Pushing an invariant through a left fold. -/
theorem foldl_invariant {σ β : Type} (f : σ → β → σ) (Inv : σ → Prop)
    (hf : ∀ s x, Inv s → Inv (f s x)) :
    ∀ (l : List β) (s : σ), Inv s → Inv (l.foldl f s) := by
  intro l
  induction l with
  | nil => intro s hs; exact hs
  | cons x t ih =>
    intro s hs
    exact ih (f s x) (hf s x hs)

/-- The hex-creation loop appends one fresh tile entry per layout
position and touches nothing else. -/
theorem createHexesLoop_spec (layout : List HexId) :
    ∀ (b : Board) (ts : List Terrain) (i : Nat),
      (∀ c ∈ layout, c ∉ b.hexes.map Prod.fst) → layout.Nodup →
      createHexesLoop b layout ts i =
        { b with hexes := b.hexes ++ layoutHexes layout ts i } := by
  induction layout with
  | nil =>
    intro b ts i h1 h2
    show b = _
    simp [layoutHexes]
  | cons c rest ih =>
    intro b ts i h1 h2
    rw [List.nodup_cons] at h2
    show createHexesLoop
        (addHex b { q := c.1, r := c.2, terrain := ts.getD i Terrain.desert })
        rest ts (i + 1) = _
    have hfresh : ∀ x ∈ b.hexes.map Prod.fst, x ≠ (c.1, c.2) := by
      intro x hx e
      have hc : c ∈ b.hexes.map Prod.fst := by
        have : (c.1, c.2) = c := rfl
        rw [← this]
        exact e ▸ hx
      exact absurd hc (h1 c (List.mem_cons_self _ _))
    have ha : addHex b { q := c.1, r := c.2, terrain := ts.getD i Terrain.desert } =
        { b with hexes := b.hexes ++
          [((c.1, c.2),
            ({ q := c.1, r := c.2, terrain := ts.getD i Terrain.desert } : Hex))] } := by
      unfold addHex
      rw [mapSet_fresh _ _ _ hfresh]
    rw [ha, ih _ ts (i + 1) ?_ h2.2]
    · show ({ b with hexes := (b.hexes ++ [_]) ++ layoutHexes rest ts (i + 1) } : Board) = _
      simp only [List.append_assoc, List.singleton_append]
      rfl
    · intro d hd
      simp only [List.map_append, List.mem_append]
      rintro (h3 | h3)
      · exact absurd h3 (h1 d (List.mem_cons_of_mem _ hd))
      · have hdc : d = c := by simpa using h3
        exact h2.1 (hdc ▸ hd)

/-- The created entries are keyed by the layout. -/
theorem layoutHexes_keys (layout : List HexId) :
    ∀ ts i, (layoutHexes layout ts i).map Prod.fst = layout := by
  induction layout with
  | nil => intro ts i; rfl
  | cons c rest ih =>
    intro ts i
    show (c.1, c.2) :: (layoutHexes rest ts (i + 1)).map Prod.fst = _
    rw [ih]

/-- The created entries carry the terrain list in order. -/
theorem layoutHexes_terrains (layout : List HexId) :
    ∀ (ts : List Terrain) (i : Nat), i + layout.length = ts.length →
      (layoutHexes layout ts i).map (fun kv => kv.2.terrain) = ts.drop i := by
  induction layout with
  | nil =>
    intro ts i h
    simp only [List.length_nil] at h
    rw [List.drop_eq_nil_of_le (by omega)]
    rfl
  | cons c rest ih =>
    intro ts i h
    have hi : i < ts.length := by
      simp only [List.length_cons] at h
      omega
    show ts.getD i Terrain.desert :: _ = _
    rw [ih ts (i + 1) (by simp only [List.length_cons] at h; omega)]
    rw [List.drop_eq_getElem_cons hi]
    rw [List.getD_eq_getElem?_getD, List.getElem?_eq_getElem hi]
    rfl

/-- The created tiles start with no token, no robber, and coordinates
matching their key. -/
theorem layoutHexes_fields (layout : List HexId) :
    ∀ ts i, ∀ kv ∈ layoutHexes layout ts i,
      kv.2.numberToken = none ∧ kv.2.hasRobber = false ∧
        kv.1 = (kv.2.q, kv.2.r) := by
  induction layout with
  | nil => intro ts i kv h; cases h
  | cons c rest ih =>
    intro ts i kv h
    rcases List.mem_cons.1 h with h1 | h1
    · subst h1
      exact ⟨rfl, rfl, rfl⟩
    · exact ih ts (i + 1) kv h1

/-- Filtering a keyed list by a terrain test counts the terrains. -/
theorem filter_terrain_length (l : List (HexId × Hex)) :
    (l.filter (fun kv => decide (kv.2.terrain = Terrain.desert))).length =
      (l.map (fun kv => kv.2.terrain)).count Terrain.desert := by
  induction l with
  | nil => rfl
  | cons kv t ih =>
    simp only [List.filter_cons, List.map_cons, List.count_cons]
    by_cases h : kv.2.terrain = Terrain.desert
    · rw [if_pos (by simp [h]), List.length_cons, ih]
      simp [h]
    · rw [if_neg (by simp [h]), ih]
      simp [h]

/-- Corner creation changes no tile core, token or robber state. -/
theorem createVerticesForHex_frame (b : Board) (hid : HexId) :
    boardCores (createVerticesForHex b hid) = boardCores b ∧
    (createVerticesForHex b hid).numberTokens = b.numberTokens ∧
    (createVerticesForHex b hid).robber = b.robber := by
  unfold createVerticesForHex
  refine foldl_invariant _
    (fun s => boardCores s = boardCores b ∧ s.numberTokens = b.numberTokens ∧
      s.robber = b.robber) ?_ (List.range 6) b ⟨rfl, rfl, rfl⟩
  intro s d hs
  dsimp only
  cases hg : mapGet s.hexes hid with
  | none => exact hs
  | some hex =>
    dsimp only
    split
    · refine ⟨?_, hs.2.1, hs.2.2⟩
      unfold boardCores
      dsimp only
      refine (mapUpdate_map _ _ _ _ ?_).trans hs.1
      intro v
      rfl
    · refine ⟨?_, hs.2.1, hs.2.2⟩
      unfold boardCores
      dsimp only
      refine (mapUpdate_map _ _ _ _ ?_).trans hs.1
      intro v
      rfl

/-- Side creation changes no tile core, token or robber state. -/
theorem createEdgesForHex_frame (b : Board) (hid : HexId) :
    boardCores (createEdgesForHex b hid) = boardCores b ∧
    (createEdgesForHex b hid).numberTokens = b.numberTokens ∧
    (createEdgesForHex b hid).robber = b.robber := by
  unfold createEdgesForHex
  refine foldl_invariant _
    (fun s => boardCores s = boardCores b ∧ s.numberTokens = b.numberTokens ∧
      s.robber = b.robber) ?_ (List.range 6) b ⟨rfl, rfl, rfl⟩
  intro s d hs
  dsimp only
  cases hg : mapGet s.hexes hid with
  | none => exact hs
  | some hex =>
    dsimp only
    split
    · refine ⟨?_, hs.2.1, hs.2.2⟩
      unfold boardCores
      dsimp only
      refine (mapUpdate_map _ _ _ _ ?_).trans hs.1
      intro v
      rfl
    · refine ⟨?_, hs.2.1, hs.2.2⟩
      unfold boardCores
      dsimp only
      refine (mapUpdate_map _ _ _ _ ?_).trans hs.1
      intro v
      rfl

/-- Relationship linking changes no tile core, token or robber state. -/
theorem linkHexRelationships_frame (b : Board) (hid : HexId) :
    boardCores (linkHexRelationships b hid) = boardCores b ∧
    (linkHexRelationships b hid).numberTokens = b.numberTokens ∧
    (linkHexRelationships b hid).robber = b.robber := by
  unfold linkHexRelationships
  cases hg : mapGet b.hexes hid with
  | none => exact ⟨rfl, rfl, rfl⟩
  | some hex0 =>
    dsimp only
    have hnb : ∀ (s : Board),
        boardCores s = boardCores b ∧ s.numberTokens = b.numberTokens ∧
          s.robber = b.robber →
        boardCores (neighborOffsets.foldl
          (fun s off =>
            match getHex s (hex0.q + off.1) (hex0.r + off.2) with
            | none => s
            | some _ =>
              let hx := mapUpdate s.hexes hid
                (fun h => { h with neighbors :=
                    h.neighbors ++ [(hex0.q + off.1, hex0.r + off.2)] })
              { s with hexes := hx }) s) = boardCores b ∧
        (neighborOffsets.foldl
          (fun s off =>
            match getHex s (hex0.q + off.1) (hex0.r + off.2) with
            | none => s
            | some _ =>
              let hx := mapUpdate s.hexes hid
                (fun h => { h with neighbors :=
                    h.neighbors ++ [(hex0.q + off.1, hex0.r + off.2)] })
              { s with hexes := hx }) s).numberTokens = b.numberTokens ∧
        (neighborOffsets.foldl
          (fun s off =>
            match getHex s (hex0.q + off.1) (hex0.r + off.2) with
            | none => s
            | some _ =>
              let hx := mapUpdate s.hexes hid
                (fun h => { h with neighbors :=
                    h.neighbors ++ [(hex0.q + off.1, hex0.r + off.2)] })
              { s with hexes := hx }) s).robber = b.robber := by
      intro s hs
      refine foldl_invariant _
        (fun s => boardCores s = boardCores b ∧ s.numberTokens = b.numberTokens ∧
          s.robber = b.robber) ?_ neighborOffsets s hs
      intro s2 off hs2
      dsimp only
      cases hg2 : getHex s2 (hex0.q + off.1) (hex0.r + off.2) with
      | none => exact hs2
      | some _ =>
        refine ⟨?_, hs2.2.1, hs2.2.2⟩
        unfold boardCores
        dsimp only
        refine (mapUpdate_map _ _ _ _ ?_).trans hs2.1
        intro v
        rfl
    have h1 := hnb b ⟨rfl, rfl, rfl⟩
    cases hg2 : mapGet (neighborOffsets.foldl _ b).hexes hid with
    | none => exact h1
    | some hex1 =>
      dsimp only
      refine foldl_invariant _
        (fun s => boardCores s = boardCores b ∧ s.numberTokens = b.numberTokens ∧
          s.robber = b.robber) ?_ hex1.vertices.enum _ h1
      intro s iv hs
      refine foldl_invariant _
        (fun s => boardCores s = boardCores b ∧ s.numberTokens = b.numberTokens ∧
          s.robber = b.robber) ?_ [(iv.1 + 5) % 6, iv.1, (iv.1 + 1) % 6] s hs
      intro s2 ei hs2
      dsimp only
      cases he : hex1.edges.get? ei with
      | none => exact hs2
      | some ek =>
        dsimp only
        have hgen : ∀ t : Board, t.hexes = s2.hexes → t.numberTokens = s2.numberTokens →
            t.robber = s2.robber →
            boardCores t = boardCores b ∧ t.numberTokens = b.numberTokens ∧
              t.robber = b.robber := by
          intro t h1 h2 h3
          refine ⟨?_, h2.trans hs2.2.1, h3.trans hs2.2.2⟩
          show t.hexes.map (fun kv => (kv.1, hexCore kv.2)) = boardCores b
          rw [h1]
          exact hs2.1
        have hstep : ∀ t : Board, t.hexes = s2.hexes → t.numberTokens = s2.numberTokens →
            t.robber = s2.robber →
            boardCores (match mapGet t.edges ek with
              | some e =>
                if iv.2 ∈ e.vertices then t
                else
                  { t with edges := mapUpdate t.edges ek (fun e => { e with vertices := e.vertices ++ [iv.2] }) }
              | none => t) = boardCores b ∧
            (match mapGet t.edges ek with
              | some e =>
                if iv.2 ∈ e.vertices then t
                else
                  { t with edges := mapUpdate t.edges ek (fun e => { e with vertices := e.vertices ++ [iv.2] }) }
              | none => t).numberTokens = b.numberTokens ∧
            (match mapGet t.edges ek with
              | some e =>
                if iv.2 ∈ e.vertices then t
                else
                  { t with edges := mapUpdate t.edges ek (fun e => { e with vertices := e.vertices ++ [iv.2] }) }
              | none => t).robber = b.robber := by
          intro t h1 h2 h3
          cases hme : mapGet t.edges ek with
          | none => exact hgen t h1 h2 h3
          | some e =>
            dsimp only
            by_cases hiv : iv.2 ∈ e.vertices
            · rw [if_pos hiv]
              exact hgen t h1 h2 h3
            · rw [if_neg hiv]
              exact hgen _ h1 h2 h3
        cases hmv : mapGet s2.vertices iv.2 with
        | none => exact hstep s2 rfl rfl rfl
        | some v =>
          dsimp only
          by_cases hek : ek ∈ v.edges
          · rw [if_pos hek]
            exact hstep s2 rfl rfl rfl
          · rw [if_neg hek]
            exact hstep _ rfl rfl rfl

/-- Building relationships changes no tile core, token or robber
state. -/
theorem buildRelationships_frame (b : Board) :
    boardCores (buildRelationships b) = boardCores b ∧
    (buildRelationships b).numberTokens = b.numberTokens ∧
    (buildRelationships b).robber = b.robber := by
  unfold buildRelationships
  dsimp only
  have h1 := foldl_invariant
    (fun s k => createEdgesForHex (createVerticesForHex s k) k)
    (fun s => boardCores s = boardCores b ∧ s.numberTokens = b.numberTokens ∧
      s.robber = b.robber)
    (by
      intro s k hs
      have hv := createVerticesForHex_frame s k
      have he := createEdgesForHex_frame (createVerticesForHex s k) k
      exact ⟨he.1.trans (hv.1.trans hs.1),
        he.2.1.trans (hv.2.1.trans hs.2.1),
        he.2.2.trans (hv.2.2.trans hs.2.2)⟩)
    (b.hexes.map Prod.fst) b ⟨rfl, rfl, rfl⟩
  exact foldl_invariant linkHexRelationships
    (fun s => boardCores s = boardCores b ∧ s.numberTokens = b.numberTokens ∧
      s.robber = b.robber)
    (by
      intro s k hs
      have hl := linkHexRelationships_frame s k
      exact ⟨hl.1.trans hs.1, hl.2.1.trans hs.2.1, hl.2.2.trans hs.2.2⟩)
    (b.hexes.map Prod.fst) _ h1

/-- A successful lookup returns a present entry. -/
theorem mapGet_mem {κ ν : Type} [DecidableEq κ] (m : List (κ × ν)) (k : κ)
    (v : ν) (h : mapGet m k = some v) : (k, v) ∈ m := by
  induction m with
  | nil => cases h
  | cons kv t ih =>
    unfold mapGet at h
    by_cases hk : kv.1 = k
    · rw [if_pos hk] at h
      exact List.mem_cons.2 (Or.inl (by rw [← hk, ← Option.some.inj h]))
    · rw [if_neg hk] at h
      exact List.mem_cons_of_mem _ (ih h)

/-- With duplicate-free keys, every entry is what its key looks up. -/
theorem mapGet_of_mem_nodup {κ ν : Type} [DecidableEq κ] (m : List (κ × ν))
    (hm : (m.map Prod.fst).Nodup) (k : κ) (v : ν) (h : (k, v) ∈ m) :
    mapGet m k = some v := by
  induction m with
  | nil => cases h
  | cons kv t ih =>
    rw [List.map_cons, List.nodup_cons] at hm
    rcases List.mem_cons.1 h with h1 | h1
    · rw [← h1]
      show mapGet ((k, v) :: t) k = some v
      unfold mapGet
      rw [if_pos rfl]
    · have hk : kv.1 ≠ k := by
        intro e
        exact hm.1 (e ▸ (List.mem_map.2 ⟨(k, v), h1, rfl⟩))
      unfold mapGet
      rw [if_neg hk]
      exact ih hm.2 h1

/-- A filter and its negation split the length. -/
theorem length_filter_add_not {α : Type} (l : List α) (p : α → Bool) :
    (l.filter p).length + (l.filter (fun x => !p x)).length = l.length := by
  induction l with
  | nil => rfl
  | cons x t ih =>
    rw [List.filter_cons, List.filter_cons]
    by_cases hp : p x = true
    · rw [if_pos hp, if_neg (by simp [hp])]
      simp only [List.length_cons]
      omega
    · rw [if_neg hp, if_pos (by simp [Bool.not_eq_true] at hp ⊢; exact hp)]
      simp only [List.length_cons]
      omega

/-- Binding an unbound token rewrites exactly the token entry and the
target tile. -/
theorem placeTokenOnHex_spec (b : Board) (ti : Nat) (hid : HexId)
    (t : NumberToken) (hti : b.numberTokens.get? ti = some t)
    (ht : t.hex = none) :
    placeTokenOnHex b ti hid =
      { b with
          numberTokens := b.numberTokens.set ti { t with hex := some hid },
          hexes := mapUpdate b.hexes hid (fun h => { h with numberToken := some ti }) } := by
  unfold placeTokenOnHex
  rw [hti]
  dsimp only
  rw [ht]

/-- The working facts about binding an unbound token. -/
theorem placeTokenOnHex_facts (b : Board) (ti : Nat) (hid : HexId)
    (t : NumberToken) (hti : b.numberTokens.get? ti = some t)
    (ht : t.hex = none) :
    (placeTokenOnHex b ti hid).numberTokens.length = b.numberTokens.length ∧
    (placeTokenOnHex b ti hid).numberTokens.get? ti =
      some { t with hex := some hid } ∧
    (∀ tj, tj ≠ ti →
      (placeTokenOnHex b ti hid).numberTokens.get? tj = b.numberTokens.get? tj) ∧
    boardBases (placeTokenOnHex b ti hid) = boardBases b ∧
    (placeTokenOnHex b ti hid).robber = b.robber ∧
    (∀ k, k ≠ hid →
      mapGet (placeTokenOnHex b ti hid).hexes k = mapGet b.hexes k) ∧
    (∀ k, k ≠ hid →
      tokenFree (placeTokenOnHex b ti hid) k = tokenFree b k) ∧
    ((mapGet b.hexes hid).isSome = true →
      tokenFree (placeTokenOnHex b ti hid) hid = false) := by
  rw [placeTokenOnHex_spec b ti hid t hti ht]
  have hlt : ti < b.numberTokens.length := by
    rw [List.get?_eq_getElem?] at hti
    by_contra hc
    rw [List.getElem?_eq_none (by omega)] at hti
    cases hti
  refine ⟨by simp, ?_, ?_, ?_, rfl, ?_, ?_, ?_⟩
  · show (b.numberTokens.set ti _).get? ti = _
    rw [List.get?_eq_getElem?, List.getElem?_set_self hlt]
  · intro tj hj
    show (b.numberTokens.set ti _).get? tj = _
    rw [List.get?_eq_getElem?, List.getElem?_set_ne (fun e => hj e.symm),
      ← List.get?_eq_getElem?]
  · unfold boardBases
    dsimp only
    exact mapUpdate_map _ _ _ _ (fun v => rfl)
  · intro k hk
    exact mapGet_mapUpdate_ne _ _ _ _ hk
  · intro k hk
    unfold tokenFree
    rw [show mapGet (mapUpdate b.hexes hid
        (fun h => { h with numberToken := some ti })) k = mapGet b.hexes k from
      mapGet_mapUpdate_ne _ _ _ _ hk]
  · intro hsome
    obtain ⟨h, hh⟩ := Option.isSome_iff_exists.1 hsome
    unfold tokenFree
    rw [show mapGet (mapUpdate b.hexes hid
        (fun h => { h with numberToken := some ti })) hid =
        some { h with numberToken := some ti } from mapGet_mapUpdate_eq _ _ _ _ hh]
    rfl

/-- Making one tile unfree rewrites the token-free filter to an element
removal. -/
theorem filter_tokenFree_update (A : List HexId) (b b2 : Board) (hid : HexId)
    (hne : ∀ k, k ≠ hid → tokenFree b2 k = tokenFree b k)
    (hh : tokenFree b2 hid = false) :
    A.filter (tokenFree b2) =
      (A.filter (tokenFree b)).filter (fun x => !decide (x = hid)) := by
  rw [List.filter_filter]
  apply List.filter_congr
  intro x hx
  by_cases hxh : x = hid
  · subst hxh
    rw [hh]
    simp
  · rw [hne x hxh]
    simp [hxh]

/-- A list with a last element contains it. -/
theorem mem_of_getLast? {α : Type} (l : List α) (a : α)
    (h : l.getLast? = some a) : a ∈ l := by
  cases l with
  | nil => cases h
  | cons x t =>
    have h2 := List.getLast?_eq_getLast (x :: t) (by simp)
    rw [h2] at h
    exact (Option.some.inj h) ▸ List.getLast_mem (by simp)

/-- Tile keys project out of the base map. -/
theorem bases_keys (b : Board) :
    (boardBases b).map Prod.fst = b.hexes.map Prod.fst := by
  unfold boardBases
  rw [List.map_map]
  rfl

/-- Equal base maps give the same lookup success. -/
theorem bases_isSome {b b2 : Board} (h : boardBases b2 = boardBases b)
    (k : HexId) :
    (mapGet b2.hexes k).isSome = (mapGet b.hexes k).isSome := by
  have hk : b2.hexes.map Prod.fst = b.hexes.map Prod.fst := by
    rw [← bases_keys, h, bases_keys]
  cases hs : (mapGet b.hexes k).isSome with
  | true => exact (mapGet_isSome_iff _ _).2 (hk ▸ (mapGet_isSome_iff _ _).1 hs)
  | false =>
    cases hs2 : (mapGet b2.hexes k).isSome with
    | false => rfl
    | true =>
      rw [hs.symm.trans ((mapGet_isSome_iff _ _).2
        (hk ▸ (mapGet_isSome_iff _ _).1 hs2))]

/-- Filtering a duplicate-free list down to one present element. -/
theorem filter_eq_length_one {α : Type} [DecidableEq α] (l : List α)
    (hl : l.Nodup) (a : α) (ha : a ∈ l) :
    (l.filter (fun x => decide (x = a))).length = 1 := by
  induction l with
  | nil => cases ha
  | cons x t ih =>
    rw [List.nodup_cons] at hl
    rw [List.filter_cons]
    by_cases hx : x = a
    · subst hx
      rw [if_pos (by simp)]
      rw [show t.filter (fun y => decide (y = x)) = [] from
        List.filter_eq_nil.2 (fun y hy => by
          simp only [decide_eq_true_eq]
          exact fun e => hl.1 (e ▸ hy))]
      rfl
    · rw [if_neg (by simp [hx])]
      exact ih hl.2 (by
        rcases List.mem_cons.1 ha with h1 | h1
        · exact absurd h1.symm hx
        · exact h1)

/-- Removing a present element of a duplicate-free list shortens it by
one. -/
theorem removeFirst_length_mem {α : Type} [DecidableEq α] (l : List α)
    (hl : l.Nodup) (a : α) (ha : a ∈ l) :
    (removeFirst l a).length + 1 = l.length := by
  rw [removeFirst_eq_filter l hl a]
  have h := length_filter_add_not l (fun x => decide (x = a))
  have hcnt := filter_eq_length_one l hl a ha
  omega

/-- One step of the red-token loop: place an unbound token on an
available tile. -/
theorem placeRedLoop_step (A : List HexId) (b : Board) (avail : List HexId)
    (ti : Nat) (t0 : NumberToken) (selected : HexId)
    (ht0 : b.numberTokens.get? ti = some t0) (ht0n : t0.hex = none)
    (h3 : A.filter (tokenFree b) = avail)
    (h4 : ∀ k ∈ A, (mapGet b.hexes k).isSome = true)
    (hsel : selected ∈ avail) :
    (placeTokenOnHex b ti selected).numberTokens.length =
      b.numberTokens.length ∧
    (placeTokenOnHex b ti selected).numberTokens.get? ti =
      some { t0 with hex := some selected } ∧
    (∀ tj, tj ≠ ti →
      (placeTokenOnHex b ti selected).numberTokens.get? tj =
        b.numberTokens.get? tj) ∧
    A.filter (tokenFree (placeTokenOnHex b ti selected)) =
      avail.filter (fun x => !decide (x = selected)) ∧
    boardBases (placeTokenOnHex b ti selected) = boardBases b ∧
    (placeTokenOnHex b ti selected).robber = b.robber ∧
    (∀ k ∈ A, (mapGet (placeTokenOnHex b ti selected).hexes k).isSome = true) ∧
    (∀ k, k ∉ A →
      mapGet (placeTokenOnHex b ti selected).hexes k = mapGet b.hexes k) ∧
    selected ∈ A := by
  have hselA : selected ∈ A := List.mem_of_mem_filter (h3 ▸ hsel)
  have facts := placeTokenOnHex_facts b ti selected t0 ht0 ht0n
  refine ⟨facts.1, facts.2.1, facts.2.2.1, ?_, facts.2.2.2.1, facts.2.2.2.2.1,
    ?_, ?_, hselA⟩
  · rw [filter_tokenFree_update A b _ selected facts.2.2.2.2.2.2.1
      (facts.2.2.2.2.2.2.2 (h4 selected hselA)), h3]
  · intro k hk
    rw [bases_isSome facts.2.2.2.1 k]
    exact h4 k hk
  · intro k hk
    exact facts.2.2.2.2.2.1 k (fun e => hk (e ▸ hselA))

/-- The red-token loop binds every listed token to a distinct available
tile, keeps all other tokens and tiles intact, and consumes exactly one
available tile per token. -/
theorem placeRedLoop_spec (A : List HexId) (hA : A.Nodup) :
    ∀ (tokens : List Nat) (b : Board) (avail : List HexId) (warn : Bool)
      (rng : List Nat),
      tokens.Nodup →
      (∀ ti ∈ tokens, ∃ t, b.numberTokens.get? ti = some t ∧ t.hex = none) →
      A.filter (tokenFree b) = avail →
      (∀ k ∈ A, (mapGet b.hexes k).isSome = true) →
      tokens.length ≤ avail.length →
      (placeRedLoop b tokens avail warn rng).1.numberTokens.length =
        b.numberTokens.length ∧
      (∀ ti ∈ tokens, ∃ t0 hid, b.numberTokens.get? ti = some t0 ∧
        (placeRedLoop b tokens avail warn rng).1.numberTokens.get? ti =
          some { t0 with hex := some hid } ∧ hid ∈ A) ∧
      (∀ ti, ti ∉ tokens →
        (placeRedLoop b tokens avail warn rng).1.numberTokens.get? ti =
          b.numberTokens.get? ti) ∧
      A.filter (tokenFree (placeRedLoop b tokens avail warn rng).1) =
        (placeRedLoop b tokens avail warn rng).2.1 ∧
      (placeRedLoop b tokens avail warn rng).2.1.length + tokens.length =
        avail.length ∧
      boardBases (placeRedLoop b tokens avail warn rng).1 = boardBases b ∧
      (placeRedLoop b tokens avail warn rng).1.robber = b.robber ∧
      (∀ k, k ∉ A →
        mapGet (placeRedLoop b tokens avail warn rng).1.hexes k =
          mapGet b.hexes k) := by
  intro tokens
  induction tokens with
  | nil =>
    intro b avail warn rng h1 h2 h3 h4 h5
    exact ⟨rfl, fun ti h => absurd h (List.not_mem_nil ti), fun ti h => rfl,
      h3, rfl, rfl, rfl, fun k hk => rfl⟩
  | cons ti rest ih =>
    intro b avail warn rng h1 h2 h3 h4 h5
    rw [List.nodup_cons] at h1
    have havnd : avail.Nodup := h3 ▸ hA.filter _
    obtain ⟨t0, ht0, ht0n⟩ := h2 ti (List.mem_cons_self _ _)
    unfold placeRedLoop
    dsimp only
    by_cases hv : (avail.filter (hexOkForRed b)).length > 0
    · rw [if_pos hv]
      have hlt : (draw rng).1 % (avail.filter (hexOkForRed b)).length <
          (avail.filter (hexOkForRed b)).length := Nat.mod_lt _ hv
      have hself : (avail.filter (hexOkForRed b)).getD
          ((draw rng).1 % (avail.filter (hexOkForRed b)).length) (0, 0)
          ∈ avail.filter (hexOkForRed b) := by
        rw [List.getD_eq_getElem?_getD, List.getElem?_eq_getElem hlt]
        exact List.getElem_mem hlt
      have hsel : (avail.filter (hexOkForRed b)).getD
          ((draw rng).1 % (avail.filter (hexOkForRed b)).length) (0, 0)
          ∈ avail := List.mem_of_mem_filter hself
      have step := placeRedLoop_step A b avail ti t0 _ ht0 ht0n h3 h4 hsel
      have hrlen := removeFirst_length_mem avail havnd _ hsel
      have hrw := removeFirst_eq_filter avail havnd
        ((avail.filter (hexOkForRed b)).getD
          ((draw rng).1 % (avail.filter (hexOkForRed b)).length) (0, 0))
      have hrest := ih (placeTokenOnHex b ti _) (removeFirst avail _) warn
        (draw rng).2 h1.2
        (by
          intro tj hj
          obtain ⟨t2, ht2, ht2n⟩ := h2 tj (List.mem_cons_of_mem _ hj)
          exact ⟨t2, (step.2.2.1 tj (fun e => h1.1 (e ▸ hj))).trans ht2, ht2n⟩)
        (by rw [step.2.2.2.1, hrw])
        step.2.2.2.2.2.2.1
        (by
          simp only [List.length_cons] at h5
          omega)
      refine ⟨hrest.1.trans step.1, ?_, ?_, hrest.2.2.2.1, ?_,
        hrest.2.2.2.2.2.1.trans step.2.2.2.2.1,
        hrest.2.2.2.2.2.2.1.trans step.2.2.2.2.2.1, ?_⟩
      · intro tj hj
        rcases List.mem_cons.1 hj with hje | hje
        · subst hje
          exact ⟨t0, _, ht0, (hrest.2.2.1 tj h1.1).trans step.2.1,
            step.2.2.2.2.2.2.2.2⟩
        · obtain ⟨t2, hid2, ht2, hout, hidA⟩ := hrest.2.1 tj hje
          exact ⟨t2, hid2,
            (step.2.2.1 tj (fun e => h1.1 (e ▸ hje))).symm.trans ht2, hout,
            hidA⟩
      · intro tj hj
        rw [hrest.2.2.1 tj (fun hm => hj (List.mem_cons_of_mem _ hm))]
        exact step.2.2.1 tj (fun e => hj (e ▸ List.mem_cons_self _ _))
      · simp only [List.length_cons]
        omega
      · intro k hk
        rw [hrest.2.2.2.2.2.2.2 k hk]
        exact step.2.2.2.2.2.2.2.1 k hk
    · rw [if_neg hv]
      cases hgl : avail.getLast? with
      | none =>
        exfalso
        have : avail = [] := by
          cases avail with
          | nil => rfl
          | cons x t => rw [List.getLast?_eq_getLast (x :: t) (by simp)] at hgl; cases hgl
        rw [this] at h5
        simp at h5
      | some last =>
        dsimp only
        have hsel : last ∈ avail := mem_of_getLast? avail last hgl
        have step := placeRedLoop_step A b avail ti t0 last ht0 ht0n h3 h4 hsel
        have hdl : avail.dropLast = avail.filter (fun x => !decide (x = last)) :=
          dropLast_eq_filter avail havnd last hgl
        have hdll : avail.dropLast.length + 1 = avail.length := by
          rw [List.length_dropLast]
          have : avail.length ≠ 0 := by
            intro e
            rw [List.length_eq_zero.1 e] at hgl
            cases hgl
          omega
        have hrest := ih (placeTokenOnHex b ti last) avail.dropLast true rng
          h1.2
          (by
            intro tj hj
            obtain ⟨t2, ht2, ht2n⟩ := h2 tj (List.mem_cons_of_mem _ hj)
            exact ⟨t2, (step.2.2.1 tj (fun e => h1.1 (e ▸ hj))).trans ht2, ht2n⟩)
          (by rw [step.2.2.2.1, hdl])
          step.2.2.2.2.2.2.1
          (by
            simp only [List.length_cons] at h5
            omega)
        refine ⟨hrest.1.trans step.1, ?_, ?_, hrest.2.2.2.1, ?_,
          hrest.2.2.2.2.2.1.trans step.2.2.2.2.1,
          hrest.2.2.2.2.2.2.1.trans step.2.2.2.2.2.1, ?_⟩
        · intro tj hj
          rcases List.mem_cons.1 hj with hje | hje
          · subst hje
            exact ⟨t0, last, ht0, (hrest.2.2.1 tj h1.1).trans step.2.1,
              step.2.2.2.2.2.2.2.2⟩
          · obtain ⟨t2, hid2, ht2, hout, hidA⟩ := hrest.2.1 tj hje
            exact ⟨t2, hid2,
              (step.2.2.1 tj (fun e => h1.1 (e ▸ hje))).symm.trans ht2, hout,
              hidA⟩
        · intro tj hj
          rw [hrest.2.2.1 tj (fun hm => hj (List.mem_cons_of_mem _ hm))]
          exact step.2.2.1 tj (fun e => hj (e ▸ List.mem_cons_self _ _))
        · simp only [List.length_cons]
          omega
        · intro k hk
          rw [hrest.2.2.2.2.2.2.2 k hk]
          exact step.2.2.2.2.2.2.2.1 k hk

/-- The remaining-token loop binds each listed token to the tile at its
position and keeps everything else intact. -/
theorem placeRemainingLoop_spec :
    ∀ (tis : List Nat) (hs : List HexId) (b : Board),
      tis.Nodup →
      (∀ ti ∈ tis, ∃ t, b.numberTokens.get? ti = some t ∧ t.hex = none) →
      tis.length ≤ hs.length →
      (placeRemainingLoop b tis hs).numberTokens.length =
        b.numberTokens.length ∧
      (∀ ti ∈ tis, ∃ t0 hid, b.numberTokens.get? ti = some t0 ∧
        (placeRemainingLoop b tis hs).numberTokens.get? ti =
          some { t0 with hex := some hid } ∧ hid ∈ hs) ∧
      (∀ ti, ti ∉ tis →
        (placeRemainingLoop b tis hs).numberTokens.get? ti =
          b.numberTokens.get? ti) ∧
      boardBases (placeRemainingLoop b tis hs) = boardBases b ∧
      (placeRemainingLoop b tis hs).robber = b.robber ∧
      (∀ k, k ∉ hs →
        mapGet (placeRemainingLoop b tis hs).hexes k = mapGet b.hexes k) := by
  intro tis
  induction tis with
  | nil =>
    intro hs b h1 h2 h3
    exact ⟨rfl, fun ti h => absurd h (List.not_mem_nil ti), fun ti h => rfl,
      rfl, rfl, fun k hk => rfl⟩
  | cons ti rest ih =>
    intro hs b h1 h2 h3
    cases hs with
    | nil =>
      simp only [List.length_cons, List.length_nil] at h3
      omega
    | cons hd hs2 =>
      rw [List.nodup_cons] at h1
      obtain ⟨t0, ht0, ht0n⟩ := h2 ti (List.mem_cons_self _ _)
      have facts := placeTokenOnHex_facts b ti hd t0 ht0 ht0n
      have hred : placeRemainingLoop b (ti :: rest) (hd :: hs2) =
          placeRemainingLoop (placeTokenOnHex b ti hd) rest hs2 := rfl
      rw [hred]
      have hrest := ih hs2 (placeTokenOnHex b ti hd) h1.2
        (by
          intro tj hj
          obtain ⟨t2, ht2, ht2n⟩ := h2 tj (List.mem_cons_of_mem _ hj)
          exact ⟨t2, (facts.2.2.1 tj (fun e => h1.1 (e ▸ hj))).trans ht2, ht2n⟩)
        (by
          simp only [List.length_cons] at h3
          omega)
      refine ⟨hrest.1.trans facts.1, ?_, ?_, hrest.2.2.2.1.trans facts.2.2.2.1,
        hrest.2.2.2.2.1.trans facts.2.2.2.2.1, ?_⟩
      · intro tj hj
        rcases List.mem_cons.1 hj with hje | hje
        · subst hje
          exact ⟨t0, hd, ht0, (hrest.2.2.1 tj h1.1).trans facts.2.1,
            List.mem_cons_self _ _⟩
        · obtain ⟨t2, hid2, ht2, hout, hidh⟩ := hrest.2.1 tj hje
          exact ⟨t2, hid2,
            (facts.2.2.1 tj (fun e => h1.1 (e ▸ hje))).symm.trans ht2, hout,
            List.mem_cons_of_mem _ hidh⟩
      · intro tj hj
        rw [hrest.2.2.1 tj (fun hm => hj (List.mem_cons_of_mem _ hm))]
        exact facts.2.2.1 tj (fun e => hj (e ▸ List.mem_cons_self _ _))
      · intro k hk
        rw [hrest.2.2.2.2.2 k (fun hm => hk (List.mem_cons_of_mem _ hm))]
        exact facts.2.2.2.2.2.1 k (fun e => hk (e ▸ List.mem_cons_self _ _))

/-- `Board.placeNumberTokens` on a fresh 18+1 board: 18 markers all
bound to existing non-desert tiles, bases and robber untouched, desert
still unmarked. -/
theorem placeNumberTokens_spec (b : Board) (rng : List Nat)
    (Hkeys : (b.hexes.map Prod.fst).Nodup)
    (Htok : ∀ kv ∈ b.hexes, kv.2.numberToken = none)
    (Hterr : (b.hexes.filter (fun kv => kv.2.terrain ≠ Terrain.desert)).length = 18) :
    (placeNumberTokens b rng).1.numberTokens.length = 18 ∧
    (∀ t ∈ (placeNumberTokens b rng).1.numberTokens, ∃ hid,
      t.hex = some hid ∧
        (mapGet (placeNumberTokens b rng).1.hexes hid).isSome = true) ∧
    boardBases (placeNumberTokens b rng).1 = boardBases b ∧
    (placeNumberTokens b rng).1.robber = b.robber ∧
    (∀ kv ∈ (placeNumberTokens b rng).1.hexes,
      kv.2.terrain = Terrain.desert → kv.2.numberToken = none) := by
  have hredIdx : ((createStandardSet.enum.filter
      (fun p => p.2.isHighProbability)).map Prod.fst) = [7, 8, 9, 10] := by
    decide
  have hnonRedIdx : ((createStandardSet.enum.filter
      (fun p => ! p.2.isHighProbability)).map Prod.fst) =
      [0, 1, 2, 3, 4, 5, 6, 11, 12, 13, 14, 15, 16, 17] := by
    decide
  unfold placeNumberTokens
  dsimp only
  rw [hredIdx, hnonRedIdx]
  set A := (b.hexes.filter (fun kv => kv.2.terrain ≠ Terrain.desert)).map
    Prod.fst with hAdef
  set b1 : Board := { b with numberTokens := createStandardSet } with hb1
  set sr := shuffleArray [7, 8, 9, 10] rng with hsr
  set sn := shuffleArray [0, 1, 2, 3, 4, 5, 6, 11, 12, 13, 14, 15, 16, 17]
    sr.2 with hsn
  set red := placeRedLoop b1 sr.1 A false sn.2 with hredL
  set sa := shuffleArray (A.filter (tokenFree red.1)) red.2.2.2 with hsa
  have hAnd : A.Nodup := by
    rw [hAdef]
    exact ((List.filter_sublist _).map Prod.fst).nodup Hkeys
  have hAlen : A.length = 18 := by
    rw [hAdef, List.length_map]
    exact Hterr
  have hAkeys : ∀ k ∈ A, (mapGet b.hexes k).isSome = true := by
    intro k hk
    apply (mapGet_isSome_iff _ _).2
    rw [hAdef] at hk
    obtain ⟨kv, hkv, he⟩ := List.mem_map.1 hk
    exact he ▸ List.mem_map.2 ⟨kv, List.mem_of_mem_filter hkv, rfl⟩
  have hAfree : ∀ k ∈ A, tokenFree b1 k = true := by
    intro k hk
    obtain ⟨v, hv⟩ := Option.isSome_iff_exists.1 (hAkeys k hk)
    show tokenFree b1 k = true
    unfold tokenFree
    have hb1h : mapGet b1.hexes k = some v := hv
    rw [hb1h]
    show v.numberToken.isNone = true
    rw [Htok (k, v) (mapGet_mem _ _ _ hv)]
    rfl
  have hsrperm : List.Perm sr.1 [7, 8, 9, 10] := shuffleArray_perm _ _
  have hsnperm : List.Perm sn.1 [0, 1, 2, 3, 4, 5, 6, 11, 12, 13, 14, 15, 16, 17] :=
    shuffleArray_perm _ _
  have hsrnd : sr.1.Nodup := hsrperm.symm.nodup (by decide)
  have hsnnd : sn.1.Nodup := hsnperm.symm.nodup (by decide)
  have hubred : ∀ ti ∈ sr.1, ∃ t, b1.numberTokens.get? ti = some t ∧
      t.hex = none := by
    intro ti hti
    have hm := hsrperm.subset hti
    simp only [List.mem_cons, List.not_mem_nil, or_false] at hm
    rcases hm with rfl | rfl | rfl | rfl <;> exact ⟨_, rfl, rfl⟩
  have hfiltA : A.filter (tokenFree b1) = A := List.filter_eq_self.2 hAfree
  have hredspec := placeRedLoop_spec A hAnd sr.1 b1 A false sn.2 hsrnd hubred
    hfiltA hAkeys (by rw [hsrperm.length_eq, hAlen]; decide)
  rw [← hredL] at hredspec
  have hredlen : red.2.1.length = 14 := by
    have h5 := hredspec.2.2.2.2.1
    rw [hsrperm.length_eq, hAlen] at h5
    simp only [List.length_cons, List.length_nil] at h5
    omega
  have hsaperm : List.Perm sa.1 (A.filter (tokenFree red.1)) :=
    shuffleArray_perm _ _
  have hsalen : sa.1.length = 14 := by
    rw [hsaperm.length_eq, hredspec.2.2.2.1, hredlen]
  have hsnA : ∀ ti ∈ sn.1, ∃ t, red.1.numberTokens.get? ti = some t ∧
      t.hex = none := by
    intro ti hti
    have hm := hsnperm.subset hti
    have hnotr : ti ∉ sr.1 := by
      intro hin
      have h2 := hsrperm.subset hin
      revert hm
      simp only [List.mem_cons, List.not_mem_nil, or_false] at h2
      rcases h2 with rfl | rfl | rfl | rfl <;> decide
    rw [hredspec.2.2.1 ti hnotr]
    simp only [List.mem_cons, List.not_mem_nil, or_false] at hm
    rcases hm with rfl | rfl | rfl | rfl | rfl | rfl | rfl | rfl | rfl | rfl |
      rfl | rfl | rfl | rfl <;> exact ⟨_, rfl, rfl⟩
  have hremspec := placeRemainingLoop_spec sn.1 sa.1 red.1 hsnnd hsnA
    (by rw [hsnperm.length_eq, hsalen]; decide)
  have hbases : boardBases (placeRemainingLoop red.1 sn.1 sa.1) =
      boardBases b := by
    rw [hremspec.2.2.2.1, hredspec.2.2.2.2.2.1]
    rfl
  have hkeysfin :
      ((placeRemainingLoop red.1 sn.1 sa.1).hexes.map Prod.fst).Nodup := by
    rw [← bases_keys, hbases, bases_keys]
    exact Hkeys
  have hsome : ∀ k ∈ A,
      (mapGet (placeRemainingLoop red.1 sn.1 sa.1).hexes k).isSome = true := by
    intro k hk
    rw [bases_isSome hbases k]
    exact hAkeys k hk
  refine ⟨?_, ?_, hbases, hremspec.2.2.2.2.1.trans hredspec.2.2.2.2.2.2.1, ?_⟩
  · rw [hremspec.1, hredspec.1]
    show createStandardSet.length = 18
    decide
  · intro t ht
    obtain ⟨ti, hti⟩ := List.mem_iff_get?.1 ht
    have htilt : ti < 18 := by
      have h9 := List.get?_eq_some.1 hti
      obtain ⟨hlt, -⟩ := h9
      rw [hremspec.1, hredspec.1] at hlt
      have hlt2 : ti < createStandardSet.length := hlt
      have h18 : createStandardSet.length = 18 := by decide
      omega
    have hcover : ti ∈ ([7, 8, 9, 10] : List Nat) ∨
        ti ∈ ([0, 1, 2, 3, 4, 5, 6, 11, 12, 13, 14, 15, 16, 17] : List Nat) := by
      interval_cases ti <;> decide
    rcases hcover with hc | hc
    · have hsrmem : ti ∈ sr.1 := hsrperm.mem_iff.2 hc
      obtain ⟨t0, hid, ht0, hout, hidA⟩ := hredspec.2.1 ti hsrmem
      have hnotn : ti ∉ sn.1 := by
        intro hin
        have h2 := hsnperm.subset hin
        revert h2
        simp only [List.mem_cons, List.not_mem_nil, or_false] at hc
        rcases hc with rfl | rfl | rfl | rfl <;> decide
      rw [hremspec.2.2.1 ti hnotn, hout] at hti
      refine ⟨hid, ?_, hsome hid hidA⟩
      rw [← Option.some.inj hti]
    · have hsnmem : ti ∈ sn.1 := hsnperm.mem_iff.2 hc
      obtain ⟨t0, hid, ht0, hout, hidsa⟩ := hremspec.2.1 ti hsnmem
      rw [hout] at hti
      have hidA : hid ∈ A :=
        List.mem_of_mem_filter (hsaperm.subset hidsa)
      refine ⟨hid, ?_, hsome hid hidA⟩
      rw [← Option.some.inj hti]
  · intro kv hkv hdes
    have hget : mapGet (placeRemainingLoop red.1 sn.1 sa.1).hexes kv.1 =
        some kv.2 := by
      apply mapGet_of_mem_nodup _ hkeysfin
      rw [show (kv.1, kv.2) = kv from rfl]
      exact hkv
    by_cases hkA : kv.1 ∈ A
    · exfalso
      rw [hAdef] at hkA
      obtain ⟨kv2, hkv2, he2⟩ := List.mem_map.1 hkA
      have hnd2 : ¬ kv2.2.terrain = Terrain.desert := by
        have := List.of_mem_filter hkv2
        simpa using this
      have hg2 : mapGet b.hexes kv.1 = some kv2.2 := by
        apply mapGet_of_mem_nodup _ Hkeys
        rw [← he2, show (kv2.1, kv2.2) = kv2 from rfl]
        exact List.mem_of_mem_filter hkv2
      have hbase : (kv.1, hexBase kv.2) ∈ boardBases b := by
        rw [← hbases]
        exact List.mem_map.2 ⟨kv, hkv, rfl⟩
      obtain ⟨kv3, hkv3, he3⟩ := List.mem_map.1 hbase
      simp only [Prod.mk.injEq] at he3
      have hk3 : kv3.1 = kv.1 := he3.1
      have hb3 : hexBase kv3.2 = hexBase kv.2 := he3.2
      have hg3 : mapGet b.hexes kv.1 = some kv3.2 := by
        apply mapGet_of_mem_nodup _ Hkeys
        rw [show (kv.1, kv3.2) = kv3 from by rw [← hk3]]
        exact hkv3
      have he23 : kv2.2 = kv3.2 := Option.some.inj (hg2.symm.trans hg3)
      have ht3 : kv3.2.terrain = Terrain.desert := by
        have h9 := congrArg (fun x => x.2.2.1) hb3
        simp only [hexBase] at h9
        rw [hdes] at h9
        exact h9
      exact hnd2 (he23 ▸ ht3)
    · have hknotsa : kv.1 ∉ sa.1 := by
        intro hin
        exact hkA (List.mem_of_mem_filter (hsaperm.subset hin))
      have hchain : mapGet (placeRemainingLoop red.1 sn.1 sa.1).hexes kv.1 =
          mapGet b.hexes kv.1 := by
        rw [hremspec.2.2.2.2.2 kv.1 hknotsa]
        exact hredspec.2.2.2.2.2.2.2 kv.1 hkA
      rw [hchain] at hget
      exact Htok (kv.1, kv.2) (mapGet_mem _ _ _ hget)

/-- Tile keys project out of the core map. -/
theorem cores_keys (b : Board) :
    (boardCores b).map Prod.fst = b.hexes.map Prod.fst := by
  unfold boardCores
  rw [List.map_map]
  rfl

/-- The base map is a projection of the core map. -/
theorem bases_of_cores (b : Board) :
    boardBases b = (boardCores b).map
      (fun kc => (kc.1, (kc.2.1, kc.2.2.1, kc.2.2.2.1, kc.2.2.2.2.2))) := by
  unfold boardBases boardCores
  rw [List.map_map]
  rfl

/-- Tile terrains project out of the base map. -/
theorem bases_terrains (b : Board) :
    (boardBases b).map (fun kb => kb.2.2.2.1) =
      b.hexes.map (fun kv => kv.2.terrain) := by
  unfold boardBases
  rw [List.map_map]
  rfl

/-- An update whose function preserves a value projection preserves the
projected values. -/
theorem mapUpdate_map_snd {κ ν μ : Type} [DecidableEq κ] (m : List (κ × ν))
    (k : κ) (f : ν → ν) (g : ν → μ) (hf : ∀ v, g (f v) = g v) :
    (mapUpdate m k f).map (fun kv => g kv.2) = m.map (fun kv => g kv.2) := by
  induction m with
  | nil => rfl
  | cons kv t ih =>
    by_cases hk : kv.1 = k
    · simp only [mapUpdate, if_pos hk, List.map_cons, hf]
    · simp only [mapUpdate, if_neg hk, List.map_cons, ih]

/-- Updating preserves the length. -/
theorem mapUpdate_length {κ ν : Type} [DecidableEq κ] (m : List (κ × ν))
    (k : κ) (f : ν → ν) : (mapUpdate m k f).length = m.length := by
  induction m with
  | nil => rfl
  | cons kv t ih =>
    by_cases hk : kv.1 = k
    · simp only [mapUpdate, if_pos hk, List.length_cons]
    · simp only [mapUpdate, if_neg hk, List.length_cons, ih]

/-- A filter reaching length one pins down its satisfiers. -/
theorem unique_of_filter_length_one {α : Type} (l : List α) (p : α → Bool)
    (h : (l.filter p).length = 1) (x y : α) (hx : x ∈ l) (hpx : p x = true)
    (hy : y ∈ l) (hpy : p y = true) : x = y := by
  obtain ⟨a, ha⟩ := List.length_eq_one.1 h
  have hxa : x = a := by
    have := List.mem_filter.2 ⟨hx, hpx⟩
    rw [ha] at this
    simpa using this
  have hya : y = a := by
    have := List.mem_filter.2 ⟨hy, hpy⟩
    rw [ha] at this
    simpa using this
  rw [hxa, hya]

/-- The created tile list has one entry per layout position. -/
theorem layoutHexes_length (layout : List HexId) (ts : List Terrain) (i : Nat) :
    (layoutHexes layout ts i).length = layout.length := by
  have h := congrArg List.length (layoutHexes_keys layout ts i)
  rw [List.length_map] at h
  exact h

/-- `Robber.moveTo` from an unbound robber. -/
theorem robberMoveTo_spec (b : Board) (hid : HexId)
    (hnone : b.robber.hex = none) :
    robberMoveTo b hid =
      { b with robber := { hex := some hid },
               hexes := mapUpdate b.hexes hid (fun h => { h with hasRobber := true }) } := by
  unfold robberMoveTo
  rw [hnone]

/-- Tile terrains project out of the core map. -/
theorem cores_terrains (b : Board) :
    (boardCores b).map (fun kc => kc.2.2.2.1) =
      b.hexes.map (fun kv => kv.2.terrain) := by
  unfold boardCores
  rw [List.map_map]
  rfl

/-- C5: every call to `Board.generateStandardBoard`, on any starting
board state and any randomness, leaves exactly 19 tiles, exactly 18
probability markers each bound to an existing tile, exactly one desert
tile, and that desert tile unmarked and carrying the robber, with the
robber reference bound to it.  The board is cleared first, so repeated
calls rebuild from scratch with no accumulation. -/
theorem c5_generate_standard (b : Board) (rng : List Nat) :
    (generateStandardBoard b rng).1.hexes.length = 19 ∧
    (generateStandardBoard b rng).1.numberTokens.length = 18 ∧
    (∀ t ∈ (generateStandardBoard b rng).1.numberTokens, ∃ hid,
      t.hex = some hid ∧
        (mapGet (generateStandardBoard b rng).1.hexes hid).isSome = true) ∧
    ((generateStandardBoard b rng).1.hexes.filter
      (fun kv => kv.2.terrain = Terrain.desert)).length = 1 ∧
    (∀ kv ∈ (generateStandardBoard b rng).1.hexes,
      kv.2.terrain = Terrain.desert →
        kv.2.numberToken = none ∧ kv.2.hasRobber = true ∧
          (generateStandardBoard b rng).1.robber.hex = some kv.1) := by
  unfold generateStandardBoard
  dsimp only
  set st := shuffleArray standardTerrains rng with hst
  have hcreate : createHexesLoop b.clear hexLayout st.1 0 =
      { b.clear with hexes := layoutHexes hexLayout st.1 0 } := by
    rw [createHexesLoop_spec hexLayout b.clear st.1 0
      (by intro c hc; show c ∉ ([] : List (HexId × Hex)).map Prod.fst; simp)
      (by decide)]
    rfl
  rw [hcreate]
  set b2 : Board := { b.clear with hexes := layoutHexes hexLayout st.1 0 }
    with hb2
  set b3 := buildRelationships b2 with hb3
  have hframe := buildRelationships_frame b2
  rw [← hb3] at hframe
  have hstlen : st.1.length = 19 := by
    rw [(shuffleArray_perm standardTerrains rng).length_eq]
    decide
  have hkeys2 : b2.hexes.map Prod.fst = hexLayout :=
    layoutHexes_keys hexLayout st.1 0
  have hterr2 : b2.hexes.map (fun kv => kv.2.terrain) = st.1 := by
    show (layoutHexes hexLayout st.1 0).map (fun kv => kv.2.terrain) = st.1
    rw [layoutHexes_terrains hexLayout st.1 0 (by rw [hstlen]; decide)]
    exact List.drop_zero st.1
  have hcount2 : (b2.hexes.map (fun kv => kv.2.terrain)).count Terrain.desert
      = 1 := by
    rw [hterr2, (shuffleArray_perm standardTerrains rng).count_eq]
    decide
  have hkeys3 : b3.hexes.map Prod.fst = hexLayout := by
    rw [← cores_keys, hframe.1, cores_keys, hkeys2]
  have hkeys3nd : (b3.hexes.map Prod.fst).Nodup := by
    rw [hkeys3]
    decide
  have hterr3 : b3.hexes.map (fun kv => kv.2.terrain) = st.1 := by
    rw [← cores_terrains, hframe.1, cores_terrains, hterr2]
  have hlen3 : b3.hexes.length = 19 := by
    have h9 := congrArg List.length hkeys3
    rw [List.length_map] at h9
    rw [h9]
    decide
  have hflt3 : (b3.hexes.filter
      (fun kv => decide (kv.2.terrain = Terrain.desert))).length = 1 := by
    rw [filter_terrain_length, hterr3, ← hterr2, hcount2]
  have Htok3 : ∀ kv ∈ b3.hexes, kv.2.numberToken = none := by
    intro kv hkv
    have hc : (kv.1, hexCore kv.2) ∈ boardCores b2 := by
      rw [← hframe.1]
      exact List.mem_map.2 ⟨kv, hkv, rfl⟩
    obtain ⟨kv0, hkv0, he0⟩ := List.mem_map.1 hc
    simp only [Prod.mk.injEq] at he0
    have h9 := congrArg (fun x => x.2.2.2.1) he0.2
    simp only [hexCore] at h9
    rw [← h9]
    exact (layoutHexes_fields hexLayout st.1 0 kv0 hkv0).1
  have Hterr3 : (b3.hexes.filter
      (fun kv => kv.2.terrain ≠ Terrain.desert)).length = 18 := by
    have hfeq : b3.hexes.filter (fun kv => kv.2.terrain ≠ Terrain.desert) =
        b3.hexes.filter
          (fun kv => !(decide (kv.2.terrain = Terrain.desert))) :=
      List.filter_congr (fun x hx => by simp [decide_not])
    have hsplit := length_filter_add_not b3.hexes
      (fun kv => decide (kv.2.terrain = Terrain.desert))
    rw [hfeq]
    omega
  have hpn := placeNumberTokens_spec b3 st.2 hkeys3nd Htok3 Hterr3
  set b4 := (placeNumberTokens b3 st.2).1 with hb4
  have hkeys4 : b4.hexes.map Prod.fst = hexLayout := by
    rw [← bases_keys, hpn.2.2.1, bases_keys, hkeys3]
  have hkeys4nd : (b4.hexes.map Prod.fst).Nodup := by
    rw [hkeys4]
    decide
  have hterr4 : b4.hexes.map (fun kv => kv.2.terrain) = st.1 := by
    rw [← bases_terrains, hpn.2.2.1, bases_terrains, hterr3]
  have hlen4 : b4.hexes.length = 19 := by
    have h9 := congrArg List.length hkeys4
    rw [List.length_map] at h9
    rw [h9]
    decide
  have hflt4 : (b4.hexes.filter
      (fun kv => decide (kv.2.terrain = Terrain.desert))).length = 1 := by
    rw [filter_terrain_length, hterr4, ← hterr2, hcount2]
  have hbases42 : boardBases b4 = boardBases b2 := by
    rw [hpn.2.2.1, bases_of_cores b3, hframe.1, ← bases_of_cores b2]
  have hcoord : ∀ kv ∈ b4.hexes, kv.1 = (kv.2.q, kv.2.r) := by
    intro kv hkv
    have hc : (kv.1, hexBase kv.2) ∈ boardBases b2 := by
      rw [← hbases42]
      exact List.mem_map.2 ⟨kv, hkv, rfl⟩
    obtain ⟨kv0, hkv0, he0⟩ := List.mem_map.1 hc
    simp only [Prod.mk.injEq] at he0
    have hq : kv0.2.q = kv.2.q := by
      have h9 := congrArg (fun x => x.1) he0.2
      simpa [hexBase] using h9
    have hr : kv0.2.r = kv.2.r := by
      have h9 := congrArg (fun x => x.2.1) he0.2
      simpa [hexBase] using h9
    rw [← he0.1, (layoutHexes_fields hexLayout st.1 0 kv0 hkv0).2.2, hq, hr]
  have hrob4 : b4.robber.hex = none := by
    rw [hpn.2.2.2.1, hframe.2.2]
    rfl
  unfold placeRobberOnDesert
  cases hfind : (b4.hexes.map Prod.snd).find?
      (fun h => h.terrain = Terrain.desert) with
  | none =>
    exfalso
    obtain ⟨a, ha⟩ := List.length_eq_one.1 hflt4
    have hamem : a ∈ b4.hexes.filter
        (fun kv => decide (kv.2.terrain = Terrain.desert)) := by
      rw [ha]
      simp
    have hmem2 : a.2 ∈ b4.hexes.map Prod.snd :=
      List.mem_map.2 ⟨a, List.mem_of_mem_filter hamem, rfl⟩
    have hdes : decide (a.2.terrain = Terrain.desert) = true := by
      have := List.of_mem_filter hamem
      exact this
    have := List.find?_eq_none.1 hfind a.2 hmem2
    rw [hdes] at this
    exact this rfl
  | some h =>
    dsimp only
    have hdesh : h.terrain = Terrain.desert := by
      have := List.find?_some hfind
      simpa using this
    obtain ⟨kvh, hkvh, hsnd⟩ := List.mem_map.1 (List.mem_of_find?_eq_some hfind)
    have hkeyh : kvh.1 = (h.q, h.r) := by
      rw [hcoord kvh hkvh, hsnd]
    have hgeth : mapGet b4.hexes (h.q, h.r) = some h := by
      rw [← hkeyh, ← hsnd]
      apply mapGet_of_mem_nodup _ hkeys4nd
      rw [show (kvh.1, kvh.2) = kvh from rfl]
      exact hkvh
    rw [robberMoveTo_spec b4 (h.q, h.r) hrob4]
    dsimp only
    have hkeysf : (mapUpdate b4.hexes (h.q, h.r)
        (fun h => { h with hasRobber := true })).map Prod.fst =
        b4.hexes.map Prod.fst := mapUpdate_keys _ _ _
    have hkeysfnd : ((mapUpdate b4.hexes (h.q, h.r)
        (fun h => { h with hasRobber := true })).map Prod.fst).Nodup := by
      rw [hkeysf]
      exact hkeys4nd
    refine ⟨?_, hpn.1, ?_, ?_, ?_⟩
    · rw [mapUpdate_length, hlen4]
    · intro t ht
      obtain ⟨hid, hhex, hsome⟩ := hpn.2.1 t ht
      refine ⟨hid, hhex, ?_⟩
      rw [show (mapGet (mapUpdate b4.hexes (h.q, h.r)
          (fun h => { h with hasRobber := true })) hid).isSome =
          (mapGet b4.hexes hid).isSome from ?_]
      · exact hsome
      · by_cases hk : hid = (h.q, h.r)
        · subst hk
          rw [mapGet_mapUpdate_eq _ _ _ _ hgeth, hgeth]
          rfl
        · rw [mapGet_mapUpdate_ne _ _ _ _ hk]
    · rw [filter_terrain_length]
      rw [show (mapUpdate b4.hexes (h.q, h.r)
          (fun h => { h with hasRobber := true })).map (fun kv => kv.2.terrain) =
          b4.hexes.map (fun kv => kv.2.terrain) from
        mapUpdate_map_snd _ _ _ _ (fun v => rfl)]
      rw [← filter_terrain_length, hflt4]
    · intro kv hkv hdes
      have hgetkv : mapGet (mapUpdate b4.hexes (h.q, h.r)
          (fun h => { h with hasRobber := true })) kv.1 = some kv.2 := by
        apply mapGet_of_mem_nodup _ hkeysfnd
        rw [show (kv.1, kv.2) = kv from rfl]
        exact hkv
      by_cases hk : kv.1 = (h.q, h.r)
      · have hup : mapGet (mapUpdate b4.hexes (h.q, h.r)
            (fun h => { h with hasRobber := true })) (h.q, h.r) =
            some { h with hasRobber := true } := mapGet_mapUpdate_eq _ _ _ _ hgeth
        rw [hk] at hgetkv
        have hkv2 : kv.2 = { h with hasRobber := true } :=
          Option.some.inj (hgetkv.symm.trans hup)
        have htokh : h.numberToken = none := by
          have := hpn.2.2.2.2 kvh hkvh (by rw [hsnd]; exact hdesh)
          rw [← hsnd]
          exact this
        refine ⟨?_, ?_, ?_⟩
        · rw [hkv2]
          exact htokh
        · rw [hkv2]
        · rw [hk]
      · exfalso
        rw [mapGet_mapUpdate_ne _ _ _ _ hk] at hgetkv
        have hmemb4 : (kv.1, kv.2) ∈ b4.hexes := mapGet_mem _ _ _ hgetkv
        have huniq := unique_of_filter_length_one b4.hexes
          (fun kv => decide (kv.2.terrain = Terrain.desert)) hflt4
          (kv.1, kv.2) kvh hmemb4 (by simpa using hdes) hkvh
          (by simp [hsnd, hdesh])
        have : kv.1 = kvh.1 := congrArg Prod.fst huniq
        rw [hkeyh] at this
        exact hk this

/-- Updating an absent key leaves its lookup empty. -/
theorem mapGet_mapUpdate_none {κ ν : Type} [DecidableEq κ] (m : List (κ × ν))
    (k : κ) (f : ν → ν) (h : mapGet m k = none) :
    mapGet (mapUpdate m k f) k = none := by
  induction m with
  | nil => rfl
  | cons kv t ih =>
    unfold mapGet at h
    by_cases hk : kv.1 = k
    · rw [if_pos hk] at h
      cases h
    · rw [if_neg hk] at h
      simp only [mapUpdate, if_neg hk, mapGet, if_neg hk]
      exact ih h

/-- Binding a token does not change which tokens are high. -/
theorem tokenIsHigh_place (b : Board) (ti : Nat) (s : HexId)
    (t0 : NumberToken) (hti : b.numberTokens.get? ti = some t0)
    (htn : t0.hex = none) :
    ∀ tj, tokenIsHigh (placeTokenOnHex b ti s) tj = tokenIsHigh b tj := by
  intro tj
  have hlt : ti < b.numberTokens.length := by
    rw [List.get?_eq_getElem?] at hti
    by_contra hc
    rw [List.getElem?_eq_none (by omega)] at hti
    cases hti
  rw [placeTokenOnHex_spec b ti s t0 hti htn]
  unfold tokenIsHigh
  dsimp only
  by_cases hj : tj = ti
  · subst hj
    rw [List.get?_eq_getElem?, List.getElem?_set_self hlt, hti]
    rfl
  · rw [List.get?_eq_getElem?, List.getElem?_set_ne (fun e => hj e.symm),
      ← List.get?_eq_getElem?]

/-- Binding a token does not change which tile records count as high. -/
theorem hexHigh_place (b : Board) (ti : Nat) (s : HexId) (t0 : NumberToken)
    (hti : b.numberTokens.get? ti = some t0) (htn : t0.hex = none) :
    ∀ h : Hex, hexHasHighToken (placeTokenOnHex b ti s) h =
      hexHasHighToken b h := by
  intro h
  unfold hexHasHighToken
  cases h.numberToken with
  | none => rfl
  | some tj => exact tokenIsHigh_place b ti s t0 hti htn tj

/-- A tile record counting as high only depends on its token slot. -/
theorem hexHigh_congr (b : Board) (h h0 : Hex)
    (he : h.numberToken = h0.numberToken) :
    hexHasHighToken b h = hexHasHighToken b h0 := by
  unfold hexHasHighToken
  rw [he]

/-- What passing the red-token candidate filter means. -/
theorem hexOkForRed_spec (b : Board) (s : HexId)
    (hok : hexOkForRed b s = true) :
    ∃ hs, mapGet b.hexes s = some hs ∧
      ∀ nk ∈ hs.neighbors, ∀ nh, mapGet b.hexes nk = some nh →
        hexHasHighToken b nh = false := by
  unfold hexOkForRed at hok
  cases hg : mapGet b.hexes s with
  | none => rw [hg] at hok; cases hok
  | some hs =>
    rw [hg] at hok
    dsimp only at hok
    rw [Bool.not_eq_true'] at hok
    refine ⟨hs, rfl, ?_⟩
    intro nk hnk nh hnh
    have h2 := List.any_eq_false.1 hok nk hnk
    rw [hnh] at h2
    cases he : hexHasHighToken b nh with
    | false => rfl
    | true =>
      exfalso
      apply h2
      show hexHasHighToken b nh = true
      exact he

/-- Placing a token on a tile that passed the candidate filter keeps the
no-mutual-high-neighbors constraint. -/
theorem placeToken_inv (b : Board) (ti : Nat) (s : HexId) (t0 : NumberToken)
    (hti : b.numberTokens.get? ti = some t0) (htn : t0.hex = none)
    (hok : hexOkForRed b s = true) (hinv : noMutualHighPair b) :
    noMutualHighPair (placeTokenOnHex b ti s) := by
  obtain ⟨hs, hgs, hnb⟩ := hexOkForRed_spec b s hok
  intro k1 k2 h1 h2 hg1 hg2 hne hh1 hh2
  have hget : ∀ k h, mapGet (placeTokenOnHex b ti s).hexes k = some h →
      (k ≠ s ∧ mapGet b.hexes k = some h) ∨
      (k = s ∧ h = { hs with numberToken := some ti }) := by
    intro k h hg
    by_cases hk : k = s
    · subst hk
      right
      refine ⟨rfl, ?_⟩
      rw [placeTokenOnHex_spec b ti k t0 hti htn] at hg
      have h9 := mapGet_mapUpdate_eq b.hexes k
        (fun h => { h with numberToken := some ti }) hs hgs
      exact Option.some.inj (hg.symm.trans h9)
    · left
      refine ⟨hk, ?_⟩
      rw [placeTokenOnHex_spec b ti s t0 hti htn] at hg
      rw [← mapGet_mapUpdate_ne b.hexes s k
        (fun h => { h with numberToken := some ti }) hk]
      exact hg
  have hH := hexHigh_place b ti s t0 hti htn
  rcases hget k1 h1 hg1 with ⟨hk1, hb1⟩ | ⟨hk1, hh1e⟩
  · rcases hget k2 h2 hg2 with ⟨hk2, hb2⟩ | ⟨hk2, hh2e⟩
    · exact hinv k1 k2 h1 h2 hb1 hb2 hne (by rw [← hH h1]; exact hh1)
        (by rw [← hH h2]; exact hh2)
    · subst hk2
      rintro ⟨hn1, hn2⟩
      have hnb1 : k1 ∈ hs.neighbors := by
        rw [hh2e] at hn2
        exact hn2
      have hhigh1 : hexHasHighToken b h1 = true := by
        rw [← hH h1]
        exact hh1
      have h9 := hnb k1 hnb1 h1 hb1
      rw [hhigh1] at h9
      cases h9
  · rcases hget k2 h2 hg2 with ⟨hk2, hb2⟩ | ⟨hk2, hh2e⟩
    · subst hk1
      rintro ⟨hn1, hn2⟩
      have hnb2 : k2 ∈ hs.neighbors := by
        rw [hh1e] at hn1
        exact hn1
      have hhigh2 : hexHasHighToken b h2 = true := by
        rw [← hH h2]
        exact hh2
      have h9 := hnb k2 hnb2 h2 hb2
      rw [hhigh2] at h9
      cases h9
    · exact absurd (hk1.trans hk2.symm) hne

/-- Placing a non-high token anywhere keeps the constraint. -/
theorem placeToken_inv_nonhigh (b : Board) (ti : Nat) (s : HexId)
    (t0 : NumberToken) (hti : b.numberTokens.get? ti = some t0)
    (htn : t0.hex = none) (hnh : t0.isHighProbability = false)
    (hinv : noMutualHighPair b) :
    noMutualHighPair (placeTokenOnHex b ti s) := by
  intro k1 k2 h1 h2 hg1 hg2 hne hh1 hh2
  have hH := hexHigh_place b ti s t0 hti htn
  have hTok : tokenIsHigh b ti = false := by
    unfold tokenIsHigh
    rw [hti]
    exact hnh
  have hget : ∀ k h, mapGet (placeTokenOnHex b ti s).hexes k = some h →
      hexHasHighToken (placeTokenOnHex b ti s) h = true →
      mapGet b.hexes k = some h ∧ hexHasHighToken b h = true := by
    intro k h hg hh
    rw [hH h] at hh
    by_cases hk : k = s
    · subst hk
      rw [placeTokenOnHex_spec b ti k t0 hti htn] at hg
      cases hbs : mapGet b.hexes k with
      | none =>
        rw [mapGet_mapUpdate_none _ _ _ hbs] at hg
        cases hg
      | some h0 =>
        rw [mapGet_mapUpdate_eq _ _ _ _ hbs] at hg
        have h9 := Option.some.inj hg
        exfalso
        have hth : hexHasHighToken b h = tokenIsHigh b ti := by
          unfold hexHasHighToken
          rw [← h9]
        rw [hth, hTok] at hh
        cases hh
    · rw [placeTokenOnHex_spec b ti s t0 hti htn] at hg
      rw [← mapGet_mapUpdate_ne b.hexes s k
        (fun h => { h with numberToken := some ti }) hk]
      exact ⟨hg, hh⟩
  obtain ⟨hb1, hH1⟩ := hget k1 h1 hg1 hh1
  obtain ⟨hb2, hH2⟩ := hget k2 h2 hg2 hh2
  exact hinv k1 k2 h1 h2 hb1 hb2 hne hH1 hH2

/-- A board differing only by a token-and-neighbor-preserving tile
update keeps the constraint. -/
theorem inv_update (b b2 : Board) (hid : HexId) (f : Hex → Hex)
    (htk : b2.numberTokens = b.numberTokens)
    (hhx : b2.hexes = mapUpdate b.hexes hid f)
    (hf1 : ∀ h, (f h).numberToken = h.numberToken)
    (hf2 : ∀ h, (f h).neighbors = h.neighbors)
    (hinv : noMutualHighPair b) : noMutualHighPair b2 := by
  have hTok : ∀ tj, tokenIsHigh b2 tj = tokenIsHigh b tj := by
    intro tj
    unfold tokenIsHigh
    rw [htk]
  have hH : ∀ h, hexHasHighToken b2 h = hexHasHighToken b h := by
    intro h
    unfold hexHasHighToken
    cases h.numberToken with
    | none => rfl
    | some tj => exact hTok tj
  have hget : ∀ k h, mapGet b2.hexes k = some h →
      ∃ h0, mapGet b.hexes k = some h0 ∧ h.numberToken = h0.numberToken ∧
        h.neighbors = h0.neighbors := by
    intro k h hg
    rw [hhx] at hg
    by_cases hk : k = hid
    · subst hk
      cases hbs : mapGet b.hexes k with
      | none =>
        rw [mapGet_mapUpdate_none _ _ _ hbs] at hg
        cases hg
      | some h0 =>
        rw [mapGet_mapUpdate_eq _ _ _ _ hbs] at hg
        have h9 := Option.some.inj hg
        exact ⟨h0, rfl, by rw [← h9, hf1], by rw [← h9, hf2]⟩
    · rw [mapGet_mapUpdate_ne _ _ _ _ hk] at hg
      exact ⟨h, hg, rfl, rfl⟩
  intro k1 k2 h1 h2 hg1 hg2 hne hh1 hh2
  obtain ⟨h01, hb1, ht1, hn1⟩ := hget k1 h1 hg1
  obtain ⟨h02, hb2, ht2, hn2⟩ := hget k2 h2 hg2
  have hH1 : hexHasHighToken b h01 = true := by
    rw [← hexHigh_congr b h1 h01 ht1, ← hH h1]
    exact hh1
  have hH2 : hexHasHighToken b h02 = true := by
    rw [← hexHigh_congr b h2 h02 ht2, ← hH h2]
    exact hh2
  have h9 := hinv k1 k2 h01 h02 hb1 hb2 hne hH1 hH2
  rw [hn1, hn2]
  exact h9

/-- The robber move keeps the constraint. -/
theorem robberMoveTo_inv (b : Board) (hid : HexId)
    (hinv : noMutualHighPair b) : noMutualHighPair (robberMoveTo b hid) := by
  unfold robberMoveTo
  cases hr : b.robber.hex with
  | none =>
    dsimp only
    exact inv_update b _ hid _ rfl rfl (fun h => rfl) (fun h => rfl) hinv
  | some old =>
    dsimp only
    have hmid := inv_update b
      ({ b with hexes := mapUpdate b.hexes old (fun h => { h with hasRobber := false }) })
      old _ rfl rfl (fun h => rfl) (fun h => rfl) hinv
    exact inv_update
      ({ b with hexes := mapUpdate b.hexes old (fun h => { h with hasRobber := false }) })
      _ hid _ rfl rfl (fun h => rfl) (fun h => rfl) hmid

/-- Robber placement keeps the constraint. -/
theorem placeRobberOnDesert_inv (b : Board) (hinv : noMutualHighPair b) :
    noMutualHighPair (placeRobberOnDesert b) := by
  unfold placeRobberOnDesert
  cases hfind : (b.hexes.map Prod.snd).find?
      (fun h => h.terrain = Terrain.desert) with
  | none => exact hinv
  | some h => exact robberMoveTo_inv b (h.q, h.r) hinv

/-- Once the fallback warning has fired it is reported. -/
theorem placeRedLoop_warn : ∀ (tokens : List Nat) (b : Board)
    (avail : List HexId) (rng : List Nat),
    (placeRedLoop b tokens avail true rng).2.2.1 = true := by
  intro tokens
  induction tokens with
  | nil => intro b avail rng; rfl
  | cons ti rest ih =>
    intro b avail rng
    unfold placeRedLoop
    dsimp only
    by_cases hv : (avail.filter (hexOkForRed b)).length > 0
    · rw [if_pos hv]
      exact ih _ _ _
    · rw [if_neg hv]
      cases hgl : avail.getLast? with
      | none => exact ih _ _ _
      | some last => exact ih _ _ _

/-- When no fallback warning fires, the red-token loop keeps the
constraint: every red token lands on a tile with no high neighbor. -/
theorem placeRedLoop_inv : ∀ (tokens : List Nat) (b : Board)
    (avail : List HexId) (warn : Bool) (rng : List Nat),
    tokens.Nodup →
    (∀ ti ∈ tokens, ∃ t, b.numberTokens.get? ti = some t ∧ t.hex = none) →
    noMutualHighPair b →
    (placeRedLoop b tokens avail warn rng).2.2.1 = false →
    noMutualHighPair (placeRedLoop b tokens avail warn rng).1 := by
  intro tokens
  induction tokens with
  | nil =>
    intro b avail warn rng h1 h2 hinv hw
    exact hinv
  | cons ti rest ih =>
    intro b avail warn rng h1 h2 hinv hw
    rw [List.nodup_cons] at h1
    obtain ⟨t0, ht0, htn⟩ := h2 ti (List.mem_cons_self _ _)
    unfold placeRedLoop at hw ⊢
    dsimp only at hw ⊢
    by_cases hv : (avail.filter (hexOkForRed b)).length > 0
    · rw [if_pos hv] at hw ⊢
      have hlt : (draw rng).1 % (avail.filter (hexOkForRed b)).length <
          (avail.filter (hexOkForRed b)).length := Nat.mod_lt _ hv
      have hself : (avail.filter (hexOkForRed b)).getD
          ((draw rng).1 % (avail.filter (hexOkForRed b)).length) (0, 0)
          ∈ avail.filter (hexOkForRed b) := by
        rw [List.getD_eq_getElem?_getD, List.getElem?_eq_getElem hlt]
        exact List.getElem_mem hlt
      have hok := List.of_mem_filter hself
      have hfacts := placeTokenOnHex_facts b ti
        ((avail.filter (hexOkForRed b)).getD
          ((draw rng).1 % (avail.filter (hexOkForRed b)).length) (0, 0)) t0 ht0 htn
      exact ih _ _ warn _ h1.2
        (by
          intro tj hj
          obtain ⟨t2, ht2, ht2n⟩ := h2 tj (List.mem_cons_of_mem _ hj)
          exact ⟨t2, (hfacts.2.2.1 tj (fun e => h1.1 (e ▸ hj))).trans ht2, ht2n⟩)
        (placeToken_inv b ti _ t0 ht0 htn hok hinv) hw
    · rw [if_neg hv] at hw ⊢
      cases hgl : avail.getLast? with
      | none =>
        rw [hgl] at hw
        exfalso
        rw [placeRedLoop_warn rest _ _ _] at hw
        cases hw
      | some last =>
        rw [hgl] at hw
        exfalso
        rw [placeRedLoop_warn rest _ _ _] at hw
        cases hw

/-- The remaining (non-high) tokens keep the constraint wherever they
land. -/
theorem placeRemainingLoop_inv : ∀ (tis : List Nat) (hs : List HexId)
    (b : Board),
    tis.Nodup →
    (∀ ti ∈ tis, ∃ t, b.numberTokens.get? ti = some t ∧ t.hex = none ∧
      t.isHighProbability = false) →
    noMutualHighPair b →
    noMutualHighPair (placeRemainingLoop b tis hs) := by
  intro tis
  induction tis with
  | nil => intro hs b h1 h2 hinv; exact hinv
  | cons ti rest ih =>
    intro hs b h1 h2 hinv
    cases hs with
    | nil => exact hinv
    | cons hd hs2 =>
      rw [List.nodup_cons] at h1
      obtain ⟨t0, ht0, htn, hnh⟩ := h2 ti (List.mem_cons_self _ _)
      have hfacts := placeTokenOnHex_facts b ti hd t0 ht0 htn
      have hred : placeRemainingLoop b (ti :: rest) (hd :: hs2) =
          placeRemainingLoop (placeTokenOnHex b ti hd) rest hs2 := rfl
      rw [hred]
      exact ih hs2 _ h1.2
        (by
          intro tj hj
          obtain ⟨t2, ht2, ht2n, ht2h⟩ := h2 tj (List.mem_cons_of_mem _ hj)
          exact ⟨t2, (hfacts.2.2.1 tj (fun e => h1.1 (e ▸ hj))).trans ht2,
            ht2n, ht2h⟩)
        (placeToken_inv_nonhigh b ti hd t0 ht0 htn hnh hinv)

/-- The red-token loop never rewrites tokens it was not given. -/
theorem placeRedLoop_untouched : ∀ (tokens : List Nat) (b : Board)
    (avail : List HexId) (warn : Bool) (rng : List Nat),
    tokens.Nodup →
    (∀ ti ∈ tokens, ∃ t, b.numberTokens.get? ti = some t ∧ t.hex = none) →
    ∀ tj, tj ∉ tokens →
      (placeRedLoop b tokens avail warn rng).1.numberTokens.get? tj =
        b.numberTokens.get? tj := by
  intro tokens
  induction tokens with
  | nil => intro b avail warn rng h1 h2 tj hj; rfl
  | cons ti rest ih =>
    intro b avail warn rng h1 h2 tj hj
    rw [List.nodup_cons] at h1
    obtain ⟨t0, ht0, htn⟩ := h2 ti (List.mem_cons_self _ _)
    unfold placeRedLoop
    dsimp only
    by_cases hv : (avail.filter (hexOkForRed b)).length > 0
    · rw [if_pos hv]
      have hfacts := placeTokenOnHex_facts b ti
        ((avail.filter (hexOkForRed b)).getD
          ((draw rng).1 % (avail.filter (hexOkForRed b)).length) (0, 0)) t0 ht0 htn
      rw [ih _ _ warn _ h1.2
        (by
          intro tk hk
          obtain ⟨t2, ht2, ht2n⟩ := h2 tk (List.mem_cons_of_mem _ hk)
          exact ⟨t2, (hfacts.2.2.1 tk (fun e => h1.1 (e ▸ hk))).trans ht2, ht2n⟩)
        tj (fun hm => hj (List.mem_cons_of_mem _ hm))]
      exact hfacts.2.2.1 tj (fun e => hj (e ▸ List.mem_cons_self _ _))
    · rw [if_neg hv]
      cases hgl : avail.getLast? with
      | none =>
        exact ih _ _ _ _ h1.2 (fun tk hk => h2 tk (List.mem_cons_of_mem _ hk))
          tj (fun hm => hj (List.mem_cons_of_mem _ hm))
      | some last =>
        have hfacts := placeTokenOnHex_facts b ti last t0 ht0 htn
        rw [ih _ _ true _ h1.2
          (by
            intro tk hk
            obtain ⟨t2, ht2, ht2n⟩ := h2 tk (List.mem_cons_of_mem _ hk)
            exact ⟨t2, (hfacts.2.2.1 tk (fun e => h1.1 (e ▸ hk))).trans ht2, ht2n⟩)
          tj (fun hm => hj (List.mem_cons_of_mem _ hm))]
        exact hfacts.2.2.1 tj (fun e => hj (e ▸ List.mem_cons_self _ _))

/-- `Board.placeNumberTokens` without the fallback warning keeps the
red-token constraint on a board that starts with no bound tokens. -/
theorem placeNumberTokens_inv (b : Board) (rng : List Nat)
    (Htok : ∀ kv ∈ b.hexes, kv.2.numberToken = none)
    (hwarn : (placeNumberTokens b rng).2.1 = false) :
    noMutualHighPair (placeNumberTokens b rng).1 := by
  have hredIdx : ((createStandardSet.enum.filter
      (fun p => p.2.isHighProbability)).map Prod.fst) = [7, 8, 9, 10] := by
    decide
  have hnonRedIdx : ((createStandardSet.enum.filter
      (fun p => ! p.2.isHighProbability)).map Prod.fst) =
      [0, 1, 2, 3, 4, 5, 6, 11, 12, 13, 14, 15, 16, 17] := by
    decide
  unfold placeNumberTokens at hwarn ⊢
  dsimp only at hwarn ⊢
  rw [hredIdx, hnonRedIdx] at hwarn ⊢
  set A := (b.hexes.filter (fun kv => kv.2.terrain ≠ Terrain.desert)).map
    Prod.fst with hAdef
  set b1 : Board := { b with numberTokens := createStandardSet } with hb1
  set sr := shuffleArray [7, 8, 9, 10] rng with hsr
  set sn := shuffleArray [0, 1, 2, 3, 4, 5, 6, 11, 12, 13, 14, 15, 16, 17]
    sr.2 with hsn
  set red := placeRedLoop b1 sr.1 A false sn.2 with hredL
  set sa := shuffleArray (A.filter (tokenFree red.1)) red.2.2.2 with hsa
  have hsrperm : List.Perm sr.1 [7, 8, 9, 10] := shuffleArray_perm _ _
  have hsnperm : List.Perm sn.1
      [0, 1, 2, 3, 4, 5, 6, 11, 12, 13, 14, 15, 16, 17] := shuffleArray_perm _ _
  have hsrnd : sr.1.Nodup := hsrperm.symm.nodup (by decide)
  have hsnnd : sn.1.Nodup := hsnperm.symm.nodup (by decide)
  have hubred : ∀ ti ∈ sr.1, ∃ t, b1.numberTokens.get? ti = some t ∧
      t.hex = none := by
    intro ti hti
    have hm := hsrperm.subset hti
    simp only [List.mem_cons, List.not_mem_nil, or_false] at hm
    rcases hm with rfl | rfl | rfl | rfl <;> exact ⟨_, rfl, rfl⟩
  have hinv1 : noMutualHighPair b1 := by
    intro k1 k2 h1 h2 hg1 hg2 hne hh1 hh2
    exfalso
    have hm1 : (k1, h1) ∈ b.hexes := mapGet_mem _ _ _ hg1
    have ht1 := Htok (k1, h1) hm1
    unfold hexHasHighToken at hh1
    rw [show h1.numberToken = none from ht1] at hh1
    cases hh1
  have hredinv := placeRedLoop_inv sr.1 b1 A false sn.2 hsrnd hubred hinv1 hwarn
  have hsnfacts : ∀ ti ∈ sn.1, ∃ t, red.1.numberTokens.get? ti = some t ∧
      t.hex = none ∧ t.isHighProbability = false := by
    intro ti hti
    have hm := hsnperm.subset hti
    have hnotr : ti ∉ sr.1 := by
      intro hin
      have h2 := hsrperm.subset hin
      revert hm
      simp only [List.mem_cons, List.not_mem_nil, or_false] at h2
      rcases h2 with rfl | rfl | rfl | rfl <;> decide
    rw [show red.1.numberTokens.get? ti = b1.numberTokens.get? ti from
      placeRedLoop_untouched sr.1 b1 A false sn.2 hsrnd hubred ti hnotr]
    simp only [List.mem_cons, List.not_mem_nil, or_false] at hm
    rcases hm with rfl | rfl | rfl | rfl | rfl | rfl | rfl | rfl | rfl | rfl |
      rfl | rfl | rfl | rfl <;> exact ⟨_, rfl, rfl, rfl⟩
  exact placeRemainingLoop_inv sn.1 sa.1 red.1 hsnnd hsnfacts hredinv

/-- Setting the generation flags does not affect the constraint. -/
theorem noMutualHighPair_mk_flags (b : Board) (g : Bool) (t : String)
    (h : noMutualHighPair b) :
    noMutualHighPair { b with isGenerated := g, boardType := t } := by
  intro k1 k2 h1 h2 hg1 hg2 hne hh1 hh2
  exact h k1 k2 h1 h2 hg1 hg2 hne hh1 hh2

/-- C6: on every generated standard board, for every outcome of the
random shuffles and choices, whenever the fallback warning did not fire
no two tiles bound to high-probability markers (value 6 or 8) are
mutual neighbors. -/
theorem c6_no_mutual_high_neighbors (b : Board) (rng : List Nat)
    (hwarn : (generateStandardBoard b rng).2.1 = false) :
    noMutualHighPair (generateStandardBoard b rng).1 := by
  unfold generateStandardBoard at hwarn ⊢
  dsimp only at hwarn ⊢
  set st := shuffleArray standardTerrains rng with hst
  have hcreate : createHexesLoop b.clear hexLayout st.1 0 =
      { b.clear with hexes := layoutHexes hexLayout st.1 0 } := by
    rw [createHexesLoop_spec hexLayout b.clear st.1 0
      (by intro c hc; show c ∉ ([] : List (HexId × Hex)).map Prod.fst; simp)
      (by decide)]
    rfl
  rw [hcreate] at hwarn ⊢
  set b2 : Board := { b.clear with hexes := layoutHexes hexLayout st.1 0 }
    with hb2
  set b3 := buildRelationships b2 with hb3
  have hframe := buildRelationships_frame b2
  rw [← hb3] at hframe
  have Htok3 : ∀ kv ∈ b3.hexes, kv.2.numberToken = none := by
    intro kv hkv
    have hc : (kv.1, hexCore kv.2) ∈ boardCores b2 := by
      rw [← hframe.1]
      exact List.mem_map.2 ⟨kv, hkv, rfl⟩
    obtain ⟨kv0, hkv0, he0⟩ := List.mem_map.1 hc
    simp only [Prod.mk.injEq] at he0
    have h9 := congrArg (fun x => x.2.2.2.1) he0.2
    simp only [hexCore] at h9
    rw [← h9]
    exact (layoutHexes_fields hexLayout st.1 0 kv0 hkv0).1
  have hpni := placeNumberTokens_inv b3 st.2 Htok3 hwarn
  exact noMutualHighPair_mk_flags _ _ _
    (placeRobberOnDesert_inv (placeNumberTokens b3 st.2).1 hpni)

/-- C6 witness: the zero-stream standard board generates without the
fallback warning, so its high tokens are never mutual neighbors. -/
theorem c6_witness : noMutualHighPair (generateStandardBoard emptyBoard []).1 :=
  c6_no_mutual_high_neighbors emptyBoard [] (by rfl)


end Natac
